import Mathlib

/-!
# qtnetworkng: the Unix socket core (src/socket_unix.cpp)

A shallow embedding of `QSocketPrivate` and its operations.

* The socket object is the record `QSocketPrivate`; every operation takes the
  socket value and returns the new one.
* The operating system is a script: the list of `Reply` values that the
  system calls of the operation will answer, in the order the calls are
  issued.  Only calls whose result the code reads consume a reply
  (`::close`, the `IPV6_V6ONLY` `::setsockopt` of `bind` do not).
* Every operation returns an `Exec`: the returned value, the new socket, the
  list of `Action`s performed (system calls, reactor wake-ups, suspensions)
  and the unread part of the script; or `blocked` when the script ends while
  the operation is still waiting for the system; or `fatal` for `qFatal` and
  `Q_UNREACHABLE`.
* Preprocessor conditionals are resolved as on Linux: `EWOULDBLOCK == EAGAIN`,
  `IPV6_V6ONLY`, `IP_PKTINFO`, `IP_RECVTTL`, `MSG_MORE` and `MSG_NOSIGNAL` are
  defined, `accept4` is compiled in, the `SO_REUSEPORT` branch of `setOption`
  is compiled out.
* Loops are functions from the loop head; a loop with an inner
  `do ... while (errno == EINTR)` carries a flag telling whether control is at
  the loop head or re-enters the system call.
-/

namespace QtNetworkNg

/-! ## Enumerations of include/socket.h that the source file names -/

/-- The values of `QSocket::SocketState` used by the source file. -/
inductive SocketState where
  | UnconnectedState
  | BoundState
  | ConnectingState
  | ConnectedState
  | ListeningState
  deriving DecidableEq, Repr

/-- The values of `QSocket::SocketType`. -/
inductive SocketType where
  | TcpSocket
  | UdpSocket
  | UnknownSocketType
  deriving DecidableEq, Repr

/-- The values of `QSocket::NetworkLayerProtocol` (the same as
`QAbstractSocket::NetworkLayerProtocol`, which the file uses interchangeably). -/
inductive NetworkLayerProtocol where
  | IPv4Protocol
  | IPv6Protocol
  | AnyIPProtocol
  | UnknownNetworkLayerProtocol
  deriving DecidableEq, Repr

/-- The values of `QSocket::SocketError` passed to `setError` in the source
file, and `NoError`, the value of a socket on which no error was recorded. -/
inductive SocketError where
  | NoError
  | ConnectionRefusedError
  | RemoteHostClosedError
  | SocketAccessError
  | SocketResourceError
  | DatagramTooLargeError
  | NetworkError
  | AddressInUseError
  | SocketAddressNotAvailableError
  | UnsupportedSocketOperationError
  | UnknownSocketError
  deriving DecidableEq, Repr

/-- The values of the enumeration `ErrorString` passed to `setError`. -/
inductive ErrorString where
  | ProtocolUnsupportedErrorString
  | ResourceErrorString
  | AccessErrorString
  | AddressInuseErrorString
  | AddressProtectedErrorString
  | OperationUnsupportedErrorString
  | AddressNotAvailableErrorString
  | UnknownSocketErrorString
  | ConnectionRefusedErrorString
  | ConnectionTimeOutErrorString
  | HostUnreachableErrorString
  | NetworkUnreachableErrorString
  | PortInuseErrorString
  | InvalidSocketErrorString
  | RemoteHostClosedErrorString
  | DatagramTooLargeErrorString
  | NotSocketErrorString
  deriving DecidableEq, Repr

/-- The values of `QSocket::SocketOption` named by `convertToLevelAndOption`. -/
inductive SocketOption where
  | BroadcastSocketOption
  | ReceiveBufferSizeSocketOption
  | SendBufferSizeSocketOption
  | AddressReusable
  | ReceiveOutOfBandData
  | LowDelayOption
  | KeepAliveOption
  | MulticastTtlOption
  | MulticastLoopbackOption
  | TypeOfServiceOption
  | ReceivePacketInformation
  | ReceiveHopLimit
  | MaxStreamsSocketOption
  | NonBlockingSocketOption
  | BindExclusively
  deriving DecidableEq, Repr

/-! ## System-level vocabulary -/

/-- The `errno` codes the source file names; `other` is any code the file
does not name. -/
inductive Errno where
  | EPROTONOSUPPORT
  | EAFNOSUPPORT
  | EINVAL
  | ENFILE
  | EMFILE
  | ENOBUFS
  | ENOMEM
  | EACCES
  | EADDRINUSE
  | EADDRNOTAVAIL
  | EINTR
  | EISCONN
  | EINPROGRESS
  | EALREADY
  | EAGAIN
  | ECONNREFUSED
  | ETIMEDOUT
  | EHOSTUNREACH
  | ENETUNREACH
  | EPERM
  | EBADF
  | EFAULT
  | ENOTSOCK
  | ECONNRESET
  | EIO
  | ENOTCONN
  | EMSGSIZE
  | EPIPE
  | EDESTADDRREQ
  | EOPNOTSUPP
  | ECONNABORTED
  | EPROTO
  | ENOSYS
  | other (code : Nat)
  deriving DecidableEq, Repr

/-- The `sa_family` tag of a socket address. -/
inductive SaFamily where
  | AF_INET
  | AF_INET6
  | AF_OTHER (code : Nat)
  deriving DecidableEq, Repr

/-- The levels of `getsockopt` and `setsockopt` written by the source. -/
inductive SockOptLevel where
  | SOL_SOCKET
  | IPPROTO_TCP
  | IPPROTO_IP
  | IPPROTO_IPV6
  deriving DecidableEq, Repr

/-- The option names of `getsockopt` and `setsockopt` written by the source. -/
inductive SockOptName where
  | SO_BROADCAST
  | SO_RCVBUF
  | SO_SNDBUF
  | SO_REUSEADDR
  | SO_OOBINLINE
  | TCP_NODELAY
  | SO_KEEPALIVE
  | IPV6_MULTICAST_HOPS
  | IP_MULTICAST_TTL
  | IPV6_MULTICAST_LOOP
  | IP_MULTICAST_LOOP
  | IP_TOS
  | IPV6_RECVPKTINFO
  | IP_PKTINFO
  | IPV6_RECVHOPLIMIT
  | IP_RECVTTL
  | IPV6_V6ONLY
  | SO_TYPE
  deriving DecidableEq, Repr

/-- The type `Q_IPV6ADDR`: the sixteen bytes of an IPv6 address, read as one number in
network order. -/
abbrev Q_IPV6ADDR := Nat

/-- The union `qt_sockaddr`.  The members `a4` and `a6` are kept as separate
fields; `family` tells which of them is meaningful.  `port` and `addr4` hold
the fields as stored, in network byte order. -/
structure qt_sockaddr where
  family : SaFamily
  port : Nat
  addr4 : Nat
  addr6 : Q_IPV6ADDR
  scope_id : Nat
  deriving DecidableEq, Repr

/-- The result of `memset(&aa, 0, sizeof(aa))`. -/
def qt_sockaddr.zero : qt_sockaddr :=
  { family := SaFamily.AF_OTHER 0, port := 0, addr4 := 0, addr6 := 0, scope_id := 0 }

/-- Qt's `QHostAddress`, as far as the source file uses it: the null address
(after `clear()`), an IPv4 address, an IPv6 address with its scope id, or the
dual-stack wildcard `QHostAddress::Any`. -/
inductive QHostAddress where
  | null
  | ipv4 (a : Nat)
  | ipv6 (a6 : Q_IPV6ADDR) (scopeId : String)
  | any
  deriving DecidableEq, Repr

namespace QHostAddress

/-- Qt's `QHostAddress::protocol()`. -/
def protocol : QHostAddress → NetworkLayerProtocol
  | null => NetworkLayerProtocol.UnknownNetworkLayerProtocol
  | ipv4 _ => NetworkLayerProtocol.IPv4Protocol
  | ipv6 _ _ => NetworkLayerProtocol.IPv6Protocol
  | any => NetworkLayerProtocol.AnyIPProtocol

/-- Qt's `QHostAddress::scopeId()`: only an IPv6 address carries one. -/
def scopeId : QHostAddress → String
  | ipv6 _ sc => sc
  | _ => ""

/-- Qt's `QHostAddress::setScopeId`: ignored unless the address is IPv6. -/
def setScopeId (a : QHostAddress) (sc : String) : QHostAddress :=
  match a with
  | ipv6 a6 _ => ipv6 a6 sc
  | other => other

/-- The IPv4-mapped IPv6 form `::ffff:a.b.c.d` of a 32-bit address. -/
def v4mapped (a : Nat) : Q_IPV6ADDR := 0xFFFF * 2 ^ 32 + a

/-- Qt's `QHostAddress::toIPv6Address()`: an IPv4 address is returned in its
IPv4-mapped form, the wildcard and the null address as zero. -/
def toIPv6Address : QHostAddress → Q_IPV6ADDR
  | ipv4 a => v4mapped a
  | ipv6 a6 _ => a6
  | _ => 0

/-- Qt's `QHostAddress::toIPv4Address()`: the 32-bit address of an IPv4
address, the low 32 bits of an IPv4-mapped IPv6 address, otherwise 0. -/
def toIPv4Address : QHostAddress → Nat
  | ipv4 a => a
  | ipv6 a6 _ => if a6 / 2 ^ 32 = 0xFFFF then a6 % 2 ^ 32 else 0
  | _ => 0

/-- The comparison `addr == QHostAddress::AnyIPv4`. -/
def isAnyIPv4 : QHostAddress → Bool
  | ipv4 a => a == 0
  | _ => false

/-- The comparison `addr == QHostAddress::AnyIPv6`. -/
def isAnyIPv6 : QHostAddress → Bool
  | ipv6 a6 _ => a6 == 0
  | _ => false

end QHostAddress

/-- Qt's `QVariant`, as far as `option` and `setOption` use it. -/
inductive QVariant where
  | invalid
  | ofBool (b : Bool)
  | ofInt (v : Int)
  | nonNumeric
  deriving DecidableEq, Repr

/-- Qt's `QVariant::toInt(&ok)`: `none` when `ok` is set to false. -/
def QVariant.toInt : QVariant → Option Int
  | QVariant.ofBool b => some (if b then 1 else 0)
  | QVariant.ofInt v => some v
  | _ => none

/-- The direction of a `ScopedIoWatcher`. -/
inductive Direction where
  | Read
  | Write
  deriving DecidableEq, Repr

/-- What an operation does to the outside world, in order. -/
inductive Action where
  | socket (family : SaFamily) (stream : Bool)
  | bind (fd : Int) (sa : qt_sockaddr) (len : Nat)
  | connect (fd : Int) (sa : qt_sockaddr) (len : Nat)
  | close (fd : Int)
  | listen (fd : Int) (backlog : Int)
  | getsockname (fd : Int)
  | getpeername (fd : Int)
  | getsockopt (fd : Int) (level : SockOptLevel) (name : Option SockOptName)
  | setsockopt (fd : Int) (level : SockOptLevel) (name : Option SockOptName) (value : Int)
  | recv (fd : Int) (len : Int)
  | send (fd : Int) (len : Int)
  | recvmsg (fd : Int) (len : Int)
  | sendmsg (fd : Int) (sa : qt_sockaddr) (len : Int)
  | accept4 (fd : Int)
  | accept (fd : Int)
  | fcntl (fd : Int)
  | triggerIoWatchers (fd : Int)
  | watcherStart (dir : Direction)
  deriving DecidableEq, Repr

/-- Whether an action is a system call (the other two are calls to the
event loop: waking the waiters of a descriptor, and suspending the task). -/
def Action.isSyscall : Action → Bool
  | Action.triggerIoWatchers _ => false
  | Action.watcherStart _ => false
  | _ => true

/-- The answer of the system to one call: `ok ret sa value` is a call that
succeeded, with `ret >= 0` the value of a call that returns a byte count or a
descriptor (a call that returns 0 on success does not read it), `sa` the
socket address written by a call that returns one, and `value` the integer
written by `getsockopt`; `err e` is a call that returned -1 with
`errno == e`. -/
inductive Reply where
  | ok (ret : Nat) (sa : qt_sockaddr) (value : Int)
  | err (e : Errno)
  deriving DecidableEq, Repr

/-- A successful call that returns only a number (a byte count, a
descriptor, or 0). -/
def Reply.val (n : Nat) : Reply := Reply.ok n qt_sockaddr.zero 0

/-! ## The socket object -/

/-- The data members of `QSocketPrivate` (include/socket_p.h) that the source
file reads or writes.  `errorString` is `none` while no error text was set. -/
structure QSocketPrivate where
  protocol : NetworkLayerProtocol
  type : SocketType
  error : SocketError
  errorString : Option ErrorString
  fd : Int
  localPort : Nat
  peerPort : Nat
  localAddress : QHostAddress
  peerAddress : QHostAddress
  state : SocketState
  deriving DecidableEq, Repr

/-- The outcome of running an operation against a script of replies. -/
inductive Exec (α : Type) where
  | ret (val : α) (sock : QSocketPrivate) (trace : List Action) (rest : List Reply)
  | blocked (sock : QSocketPrivate) (trace : List Action)
  | fatal (trace : List Action)
  deriving DecidableEq, Repr

/-- The value an operation returned, when it returned. -/
def Exec.value? {α : Type} : Exec α → Option α
  | Exec.ret v _ _ _ => some v
  | _ => none

/-- The socket an operation left, when it returned. -/
def Exec.socket? {α : Type} : Exec α → Option QSocketPrivate
  | Exec.ret _ s _ _ => some s
  | _ => none

/-- The actions an operation performed. -/
def Exec.actions {α : Type} : Exec α → List Action
  | Exec.ret _ _ tr _ => tr
  | Exec.blocked _ tr => tr
  | Exec.fatal tr => tr

/-- Put the actions `pre`, performed earlier, in front of an outcome. -/
def Exec.after {α : Type} (pre : List Action) : Exec α → Exec α
  | Exec.ret v s tr rest => Exec.ret v s (pre ++ tr) rest
  | Exec.blocked s tr => Exec.blocked s (pre ++ tr)
  | Exec.fatal tr => Exec.fatal (pre ++ tr)

namespace QSocketPrivate

/-- Modelled from the spec: `isValid()` is declared in include/socket_p.h,
which is not part of the sources at hand.  The spec (section 3) calls the
descriptor valid when it is at least 0 and not yet closed; `close` stores -1
in a descriptor it has closed. -/
def isValid (s : QSocketPrivate) : Bool := decide (0 ≤ s.fd)

/-- Modelled from the spec: `setError(kind, text)` is defined outside the
sources at hand; it overwrites the last error, kind and description. -/
def setError (s : QSocketPrivate) (e : SocketError) (str : ErrorString) : QSocketPrivate :=
  { s with error := e, errorString := some str }

/-- The function `QSocketPrivate::close()` (lines 307-321): the new socket and the actions
performed.  The function always returns true. -/
def close (s : QSocketPrivate) : QSocketPrivate × List Action :=
  let r : QSocketPrivate × List Action :=
    if 0 < s.fd then
      ({ s with fd := -1 }, [Action.close s.fd, Action.triggerIoWatchers s.fd])
    else (s, [])
  ({ r.1 with
      state := SocketState.UnconnectedState
      localAddress := QHostAddress.null
      localPort := 0
      peerAddress := QHostAddress.null
      peerPort := 0 }, r.2)

end QSocketPrivate

/-! ## Address codec -/

/-- What the source takes from the system it runs on and from Qt's string
class: the interface table behind `if_nametoindex` (0 when no interface has
the name) and `if_indextoname` (`none` for a null result), `QString::toUInt`
(`none` when `ok` is set to false), `QString::number`, and the comparison
`error == EINTR` of line 713, which depends on the integer values of
`QSocket::SocketError` (include/socket.h, not part of the sources at hand). -/
structure Platform where
  if_nametoindex : String → Nat
  if_indextoname : Nat → Option String
  toUInt : String → Option Nat
  number : Nat → String
  errorIsEINTR : SocketError → Bool

/-- The functions `htons` and `ntohs` on a little-endian host: the two bytes swapped. -/
def htons (p : Nat) : Nat := (p % 256) * 256 + (p / 256) % 256

/-- See `htons`. -/
def ntohs (p : Nat) : Nat := htons p

/-- The functions `htonl` and `ntohl` on a little-endian host: the four bytes reversed. -/
def htonl (a : Nat) : Nat :=
  (a % 256) * 2 ^ 24 + ((a / 2 ^ 8) % 256) * 2 ^ 16 + ((a / 2 ^ 16) % 256) * 2 ^ 8
    + (a / 2 ^ 24) % 256

/-- See `htonl`. -/
def ntohl (a : Nat) : Nat := htonl a

/-- The size `sizeof(sockaddr_in)`. -/
def sizeof_sockaddr_in : Nat := 16

/-- The size `sizeof(sockaddr_in6)`. -/
def sizeof_sockaddr_in6 : Nat := 28

/-- The function `qt_socket_getPortAndAddress` (lines 40-71) with both out-pointers given:
the decoded port and address, or `none` when `qFatal` is reached. -/
def qt_socket_getPortAndAddress (p : Platform) (s : qt_sockaddr) :
    Option (Nat × QHostAddress) :=
  match s.family with
  | SaFamily.AF_INET6 =>
    let tmpAddress := QHostAddress.ipv6 s.addr6 ""
    let addr :=
      if s.scope_id ≠ 0 then
        match p.if_indextoname s.scope_id with
        | some scopeid => tmpAddress.setScopeId scopeid
        | none => tmpAddress.setScopeId (p.number s.scope_id)
      else tmpAddress
    some (ntohs s.port, addr)
  | SaFamily.AF_INET => some (ntohs s.port, QHostAddress.ipv4 (ntohl s.addr4))
  | SaFamily.AF_OTHER _ => none

/-- The function `scopeIdFromString` (lines 114-123). -/
def scopeIdFromString (p : Platform) (scopeId : String) : Nat :=
  if scopeId.isEmpty then 0
  else
    match p.toUInt scopeId with
    | some id => id
    | none => p.if_nametoindex scopeId

namespace QSocketPrivate

/-- The function `QSocketPrivate::setPortAndAddress` (lines 135-157): the socket address
written to `aa` and the size written to `sockAddrSize`. -/
def setPortAndAddress (p : Platform) (s : QSocketPrivate) (port : Nat)
    (address : QHostAddress) : qt_sockaddr × Nat :=
  if address.protocol = NetworkLayerProtocol.IPv6Protocol
      ∨ address.protocol = NetworkLayerProtocol.AnyIPProtocol
      ∨ s.protocol = NetworkLayerProtocol.IPv6Protocol
      ∨ s.protocol = NetworkLayerProtocol.AnyIPProtocol then
    ({ family := SaFamily.AF_INET6
       port := htons port
       addr4 := 0
       addr6 := address.toIPv6Address
       scope_id := scopeIdFromString p address.scopeId }, sizeof_sockaddr_in6)
  else
    ({ family := SaFamily.AF_INET
       port := htons port
       addr4 := htonl address.toIPv4Address
       addr6 := 0
       scope_id := 0 }, sizeof_sockaddr_in)

end QSocketPrivate

/-! ## Sequencing -/

/-- Run `f` on the value, socket and unread script of a returned outcome. -/
def Exec.andThen {α β : Type} (x : Exec α)
    (f : α → QSocketPrivate → List Reply → Exec β) : Exec β :=
  match x with
  | Exec.ret v s tr rest => Exec.after tr (f v s rest)
  | Exec.blocked s tr => Exec.blocked s tr
  | Exec.fatal tr => Exec.fatal tr

/-! ## Socket options -/

/-- The function `convertToLevelAndOption` (lines 763-851): the level and the option name
(`none` for the unresolved marker -1); the outer `none` is `Q_UNREACHABLE`. -/
def convertToLevelAndOption (opt : SocketOption) (socketProtocol : NetworkLayerProtocol) :
    Option (SockOptLevel × Option SockOptName) :=
  let v6 : Bool := socketProtocol = NetworkLayerProtocol.IPv6Protocol
    ∨ socketProtocol = NetworkLayerProtocol.AnyIPProtocol
  let v4 : Bool := socketProtocol = NetworkLayerProtocol.IPv4Protocol
  match opt with
  | SocketOption.BroadcastSocketOption =>
    some (SockOptLevel.SOL_SOCKET, some SockOptName.SO_BROADCAST)
  | SocketOption.ReceiveBufferSizeSocketOption =>
    some (SockOptLevel.SOL_SOCKET, some SockOptName.SO_RCVBUF)
  | SocketOption.SendBufferSizeSocketOption =>
    some (SockOptLevel.SOL_SOCKET, some SockOptName.SO_SNDBUF)
  | SocketOption.AddressReusable =>
    some (SockOptLevel.SOL_SOCKET, some SockOptName.SO_REUSEADDR)
  | SocketOption.ReceiveOutOfBandData =>
    some (SockOptLevel.SOL_SOCKET, some SockOptName.SO_OOBINLINE)
  | SocketOption.LowDelayOption =>
    some (SockOptLevel.IPPROTO_TCP, some SockOptName.TCP_NODELAY)
  | SocketOption.KeepAliveOption =>
    some (SockOptLevel.SOL_SOCKET, some SockOptName.SO_KEEPALIVE)
  | SocketOption.MulticastTtlOption =>
    if v6 then some (SockOptLevel.IPPROTO_IPV6, some SockOptName.IPV6_MULTICAST_HOPS)
    else some (SockOptLevel.IPPROTO_IP, some SockOptName.IP_MULTICAST_TTL)
  | SocketOption.MulticastLoopbackOption =>
    if v6 then some (SockOptLevel.IPPROTO_IPV6, some SockOptName.IPV6_MULTICAST_LOOP)
    else some (SockOptLevel.IPPROTO_IP, some SockOptName.IP_MULTICAST_LOOP)
  | SocketOption.TypeOfServiceOption =>
    if v4 then some (SockOptLevel.IPPROTO_IP, some SockOptName.IP_TOS)
    else some (SockOptLevel.SOL_SOCKET, none)
  | SocketOption.ReceivePacketInformation =>
    if v6 then some (SockOptLevel.IPPROTO_IPV6, some SockOptName.IPV6_RECVPKTINFO)
    else if v4 then some (SockOptLevel.IPPROTO_IP, some SockOptName.IP_PKTINFO)
    else some (SockOptLevel.SOL_SOCKET, none)
  | SocketOption.ReceiveHopLimit =>
    if v6 then some (SockOptLevel.IPPROTO_IPV6, some SockOptName.IPV6_RECVHOPLIMIT)
    else if v4 then some (SockOptLevel.IPPROTO_IP, some SockOptName.IP_RECVTTL)
    else some (SockOptLevel.SOL_SOCKET, none)
  | SocketOption.MaxStreamsSocketOption => some (SockOptLevel.SOL_SOCKET, none)
  | SocketOption.NonBlockingSocketOption => none
  | SocketOption.BindExclusively => none

namespace QSocketPrivate

/-- The function `QSocketPrivate::option` (lines 854-871). -/
def option (s : QSocketPrivate) (opt : SocketOption) (script : List Reply) : Exec QVariant :=
  if !s.isValid then Exec.ret QVariant.invalid s [] script
  else if opt = SocketOption.BroadcastSocketOption then
    Exec.ret (QVariant.ofBool true) s [] script
  else
    match convertToLevelAndOption opt s.protocol with
    | none => Exec.fatal []
    | some (_, none) => Exec.ret QVariant.invalid s [] script
    | some (level, some n) =>
      match script with
      | [] => Exec.blocked s [Action.getsockopt s.fd level (some n)]
      | Reply.ok _ _ v :: rest =>
        Exec.ret (QVariant.ofInt v) s [Action.getsockopt s.fd level (some n)] rest
      | Reply.err _ :: rest =>
        Exec.ret QVariant.invalid s [Action.getsockopt s.fd level (some n)] rest

/-- The function `QSocketPrivate::setOption` (lines 874-901). -/
def setOption (s : QSocketPrivate) (opt : SocketOption) (value : QVariant)
    (script : List Reply) : Exec Bool :=
  if !s.isValid then Exec.ret false s [] script
  else if opt = SocketOption.BroadcastSocketOption then Exec.ret true s [] script
  else
    match value.toInt with
    | none => Exec.ret false s [] script
    | some v =>
      match convertToLevelAndOption opt s.protocol with
      | none => Exec.fatal []
      | some (level, n) =>
        match script with
        | [] => Exec.blocked s [Action.setsockopt s.fd level n v]
        | Reply.ok _ _ _ :: rest =>
          Exec.ret true s [Action.setsockopt s.fd level n v] rest
        | Reply.err _ :: rest =>
          Exec.ret false s [Action.setsockopt s.fd level n v] rest

end QSocketPrivate

/-! ## Creation, bind, listen, connect -/

/-- The mode argument of `bind`: `QSocket::BindMode`, of which the source
tests the flag `ReuseAddressHint`. -/
inductive BindMode where
  | DefaultForPlatform
  | ReuseAddressHint
  deriving DecidableEq, Repr

/-- The constant `SOCK_STREAM`, as `getsockopt(SO_TYPE)` reports it. -/
def SOCK_STREAM : Int := 1

/-- The constant `SOCK_DGRAM`, as `getsockopt(SO_TYPE)` reports it. -/
def SOCK_DGRAM : Int := 2

/-- The error switch of `bind` (lines 194-211). -/
def bindError : Errno → SocketError × ErrorString
  | Errno.EADDRINUSE => (SocketError.AddressInUseError, ErrorString.AddressInuseErrorString)
  | Errno.EACCES => (SocketError.SocketAccessError, ErrorString.AddressProtectedErrorString)
  | Errno.EINVAL =>
    (SocketError.UnsupportedSocketOperationError, ErrorString.OperationUnsupportedErrorString)
  | Errno.EADDRNOTAVAIL =>
    (SocketError.SocketAddressNotAvailableError, ErrorString.AddressNotAvailableErrorString)
  | _ => (SocketError.UnknownSocketError, ErrorString.UnknownSocketErrorString)

/-- The error switch of `listen` (lines 331-338). -/
def listenError : Errno → SocketError × ErrorString
  | Errno.EADDRINUSE => (SocketError.AddressInUseError, ErrorString.PortInuseErrorString)
  | _ => (SocketError.UnknownSocketError, ErrorString.UnknownSocketErrorString)

namespace QSocketPrivate

/-- The end of `fetchConnectionParameters` (lines 409-421): the socket type
reported by `getsockopt(SO_TYPE)`. -/
def fetchType (s : QSocketPrivate) : List Reply → Exec Bool
  | [] =>
    Exec.blocked s [Action.getsockopt s.fd SockOptLevel.SOL_SOCKET (some SockOptName.SO_TYPE)]
  | Reply.ok _ _ value :: rest =>
    Exec.ret true
      (if value = SOCK_STREAM then { s with type := SocketType.TcpSocket }
        else if value = SOCK_DGRAM then { s with type := SocketType.UdpSocket }
        else { s with type := SocketType.UnknownSocketType })
      [Action.getsockopt s.fd SockOptLevel.SOL_SOCKET (some SockOptName.SO_TYPE)] rest
  | Reply.err _ :: rest =>
    Exec.ret true s
      [Action.getsockopt s.fd SockOptLevel.SOL_SOCKET (some SockOptName.SO_TYPE)] rest

/-- The part of `fetchConnectionParameters` from the remote address on (lines
405-421). -/
def fetchPeer (p : Platform) (s : QSocketPrivate) : List Reply → Exec Bool
  | [] => Exec.blocked s [Action.getpeername s.fd]
  | Reply.ok _ sa _ :: rest =>
    match qt_socket_getPortAndAddress p sa with
    | none => Exec.fatal [Action.getpeername s.fd]
    | some out =>
      Exec.after [Action.getpeername s.fd]
        (fetchType { s with peerPort := out.1, peerAddress := out.2 } rest)
  | Reply.err _ :: rest => Exec.after [Action.getpeername s.fd] (fetchType s rest)

/-- The part of `fetchConnectionParameters` from the dual-stack test on
(lines 386-421). -/
def fetchDual (p : Platform) (s : QSocketPrivate) (script : List Reply) : Exec Bool :=
  if s.protocol = NetworkLayerProtocol.IPv6Protocol
      ∧ (s.localAddress.isAnyIPv4 = true ∨ s.localAddress.isAnyIPv6 = true) then
    match script with
    | [] =>
      Exec.blocked s
        [Action.getsockopt s.fd SockOptLevel.IPPROTO_IPV6 (some SockOptName.IPV6_V6ONLY)]
    | Reply.ok _ _ ipv6only :: rest =>
      Exec.after
        [Action.getsockopt s.fd SockOptLevel.IPPROTO_IPV6 (some SockOptName.IPV6_V6ONLY)]
        (fetchPeer p
          (if ipv6only = 0 then
            { s with protocol := NetworkLayerProtocol.AnyIPProtocol
                     localAddress := QHostAddress.any }
          else s) rest)
    | Reply.err _ :: rest =>
      Exec.after
        [Action.getsockopt s.fd SockOptLevel.IPPROTO_IPV6 (some SockOptName.IPV6_V6ONLY)]
        (fetchPeer p s rest)
  else fetchPeer p s script

/-- The socket after lines 349-352 of `fetchConnectionParameters`: both
endpoints cleared. -/
def clearEndpoints (s : QSocketPrivate) : QSocketPrivate :=
  { s with
    localPort := 0, localAddress := QHostAddress.null
    peerPort := 0, peerAddress := QHostAddress.null }

/-- The protocol that `fetchConnectionParameters` derives from the family of
the local address (lines 367-378). -/
def protocolOfFamily : SaFamily → NetworkLayerProtocol
  | SaFamily.AF_INET => NetworkLayerProtocol.IPv4Protocol
  | SaFamily.AF_INET6 => NetworkLayerProtocol.IPv6Protocol
  | SaFamily.AF_OTHER _ => NetworkLayerProtocol.UnknownNetworkLayerProtocol

/-- The function `QSocketPrivate::fetchConnectionParameters` (lines 347-422). -/
def fetchConnectionParameters (p : Platform) (s : QSocketPrivate) (script : List Reply) :
    Exec Bool :=
  if s.clearEndpoints.fd = -1 then Exec.ret false s.clearEndpoints [] script
  else
    match script with
    | [] => Exec.blocked s.clearEndpoints [Action.getsockname s.fd]
    | Reply.ok _ sa _ :: rest =>
      match qt_socket_getPortAndAddress p sa with
      | none => Exec.fatal [Action.getsockname s.fd]
      | some out =>
        Exec.after [Action.getsockname s.fd]
          (fetchDual p
            { s.clearEndpoints with
              localPort := out.1, localAddress := out.2, protocol := protocolOfFamily sa.family }
            rest)
    | Reply.err e :: rest =>
      if e = Errno.EBADF then
        Exec.ret false
          (s.clearEndpoints.setError SocketError.UnsupportedSocketOperationError
            ErrorString.InvalidSocketErrorString)
          [Action.getsockname s.fd] rest
      else Exec.after [Action.getsockname s.fd] (fetchDual p s.clearEndpoints rest)

/-- The end of `bind` (lines 192-215), once the result of the last `::bind`
call is known. -/
def bindFinish (s : QSocketPrivate) (r : Reply) : Bool × QSocketPrivate :=
  match r with
  | Reply.err e => (false, s.setError (bindError e).1 (bindError e).2)
  | Reply.ok _ _ _ => (true, { s with state := SocketState.BoundState })

/-- The part of `bind` after the address-reuse option (lines 172-215): the
explicit `IPV6_V6ONLY` setting for an IPv6 socket address, the `::bind` call,
and its retry with the IPv4 form. -/
def bindCall (s : QSocketPrivate) (address : QHostAddress) (port : Nat) (aa : qt_sockaddr)
    (sockAddrSize : Nat) (script : List Reply) : Exec Bool :=
  let v6only : List Action :=
    if aa.family = SaFamily.AF_INET6 then
      [Action.setsockopt s.fd SockOptLevel.IPPROTO_IPV6 (some SockOptName.IPV6_V6ONLY)
        (if address.protocol = NetworkLayerProtocol.IPv6Protocol then 1 else 0)]
    else []
  Exec.after v6only
    (match script with
    | [] => Exec.blocked s [Action.bind s.fd aa sockAddrSize]
    | r :: rest =>
      if r = Reply.err Errno.EAFNOSUPPORT
          ∧ address.protocol = NetworkLayerProtocol.AnyIPProtocol then
        -- retry with v4
        let aa4 := { aa with
          family := SaFamily.AF_INET
          port := htons port
          addr4 := htonl address.toIPv4Address }
        match rest with
        | [] =>
          Exec.blocked s
            [Action.bind s.fd aa sockAddrSize, Action.bind s.fd aa4 sizeof_sockaddr_in]
        | r2 :: rest2 =>
          Exec.ret (bindFinish s r2).1 (bindFinish s r2).2
            [Action.bind s.fd aa sockAddrSize, Action.bind s.fd aa4 sizeof_sockaddr_in]
            rest2
      else
        Exec.ret (bindFinish s r).1 (bindFinish s r).2
          [Action.bind s.fd aa sockAddrSize] rest)

/-- The function `QSocketPrivate::bind` (lines 159-216). -/
def bind (p : Platform) (s : QSocketPrivate) (address : QHostAddress) (port : Nat)
    (mode : BindMode) (script : List Reply) : Exec Bool :=
  if !s.isValid then Exec.ret false s [] script
  else if s.state ≠ SocketState.UnconnectedState then Exec.ret false s [] script
  else
    let reuse : Exec Bool :=
      if mode = BindMode.ReuseAddressHint then
        s.setOption SocketOption.AddressReusable (QVariant.ofBool true) script
      else Exec.ret true s [] script
    reuse.andThen fun _ s1 script1 =>
      s1.bindCall address port (s.setPortAndAddress p port address).1
        (s.setPortAndAddress p port address).2 script1

/-- The function `QSocketPrivate::listen` (lines 323-344). -/
def listen (p : Platform) (s : QSocketPrivate) (backlog : Int) (script : List Reply) :
    Exec Bool :=
  if !s.isValid then Exec.ret false s [] script
  else if s.state ≠ SocketState.BoundState ∧ s.state ≠ SocketState.UnconnectedState then
    Exec.ret false s [] script
  else
    match script with
    | [] => Exec.blocked s [Action.listen s.fd backlog]
    | Reply.err e :: rest =>
      Exec.ret false (s.setError (listenError e).1 (listenError e).2)
        [Action.listen s.fd backlog] rest
    | Reply.ok _ _ _ :: rest =>
      Exec.after [Action.listen s.fd backlog]
        ((fetchConnectionParameters p { s with state := SocketState.ListeningState } rest).andThen
          fun _ s1 rest1 => Exec.ret true s1 [] rest1)

end QSocketPrivate

/-! ## connect -/

/-- The failing cases of the error switch of `connect` (lines 257-299): the
error recorded for a code other than `EISCONN`, `EINPROGRESS`, `EALREADY`
and `EAGAIN`. -/
def connectError : Errno → SocketError × ErrorString
  | Errno.ECONNREFUSED | Errno.EINVAL =>
    (SocketError.ConnectionRefusedError, ErrorString.ConnectionRefusedErrorString)
  | Errno.ETIMEDOUT => (SocketError.NetworkError, ErrorString.ConnectionTimeOutErrorString)
  | Errno.EHOSTUNREACH => (SocketError.NetworkError, ErrorString.HostUnreachableErrorString)
  | Errno.ENETUNREACH => (SocketError.NetworkError, ErrorString.NetworkUnreachableErrorString)
  | Errno.EADDRINUSE => (SocketError.NetworkError, ErrorString.AddressInuseErrorString)
  | Errno.EADDRNOTAVAIL => (SocketError.NetworkError, ErrorString.UnknownSocketErrorString)
  | Errno.EACCES | Errno.EPERM =>
    (SocketError.SocketAccessError, ErrorString.AccessErrorString)
  | Errno.EAFNOSUPPORT | Errno.EBADF | Errno.EFAULT | Errno.ENOTSOCK =>
    (SocketError.UnsupportedSocketOperationError, ErrorString.UnknownSocketErrorString)
  | _ => (SocketError.UnknownSocketError, ErrorString.UnknownSocketErrorString)

/-- The cases of the error switch of `connect` that assign `fd = -1`
(lines 287-291). -/
def connectDropsFd : Errno → Bool
  | Errno.EAFNOSUPPORT | Errno.EBADF | Errno.EFAULT | Errno.ENOTSOCK => true
  | _ => false

namespace QSocketPrivate

/-- The checks at the head of the loop of `connect` (lines 232-235): true
when the loop returns false there. -/
def connectHead (s : QSocketPrivate) : Bool :=
  !s.isValid || decide (s.state ≠ SocketState.ConnectingState)

/-- The socket after a failing case of the error switch of `connect`. -/
def connectFail (s : QSocketPrivate) (e : Errno) : QSocketPrivate :=
  let s1 := if connectDropsFd e then { s with fd := -1 } else s
  { s1.setError (connectError e).1 (connectError e).2 with
    state := SocketState.UnconnectedState }

/-- The loop of `connect` (lines 230-302).  With `inner = false` control is at
the head of `while(true)`; with `inner = true` it re-enters the call of the
`do ... while` after `EINTR`. -/
def connectLoop (p : Platform) (aa : qt_sockaddr) (sockAddrSize : Nat) (s : QSocketPrivate)
    (inner : Bool) : List Reply → Exec Bool
  | [] =>
    if inner = false ∧ s.connectHead = true then Exec.ret false s [] []
    else Exec.blocked s [Action.connect s.fd aa sockAddrSize]
  | r :: rest =>
    if inner = false ∧ s.connectHead = true then Exec.ret false s [] (r :: rest)
    else
      Exec.after [Action.connect s.fd aa sockAddrSize]
        (match r with
        | Reply.err Errno.EINTR => connectLoop p aa sockAddrSize s true rest
        | Reply.ok _ _ _ | Reply.err Errno.EISCONN =>
          (fetchConnectionParameters p { s with state := SocketState.ConnectedState } rest).andThen
            fun _ s1 rest1 => Exec.ret true s1 [] rest1
        | Reply.err Errno.EINPROGRESS | Reply.err Errno.EALREADY | Reply.err Errno.EAGAIN =>
          Exec.after [Action.watcherStart Direction.Write]
            (connectLoop p aa sockAddrSize s false rest)
        | Reply.err e => Exec.ret false (s.connectFail e) [] rest)

/-- The function `QSocketPrivate::connect` (lines 219-303). -/
def connect (p : Platform) (s : QSocketPrivate) (address : QHostAddress) (port : Nat)
    (script : List Reply) : Exec Bool :=
  if !s.isValid then Exec.ret false s [] script
  else if s.state ≠ SocketState.UnconnectedState ∧ s.state ≠ SocketState.BoundState
      ∧ s.state ≠ SocketState.ConnectingState then Exec.ret false s [] script
  else
    connectLoop p (s.setPortAndAddress p port address).1 (s.setPortAndAddress p port address).2
      { s with state := SocketState.ConnectingState } false script

end QSocketPrivate

/-! ## recv and send -/

namespace QSocketPrivate

/-- The value `total == 0 ? -1 : total` returned by the failure exits of
`recv`. -/
def recvFailValue (total : Int) : Int := if total = 0 then -1 else total

/-- The head of the loop of `recv` (lines 432-450): `some (value, socket)` when
the loop ends there (the loop condition is false, or a check fails), `none`
when control reaches the call of `::recv`. -/
def recvHead (s : QSocketPrivate) (size total : Int) : Option (Int × QSocketPrivate) :=
  if ¬ total < size then some (total, s)
  else if !s.isValid then
    some (recvFailValue total,
      s.setError SocketError.SocketAccessError ErrorString.AccessErrorString)
  else
    let unsupported : Option (Int × QSocketPrivate) :=
      some (recvFailValue total,
        s.setError SocketError.UnsupportedSocketOperationError
          ErrorString.OperationUnsupportedErrorString)
    if s.type = SocketType.TcpSocket then
      if s.state ≠ SocketState.ConnectedState then unsupported else none
    else if s.type = SocketType.UdpSocket then
      if s.state ≠ SocketState.UnconnectedState ∧ s.state ≠ SocketState.BoundState then
        unsupported
      else none
    else unsupported

/-- The exit of `recv` for a peer that closed the stream (lines 470-473 and
483-485): record `RemoteHostClosedError`, close, return `total`. -/
def recvRemoteClosed (s : QSocketPrivate) (total : Int) (rest : List Reply) : Exec Int :=
  let s1 := s.setError SocketError.RemoteHostClosedError
    ErrorString.RemoteHostClosedErrorString
  Exec.ret total s1.close.1 s1.close.2 rest

/-- The loop of `recv` (lines 432-492).  With `inner = false` control is at
the loop condition; with `inner = true` it re-enters the call of the
`do ... while` after `EINTR`. -/
def recvLoop (s : QSocketPrivate) (size : Int) (all : Bool) (total : Int) (inner : Bool) :
    List Reply → Exec Int
  | [] =>
    match (if inner then none else s.recvHead size total) with
    | some out => Exec.ret out.1 out.2 [] []
    | none => Exec.blocked s [Action.recv s.fd (size - total)]
  | r :: rest =>
    match (if inner then none else s.recvHead size total) with
    | some out => Exec.ret out.1 out.2 [] (r :: rest)
    | none =>
      Exec.after [Action.recv s.fd (size - total)]
        (match r with
        | Reply.err Errno.EINTR => recvLoop s size all total true rest
        | Reply.err Errno.EAGAIN =>
          Exec.after [Action.watcherStart Direction.Read]
            (recvLoop s size all total false rest)
        | Reply.err Errno.ECONNRESET =>
          if s.type = SocketType.TcpSocket then s.recvRemoteClosed total rest
          else Exec.ret total s [] rest
        | Reply.err _ =>
          let s1 := s.setError SocketError.NetworkError ErrorString.InvalidSocketErrorString
          Exec.ret (recvFailValue total) s1.close.1 s1.close.2 rest
        | Reply.ok n _ _ =>
          if n = 0 ∧ s.type = SocketType.TcpSocket then s.recvRemoteClosed total rest
          else if all then recvLoop s size all (total + n) false rest
          else Exec.ret (total + n) s [] rest)

/-- The function `QSocketPrivate::recv` (lines 425-493). -/
def recv (s : QSocketPrivate) (size : Int) (all : Bool) (script : List Reply) : Exec Int :=
  if !s.isValid then Exec.ret (-1) s [] script
  else s.recvLoop size all 0 false script

end QSocketPrivate

/-- The error switch of `send` (lines 573-603) for a code other than `EAGAIN`:
the error recorded and whether the socket is closed. -/
def sendError : Errno → SocketError × ErrorString × Bool
  | Errno.EACCES => (SocketError.SocketAccessError, ErrorString.AccessErrorString, true)
  | Errno.EBADF | Errno.EFAULT | Errno.EINVAL | Errno.ENOTCONN | Errno.ENOTSOCK =>
    (SocketError.UnsupportedSocketOperationError, ErrorString.InvalidSocketErrorString, true)
  | Errno.EMSGSIZE | Errno.ENOBUFS | Errno.ENOMEM =>
    (SocketError.DatagramTooLargeError, ErrorString.DatagramTooLargeErrorString, false)
  | Errno.EPIPE | Errno.ECONNRESET =>
    (SocketError.RemoteHostClosedError, ErrorString.RemoteHostClosedErrorString, true)
  | _ => (SocketError.UnknownSocketError, ErrorString.UnknownSocketErrorString, true)

namespace QSocketPrivate

/-- The socket and the actions of a failing case of the error switch of
`send`. -/
def sendFail (s : QSocketPrivate) (e : Errno) : QSocketPrivate × List Action :=
  let s1 := s.setError (sendError e).1 (sendError e).2.1
  if (sendError e).2.2 then s1.close else (s1, [])

/-- The loop of `send` (lines 560-606).  With `inner = false` control is at
the loop condition; with `inner = true` it re-enters the call of the
`do ... while` after `EINTR`. -/
def sendLoop (s : QSocketPrivate) (size : Int) (all : Bool) (sent : Int) (inner : Bool) :
    List Reply → Exec Int
  | [] =>
    if inner = false ∧ ¬ sent < size then Exec.ret sent s [] []
    else Exec.blocked s [Action.send s.fd (size - sent)]
  | r :: rest =>
    if inner = false ∧ ¬ sent < size then Exec.ret sent s [] (r :: rest)
    else
      Exec.after [Action.send s.fd (size - sent)]
        (match r with
        | Reply.err Errno.EINTR => sendLoop s size all sent true rest
        | Reply.err Errno.EAGAIN =>
          Exec.after [Action.watcherStart Direction.Write] (sendLoop s size all sent false rest)
        | Reply.err e => Exec.ret sent (s.sendFail e).1 (s.sendFail e).2 rest
        | Reply.ok w _ _ =>
          if 0 < w then
            if !all then Exec.ret w s [] rest
            else
              Exec.after [Action.watcherStart Direction.Write]
                (sendLoop s size all (sent + w) false rest)
          else
            Exec.after [Action.watcherStart Direction.Write]
              (sendLoop s size all sent false rest))

/-- The function `QSocketPrivate::send` (lines 551-608). -/
def send (s : QSocketPrivate) (size : Int) (all : Bool) (script : List Reply) : Exec Int :=
  if !s.isValid then Exec.ret 0 s [] script
  else s.sendLoop size all 0 false script

end QSocketPrivate

/-! ## recvfrom, sendto, accept -/

/-- The classes of the error switch of `recvfrom` (lines 641-671) for a code
other than `EAGAIN`. -/
inductive RecvfromClass where
  | peerGone
  | resource
  | invalid
  deriving DecidableEq, Repr

/-- The error switch of `recvfrom` (lines 641-671). -/
def recvfromClass : Errno → RecvfromClass
  | Errno.ECONNRESET | Errno.ECONNREFUSED | Errno.ENOTCONN => RecvfromClass.peerGone
  | Errno.ENOMEM => RecvfromClass.resource
  | _ => RecvfromClass.invalid

/-- The classes of the error switch of `sendto` (lines 717-752) for a code
other than `EAGAIN`: either the stream peer is gone (`ECONNRESET`,
`ENOTSOCK`), or an error is recorded and the socket left open. -/
def sendtoError : Errno → Option (SocketError × ErrorString)
  | Errno.ECONNRESET | Errno.ENOTSOCK => none
  | Errno.EACCES => some (SocketError.SocketAccessError, ErrorString.AccessErrorString)
  | Errno.EMSGSIZE =>
    some (SocketError.DatagramTooLargeError, ErrorString.DatagramTooLargeErrorString)
  | Errno.EDESTADDRREQ | Errno.EISCONN | Errno.ENOTCONN =>
    some (SocketError.UnsupportedSocketOperationError, ErrorString.InvalidSocketErrorString)
  | Errno.ENOBUFS | Errno.ENOMEM =>
    some (SocketError.SocketResourceError, ErrorString.ResourceErrorString)
  | _ => some (SocketError.NetworkError, ErrorString.InvalidSocketErrorString)

/-- The error switch of `accept` (lines 966-1002) for a code other than
`EAGAIN`. -/
def acceptError : Errno → SocketError × ErrorString
  | Errno.EBADF | Errno.EOPNOTSUPP =>
    (SocketError.UnsupportedSocketOperationError, ErrorString.InvalidSocketErrorString)
  | Errno.ECONNABORTED => (SocketError.NetworkError, ErrorString.RemoteHostClosedErrorString)
  | Errno.EFAULT | Errno.ENOTSOCK =>
    (SocketError.SocketResourceError, ErrorString.NotSocketErrorString)
  | Errno.EPROTONOSUPPORT | Errno.EPROTO | Errno.EAFNOSUPPORT | Errno.EINVAL =>
    (SocketError.UnsupportedSocketOperationError, ErrorString.ProtocolUnsupportedErrorString)
  | Errno.ENFILE | Errno.EMFILE | Errno.ENOBUFS | Errno.ENOMEM =>
    (SocketError.SocketResourceError, ErrorString.ResourceErrorString)
  | Errno.EACCES | Errno.EPERM =>
    (SocketError.SocketAccessError, ErrorString.AccessErrorString)
  | _ => (SocketError.UnknownSocketError, ErrorString.UnknownSocketErrorString)

namespace QSocketPrivate

/-- The exit of `recvfrom` and `sendto` for a peer that is gone (lines
653-658 and 732-737): on a stream socket record `RemoteHostClosedError` and
close; return -1. -/
def peerGone (s : QSocketPrivate) : QSocketPrivate × List Action :=
  if s.type = SocketType.TcpSocket then
    (s.setError SocketError.RemoteHostClosedError
      ErrorString.RemoteHostClosedErrorString).close
  else (s, [])

/-- The socket and the actions of a failing case of the error switch of
`recvfrom`. -/
def recvfromFail (s : QSocketPrivate) (e : Errno) : QSocketPrivate × List Action :=
  match recvfromClass e with
  | RecvfromClass.peerGone => s.peerGone
  | RecvfromClass.resource =>
    (s.setError SocketError.SocketResourceError ErrorString.ResourceErrorString, [])
  | RecvfromClass.invalid =>
    (s.setError SocketError.NetworkError ErrorString.InvalidSocketErrorString).close

/-- The loop of `recvfrom` (lines 634-678); the value is the byte count and,
on success, the decoded source port and address.  The loop has no check at
its head, so the head and the re-entry of the `do ... while` after `EINTR`
are the same point. -/
def recvfromLoop (p : Platform) (s : QSocketPrivate) (maxSize : Int) :
    List Reply → Exec (Int × Option (Nat × QHostAddress))
  | [] => Exec.blocked s [Action.recvmsg s.fd maxSize]
  | r :: rest =>
    Exec.after [Action.recvmsg s.fd maxSize]
      (match r with
      | Reply.err Errno.EINTR => recvfromLoop p s maxSize rest
      | Reply.err Errno.EAGAIN =>
        Exec.after [Action.watcherStart Direction.Read] (recvfromLoop p s maxSize rest)
      | Reply.err e => Exec.ret (-1, none) (s.recvfromFail e).1 (s.recvfromFail e).2 rest
      | Reply.ok n aa _ =>
        match qt_socket_getPortAndAddress p aa with
        | none => Exec.fatal []
        | some out => Exec.ret ((n : Int), some out) s [] rest)

/-- The function `QSocketPrivate::recvfrom` (lines 610-679). -/
def recvfrom (p : Platform) (s : QSocketPrivate) (maxSize : Int) (script : List Reply) :
    Exec (Int × Option (Nat × QHostAddress)) :=
  if !s.isValid then Exec.ret (0, none) s [] script
  else if maxSize ≤ 0 then Exec.ret (0, none) s [] script
  else recvfromLoop p s maxSize script

/-- The socket and the actions of a failing case of the error switch of
`sendto`. -/
def sendtoFail (s : QSocketPrivate) (e : Errno) : QSocketPrivate × List Action :=
  match sendtoError e with
  | none => s.peerGone
  | some (k, str) => (s.setError k str, [])

/-- The loop of `sendto` (lines 709-759).  The inner `do ... while` of line
713 tests the data member `error`, not `errno`: a failed call is re-issued
exactly when `p.errorIsEINTR s.error` holds, whatever `errno` is. -/
def sendtoLoop (p : Platform) (aa : qt_sockaddr) (s : QSocketPrivate) (size : Int) :
    List Reply → Exec Int
  | [] => Exec.blocked s [Action.sendmsg s.fd aa size]
  | r :: rest =>
    Exec.after [Action.sendmsg s.fd aa size]
      (match r with
      | Reply.ok n _ _ => Exec.ret (n : Int) s [] rest
      | Reply.err e =>
        if p.errorIsEINTR s.error then sendtoLoop p aa s size rest
        else if e = Errno.EAGAIN then
          Exec.after [Action.watcherStart Direction.Write] (sendtoLoop p aa s size rest)
        else Exec.ret (-1) (s.sendtoFail e).1 (s.sendtoFail e).2 rest)

/-- The function `QSocketPrivate::sendto` (lines 681-760). -/
def sendto (p : Platform) (s : QSocketPrivate) (size : Int) (addr : QHostAddress)
    (port : Nat) (script : List Reply) : Exec Int :=
  if !s.isValid then Exec.ret (-1) s [] script
  else sendtoLoop p (s.setPortAndAddress p port addr).1 s size script

/-- The loop of `accept` (lines 962-1010) with `qt_safe_accept` (lines
923-949, `flags = 0`) inlined: `accept4` first, and `::accept` followed by
`fcntl(F_SETFD)` when `accept4` fails with `ENOSYS` or `EINVAL`.  The value is
the descriptor handed to the new `QSocket`, `none` for the null pointer. -/
def acceptLoop (s : QSocketPrivate) : List Reply → Exec (Option Int)
  | [] => Exec.blocked s [Action.accept4 s.fd]
  | r :: rest =>
    -- the error switch of lines 966-1002 and the suspension of line 1009
    let onError (e : Errno) (rest1 : List Reply) (again : Exec (Option Int)) :
        Exec (Option Int) :=
      if e = Errno.EAGAIN then Exec.after [Action.watcherStart Direction.Read] again
      else Exec.ret none (s.setError (acceptError e).1 (acceptError e).2) [] rest1
    match r with
    | Reply.ok n _ _ => Exec.ret (some (n : Int)) s [Action.accept4 s.fd] rest
    | Reply.err e =>
      if e = Errno.ENOSYS ∨ e = Errno.EINVAL then
        match rest with
        | [] => Exec.blocked s [Action.accept4 s.fd, Action.accept s.fd]
        | Reply.ok n _ _ :: rest2 =>
          Exec.ret (some (n : Int)) s
            [Action.accept4 s.fd, Action.accept s.fd, Action.fcntl (n : Int)] rest2
        | Reply.err e2 :: rest2 =>
          Exec.after [Action.accept4 s.fd, Action.accept s.fd]
            (onError e2 rest2 (acceptLoop s rest2))
      else Exec.after [Action.accept4 s.fd] (onError e rest (acceptLoop s rest))

/-- The function `QSocketPrivate::accept` (lines 951-1011). -/
def accept (s : QSocketPrivate) (script : List Reply) : Exec (Option Int) :=
  if !s.isValid then Exec.ret none s [] script
  else if s.state ≠ SocketState.ListeningState ∨ s.type ≠ SocketType.TcpSocket then
    Exec.ret none s [] script
  else s.acceptLoop script

end QSocketPrivate

/-! ## Vocabulary of the statements -/

/-- The last-error field of the spec: the kind and the description. -/
def QSocketPrivate.lastError (s : QSocketPrivate) : SocketError × Option ErrorString :=
  (s.error, s.errorString)

/-- The socket `s` holds the kind and description `x` as its last error. -/
def QSocketPrivate.Records (s : QSocketPrivate) (x : SocketError × ErrorString) : Prop :=
  s.error = x.1 ∧ s.errorString = some x.2

/-- The replies after which `connect` issues its system call again:
interrupted, in progress, already in progress, would block. -/
def connectTransient : Reply → Bool
  | Reply.err Errno.EINTR => true
  | Reply.err Errno.EINPROGRESS => true
  | Reply.err Errno.EALREADY => true
  | Reply.err Errno.EAGAIN => true
  | _ => false

/-- The byte count of a reply: the value of a successful call, 0 for a failed
one. -/
def Reply.bytes : Reply → Int
  | Reply.ok n _ _ => (n : Int)
  | Reply.err _ => 0

/-- The bytes transferred by the successful calls of a script. -/
def bytesOf (script : List Reply) : Int := (script.map Reply.bytes).sum

/-- A successful call that transferred at least one byte. -/
def Reply.isData : Reply → Bool
  | Reply.ok n _ _ => decide (0 < n)
  | Reply.err _ => false

/-- The replies after which `recv`, `send` and `recvfrom` issue their system
call again: interrupted, would block. -/
def retryReply : Reply → Bool
  | Reply.err Errno.EINTR => true
  | Reply.err Errno.EAGAIN => true
  | _ => false

/-- The replies at which the loop of `recv` ends whatever was asked: a failure
other than interrupted and would-block, and on a stream socket a read of
length zero (the peer closed). -/
def recvStops (s : QSocketPrivate) : Reply → Bool
  | Reply.ok n _ _ => decide (n = 0 ∧ s.type = SocketType.TcpSocket)
  | Reply.err e => !retryReply (Reply.err e)

/-- The replies at which the loop of `send` ends whatever was asked: a failure
other than interrupted and would-block. -/
def sendStops : Reply → Bool
  | Reply.ok _ _ _ => false
  | Reply.err e => !retryReply (Reply.err e)

/-- The socket is in a state in which `recv` is permitted: the descriptor is
valid, and the socket is a Connected stream socket or an Unconnected or Bound
datagram socket. -/
def recvPermitted (s : QSocketPrivate) : Bool :=
  s.isValid && (decide (s.type = SocketType.TcpSocket ∧ s.state = SocketState.ConnectedState)
    || decide (s.type = SocketType.UdpSocket
        ∧ (s.state = SocketState.UnconnectedState ∨ s.state = SocketState.BoundState)))

/-- Every successful call of the script transfers at most what remains of
`room`, the calls before it counted. -/
def transfersBounded : Int → List Reply → Bool
  | _, [] => true
  | room, Reply.ok n _ _ :: rs => decide ((n : Int) ≤ room) && transfersBounded (room - n) rs
  | room, Reply.err _ :: rs => transfersBounded room rs

/-- The value of a run of decimal digits, `none` when a character is not a
digit. -/
def parseDigits : Nat → List Char → Option Nat
  | acc, [] => some acc
  | acc, c :: cs => if c.isDigit then parseDigits (acc * 10 + (c.toNat - 48)) cs else none

/-- A stand-in for `QString::toUInt` on the sample platform: a non-empty run of
decimal digits whose value fits 32 bits. -/
def parseUInt (str : String) : Option Nat :=
  if str.data = [] then none
  else
    match parseDigits 0 str.data with
    | some n => if n < 2 ^ 32 then some n else none
    | none => none

/-- A host whose only interface is `lo`, of index 1, with decimal scope
numbers, and with `QSocket::SocketError` numbered as `QAbstractSocket`
numbers it, where `SocketResourceError` is 4, the value of `EINTR`. -/
def Platform.loopback : Platform :=
  { if_nametoindex := fun nm => if nm = "lo" then 1 else 0
    if_indextoname := fun i => if i = 1 then some "lo" else none
    toUInt := parseUInt
    number := fun n => String.mk (Nat.toDigits 10 n)
    errorIsEINTR := fun e => decide (e = SocketError.SocketResourceError) }

/-- A stream socket just created on descriptor 7: IPv4, no error recorded,
no endpoint, state Unconnected. -/
def QSocketPrivate.sample : QSocketPrivate :=
  { protocol := NetworkLayerProtocol.IPv4Protocol
    type := SocketType.TcpSocket
    error := SocketError.NoError
    errorString := none
    fd := 7
    localPort := 0
    peerPort := 0
    localAddress := QHostAddress.null
    peerAddress := QHostAddress.null
    state := SocketState.UnconnectedState }

/-- The sample socket on descriptor 0, the lowest descriptor the system hands
out. -/
def QSocketPrivate.sampleZero : QSocketPrivate :=
  { QSocketPrivate.sample with fd := 0 }

/-- The sample socket on descriptor 0 in state Connected. -/
def QSocketPrivate.sampleZeroConnected : QSocketPrivate :=
  { QSocketPrivate.sampleZero with state := SocketState.ConnectedState }

/-- The sample socket after a successful `connect`: state Connected. -/
def QSocketPrivate.sampleConnected : QSocketPrivate :=
  { QSocketPrivate.sample with state := SocketState.ConnectedState }

/-- The sample socket created for the dual-stack family: AnyIPProtocol. -/
def QSocketPrivate.sampleAnyIP : QSocketPrivate :=
  { QSocketPrivate.sample with protocol := NetworkLayerProtocol.AnyIPProtocol }

/-- A datagram socket on descriptor 7, state Unconnected. -/
def QSocketPrivate.sampleUdp : QSocketPrivate :=
  { QSocketPrivate.sample with type := SocketType.UdpSocket }

/-! ## The case labels of the error switches -/

/-- The codes that the error switch of `bind` names (lines 196-205). -/
def bindNamed : List Errno :=
  [Errno.EADDRINUSE, Errno.EACCES, Errno.EINVAL, Errno.EADDRNOTAVAIL]

/-- The codes that the error switch of `listen` names (line 332). -/
def listenNamed : List Errno := [Errno.EADDRINUSE]

/-- The codes that the error switch of `connect` names (lines 248-290). -/
def connectNamed : List Errno :=
  [Errno.EISCONN, Errno.EINPROGRESS, Errno.EALREADY, Errno.EAGAIN, Errno.ECONNREFUSED,
   Errno.EINVAL, Errno.ETIMEDOUT, Errno.EHOSTUNREACH, Errno.ENETUNREACH, Errno.EADDRINUSE,
   Errno.EADDRNOTAVAIL, Errno.EACCES, Errno.EPERM, Errno.EAFNOSUPPORT, Errno.EBADF,
   Errno.EFAULT, Errno.ENOTSOCK]

/-- The codes that the error switch of `recv` names (lines 462-476). -/
def recvNamed : List Errno :=
  [Errno.EAGAIN, Errno.ECONNRESET, Errno.EBADF, Errno.EINVAL, Errno.EIO]

/-- The codes that the error switch of `send` names (lines 575-595). -/
def sendNamed : List Errno :=
  [Errno.EAGAIN, Errno.EACCES, Errno.EBADF, Errno.EFAULT, Errno.EINVAL, Errno.ENOTCONN,
   Errno.ENOTSOCK, Errno.EMSGSIZE, Errno.ENOBUFS, Errno.ENOMEM, Errno.EPIPE, Errno.ECONNRESET]

/-- The codes that the error switch of `recvfrom` names (lines 645-666). -/
def recvfromNamed : List Errno :=
  [Errno.EAGAIN, Errno.ECONNRESET, Errno.ECONNREFUSED, Errno.ENOTCONN, Errno.ENOMEM,
   Errno.ENOTSOCK, Errno.EBADF, Errno.EINVAL, Errno.EIO, Errno.EFAULT]

/-- The codes that the error switch of `sendto` names (lines 722-748). -/
def sendtoNamed : List Errno :=
  [Errno.EAGAIN, Errno.EACCES, Errno.EMSGSIZE, Errno.ECONNRESET, Errno.ENOTSOCK,
   Errno.EDESTADDRREQ, Errno.EISCONN, Errno.ENOTCONN, Errno.ENOBUFS, Errno.ENOMEM,
   Errno.EFAULT, Errno.EINVAL]

/-- The codes that the error switch of `accept` names (lines 967-1000). -/
def acceptNamed : List Errno :=
  [Errno.EBADF, Errno.EOPNOTSUPP, Errno.ECONNABORTED, Errno.EFAULT, Errno.ENOTSOCK,
   Errno.EPROTONOSUPPORT, Errno.EPROTO, Errno.EAFNOSUPPORT, Errno.EINVAL, Errno.ENFILE,
   Errno.EMFILE, Errno.ENOBUFS, Errno.ENOMEM, Errno.EACCES, Errno.EPERM, Errno.EAGAIN]

/-- The options that `convertToLevelAndOption` resolves without looking at the
family of the socket, the broadcast option apart. -/
def familyIndependentOptions : List SocketOption :=
  [SocketOption.ReceiveBufferSizeSocketOption, SocketOption.SendBufferSizeSocketOption,
   SocketOption.AddressReusable, SocketOption.ReceiveOutOfBandData,
   SocketOption.KeepAliveOption, SocketOption.LowDelayOption]

/-! ## Vocabulary of the statements on failures and on the state -/

/-- The call that left `rest` unread ended on the failure `e`: the script is
the replies read, of which `err e` is the last, followed by `rest`. -/
def FailedWith (script rest : List Reply) (e : Errno) : Prop :=
  ∃ used, script = used ++ Reply.err e :: rest

/-- The failure codes that the spec calls fatal: connection reset, broken
pipe, bad descriptor, not a socket. -/
def fatalCodes : List Errno :=
  [Errno.ECONNRESET, Errno.EPIPE, Errno.EBADF, Errno.ENOTSOCK]

/-- Whether an action is the `::close` system call. -/
def Action.isClose : Action → Bool
  | Action.close _ => true
  | _ => false

/-- The call on the socket `s` ended by recording the error `x` and closing:
the socket left is `s` with `x` recorded and `close` applied, the actions end
with the `::close` of the descriptor of `s` and the wake-up of its waiters,
the descriptor is -1 and not valid, and the state is Unconnected. -/
def ClosesWith (s : QSocketPrivate) (x : SocketError × ErrorString) (s' : QSocketPrivate)
    (tr : List Action) : Prop :=
  s' = (s.setError x.1 x.2).close.1
    ∧ [Action.close s.fd, Action.triggerIoWatchers s.fd] <:+ tr
    ∧ s'.fd = -1 ∧ s'.isValid = false ∧ s'.state = SocketState.UnconnectedState

/-- Whether a call ended by closing can be computed. -/
instance (s : QSocketPrivate) (x : SocketError × ErrorString) (s' : QSocketPrivate)
    (tr : List Action) : Decidable (ClosesWith s x s' tr) := by
  unfold ClosesWith
  exact inferInstance

/-- The socket as an operation has left it so far: on return, or at the
system call it is waiting for. -/
def Exec.sock {α : Type} : Exec α → Option QSocketPrivate
  | Exec.ret _ s _ _ => some s
  | Exec.blocked s _ => some s
  | Exec.fatal _ => none

/-- The replies that `bind` on a valid socket reads before its `::bind` call:
the answer `r0` to the `::setsockopt` of the address-reuse option in mode
ReuseAddressHint, none otherwise. -/
def reuseReplies (mode : BindMode) (r0 : Reply) : List Reply :=
  if mode = BindMode.ReuseAddressHint then [r0] else []

/-- The socket address of the retry of `::bind` (lines 186-188): the IPv4
family, port and address written over `aa`. -/
def retryAddress (aa : qt_sockaddr) (port : Nat) (address : QHostAddress) : qt_sockaddr :=
  { aa with
    family := SaFamily.AF_INET
    port := htons port
    addr4 := htonl address.toIPv4Address }

/-- The scope text that `qt_socket_getPortAndAddress` gives for the interface
index `id` (lines 49-56): none for index 0, the name that `if_indextoname`
gives when there is one, the number of the index otherwise. -/
def Platform.scopeText (p : Platform) (id : Nat) : String :=
  if id = 0 then ""
  else
    match p.if_indextoname id with
    | some name => name
    | none => p.number id

/-- C1 (amended): for every socket value, `close` leaves both endpoints empty
(null address, port 0) and the state Unconnected, and closing twice gives the
same socket value as closing once (the second close performs no action).  For
every socket value whose descriptor is not 0, `close` leaves the descriptor
invalid: negative, and -1 when a descriptor was open.  On descriptor 0 `close`
issues no `::close` and leaves the descriptor 0. -/
theorem close_postcondition_idempotent (s : QSocketPrivate) :
    (s.fd ≠ 0 →
      s.close.1.isValid = false ∧ s.close.1.fd < 0 ∧ (0 < s.fd → s.close.1.fd = -1))
    ∧ (s.fd = 0 → s.close.1.fd = 0 ∧ s.close.2 = [])
    ∧ s.close.1.localAddress = QHostAddress.null ∧ s.close.1.localPort = 0
    ∧ s.close.1.peerAddress = QHostAddress.null ∧ s.close.1.peerPort = 0
    ∧ s.close.1.state = SocketState.UnconnectedState
    ∧ s.close.1.close.1 = s.close.1 ∧ s.close.1.close.2 = [] := by
  by_cases h : 0 < s.fd
  · have h0 : s.fd ≠ 0 := by omega
    simp [QSocketPrivate.close, QSocketPrivate.isValid, h, h0]
  · have h' : s.fd ≤ 0 := not_lt.mp h
    refine ⟨fun h0 => ?_, fun h0 => ?_, ?_⟩
    · have hneg : s.fd < 0 := by omega
      simp [QSocketPrivate.close, QSocketPrivate.isValid, h, hneg]
    · simp [QSocketPrivate.close, h0]
    · simp [QSocketPrivate.close, h]

/-- C1 as stated fails on descriptor 0: `close` performs no action there and
leaves the descriptor 0, which is a valid descriptor. -/
theorem close_keeps_descriptor_zero :
    QSocketPrivate.sampleZero.close.2 = []
    ∧ QSocketPrivate.sampleZero.close.1.fd = 0
    ∧ QSocketPrivate.sampleZero.close.1.isValid = true := by
  decide

/-! ### Closed sockets -/

/-- A socket closed on a descriptor other than 0 is not valid. -/
theorem close_not_valid (s : QSocketPrivate) (h0 : s.fd ≠ 0) : s.close.1.isValid = false := by
  by_cases h : 0 < s.fd
  · simp [QSocketPrivate.close, QSocketPrivate.isValid, h]
  · have hneg : s.fd < 0 := by omega
    simp [QSocketPrivate.close, QSocketPrivate.isValid, h, hneg]

/-- C2 (amended): on a socket on which `close` has been called and whose
descriptor was not 0 before the call, each of bind, connect, listen, accept,
recv, send, recvfrom, sendto, option (getOption) and setOption returns at its
guard (false; the null pointer for accept; -1 for recv and sendto; 0, no byte
transferred, for send and recvfrom; the invalid variant for option), performs
no action at all (so no system call), reads nothing of the script, and leaves
the socket value unchanged. -/
theorem closed_socket_operations_fail (p : Platform) (s0 : QSocketPrivate)
    (script : List Reply) (address : QHostAddress) (port : Nat) (mode : BindMode)
    (backlog size : Int) (all : Bool) (opt : SocketOption) (value : QVariant)
    (h0 : s0.fd ≠ 0) :
    s0.close.1.bind p address port mode script = Exec.ret false s0.close.1 [] script
    ∧ s0.close.1.connect p address port script = Exec.ret false s0.close.1 [] script
    ∧ s0.close.1.listen p backlog script = Exec.ret false s0.close.1 [] script
    ∧ s0.close.1.accept script = Exec.ret none s0.close.1 [] script
    ∧ s0.close.1.recv size all script = Exec.ret (-1) s0.close.1 [] script
    ∧ s0.close.1.send size all script = Exec.ret 0 s0.close.1 [] script
    ∧ s0.close.1.recvfrom p size script = Exec.ret (0, none) s0.close.1 [] script
    ∧ s0.close.1.sendto p size address port script = Exec.ret (-1) s0.close.1 [] script
    ∧ s0.close.1.option opt script = Exec.ret QVariant.invalid s0.close.1 [] script
    ∧ s0.close.1.setOption opt value script = Exec.ret false s0.close.1 [] script := by
  have h := close_not_valid s0 h0
  simp [QSocketPrivate.bind, QSocketPrivate.connect, QSocketPrivate.listen,
    QSocketPrivate.accept, QSocketPrivate.recv, QSocketPrivate.send,
    QSocketPrivate.recvfrom, QSocketPrivate.sendto, QSocketPrivate.option,
    QSocketPrivate.setOption, h]

/-- C2 at a concrete input: `send` and `recv` on the sample socket, closed. -/
theorem closed_socket_operations_fail_witness :
    QSocketPrivate.sample.fd ≠ 0
    ∧ QSocketPrivate.sample.close.1.recv 10 true [Reply.val 4]
        = Exec.ret (-1) QSocketPrivate.sample.close.1 [] [Reply.val 4]
    ∧ QSocketPrivate.sample.close.1.send 10 true [Reply.val 4]
        = Exec.ret 0 QSocketPrivate.sample.close.1 [] [Reply.val 4] :=
  ⟨by decide,
    (closed_socket_operations_fail Platform.loopback QSocketPrivate.sample [Reply.val 4]
      QHostAddress.any 80 BindMode.DefaultForPlatform 5 10 true
      SocketOption.KeepAliveOption QVariant.invalid (by decide)).2.2.2.2.1,
    (closed_socket_operations_fail Platform.loopback QSocketPrivate.sample [Reply.val 4]
      QHostAddress.any 80 BindMode.DefaultForPlatform 5 10 true
      SocketOption.KeepAliveOption QVariant.invalid (by decide)).2.2.2.2.2.1⟩

/-- C2 as stated fails on descriptor 0: after `close` the descriptor is still
0 and valid, and `send` issues `::send` on it and returns what was written. -/
theorem closed_descriptor_zero_sends :
    QSocketPrivate.sampleZero.close.1.isValid = true
    ∧ QSocketPrivate.sampleZero.close.1.send 4 false [Reply.val 4]
      = Exec.ret 4 QSocketPrivate.sampleZero.close.1 [Action.send 0 (4 - 0)] [] := by
  decide

/-! ### connect -/

/-- The loop of `connect`, entered in state Connecting on a valid
descriptor, absorbs transient replies and stops at the refusal. -/
theorem connectLoop_refused (p : Platform) (aa : qt_sockaddr) (sz : Nat) (s : QSocketPrivate)
    (hv : s.isValid = true) (hs : s.state = SocketState.ConnectingState)
    (rest : List Reply) (pre : List Reply) (hpre : ∀ r ∈ pre, connectTransient r = true)
    (inner : Bool) :
    ∃ tr, QSocketPrivate.connectLoop p aa sz s inner (pre ++ Reply.err Errno.ECONNREFUSED :: rest)
        = Exec.ret false (s.connectFail Errno.ECONNREFUSED) tr rest
      ∧ tr.filter Action.isSyscall
        = List.replicate (pre.length + 1) (Action.connect s.fd aa sz) := by
  induction pre generalizing inner with
  | nil =>
    refine ⟨[Action.connect s.fd aa sz], ?_, ?_⟩
    · simp [QSocketPrivate.connectLoop, QSocketPrivate.connectHead, hv, hs, Exec.after]
    · simp [Action.isSyscall]
  | cons r pre ih =>
    have hr := hpre r (List.mem_cons_self _ _)
    have hpre' : ∀ r ∈ pre, connectTransient r = true :=
      fun x hx => hpre x (List.mem_cons_of_mem _ hx)
    have hcases : r = Reply.err Errno.EINTR ∨ r = Reply.err Errno.EINPROGRESS
        ∨ r = Reply.err Errno.EALREADY ∨ r = Reply.err Errno.EAGAIN := by
      cases r with
      | ok n sa v => simp [connectTransient] at hr
      | err e => cases e <;> simp_all [connectTransient]
    rcases hcases with h | h | h | h
    · obtain ⟨tr, h1, h2⟩ := ih hpre' true
      refine ⟨Action.connect s.fd aa sz :: tr, ?_, ?_⟩
      · simp [QSocketPrivate.connectLoop, QSocketPrivate.connectHead, hv, hs, Exec.after, h, h1]
      · simp [Action.isSyscall, h2, List.replicate_succ]
    all_goals
      obtain ⟨tr, h1, h2⟩ := ih hpre' false
      refine ⟨Action.connect s.fd aa sz :: Action.watcherStart Direction.Write :: tr, ?_, ?_⟩
      · simp [QSocketPrivate.connectLoop, QSocketPrivate.connectHead, hv, hs, Exec.after, h, h1]
      · simp [Action.isSyscall, h2, List.replicate_succ]

/-- C3: on a valid socket in state Unconnected, Bound or Connecting, when the
`::connect` calls answer any number of interrupted, in-progress,
already-in-progress or would-block results and then connection-refused,
`connect` returns false with last error kind ConnectionRefusedError (and its
description), state Unconnected and the descriptor kept; the system calls
performed are exactly one `::connect` per reply up to the refusal, and the
script after the refusal is left unread. -/
theorem connect_refused (p : Platform) (s : QSocketPrivate) (address : QHostAddress)
    (port : Nat) (pre rest : List Reply)
    (hv : s.isValid = true)
    (hs : s.state = SocketState.UnconnectedState ∨ s.state = SocketState.BoundState
      ∨ s.state = SocketState.ConnectingState)
    (hpre : ∀ r ∈ pre, connectTransient r = true) :
    ∃ s' tr, s.connect p address port (pre ++ Reply.err Errno.ECONNREFUSED :: rest)
        = Exec.ret false s' tr rest
      ∧ s'.error = SocketError.ConnectionRefusedError
      ∧ s'.errorString = some ErrorString.ConnectionRefusedErrorString
      ∧ s'.state = SocketState.UnconnectedState
      ∧ s'.fd = s.fd
      ∧ tr.filter Action.isSyscall
        = List.replicate (pre.length + 1)
            (Action.connect s.fd (s.setPortAndAddress p port address).1
              (s.setPortAndAddress p port address).2) := by
  have hv' : ({ s with state := SocketState.ConnectingState } : QSocketPrivate).isValid = true := by
    simpa [QSocketPrivate.isValid] using hv
  obtain ⟨tr, h1, h2⟩ := connectLoop_refused p (s.setPortAndAddress p port address).1
    (s.setPortAndAddress p port address).2 { s with state := SocketState.ConnectingState }
    hv' rfl rest pre hpre false
  refine ⟨QSocketPrivate.connectFail { s with state := SocketState.ConnectingState }
    Errno.ECONNREFUSED, tr, ?_, ?_, ?_, ?_, ?_, h2⟩
  · have hs' : ¬ (¬ s.state = SocketState.UnconnectedState ∧ ¬ s.state = SocketState.BoundState
        ∧ ¬ s.state = SocketState.ConnectingState) := by
      rcases hs with h | h | h <;> simp [h]
    simp only [QSocketPrivate.connect, hv, Bool.not_true, Bool.false_eq_true, if_false, ne_eq,
      hs']
    exact h1
  all_goals simp [QSocketPrivate.connectFail, QSocketPrivate.setError, connectError,
    connectDropsFd]

/-- C3 at a concrete input: a fresh stream socket, would-block then
interrupted then refused. -/
theorem connect_refused_witness :
    (QSocketPrivate.sample.isValid = true
      ∧ (∀ r ∈ [Reply.err Errno.EAGAIN, Reply.err Errno.EINTR], connectTransient r = true))
    ∧ ∃ s' tr, QSocketPrivate.sample.connect Platform.loopback (QHostAddress.ipv4 2130706433) 80
          ([Reply.err Errno.EAGAIN, Reply.err Errno.EINTR]
            ++ Reply.err Errno.ECONNREFUSED :: [Reply.val 0])
        = Exec.ret false s' tr [Reply.val 0]
      ∧ s'.error = SocketError.ConnectionRefusedError
      ∧ s'.errorString = some ErrorString.ConnectionRefusedErrorString
      ∧ s'.state = SocketState.UnconnectedState
      ∧ s'.fd = QSocketPrivate.sample.fd
      ∧ tr.filter Action.isSyscall
        = List.replicate ([Reply.err Errno.EAGAIN, Reply.err Errno.EINTR].length + 1)
            (Action.connect QSocketPrivate.sample.fd
              (QSocketPrivate.sample.setPortAndAddress Platform.loopback 80
                (QHostAddress.ipv4 2130706433)).1
              (QSocketPrivate.sample.setPortAndAddress Platform.loopback 80
                (QHostAddress.ipv4 2130706433)).2) :=
  ⟨⟨by decide, by decide⟩,
    connect_refused Platform.loopback QSocketPrivate.sample (QHostAddress.ipv4 2130706433) 80
      [Reply.err Errno.EAGAIN, Reply.err Errno.EINTR] [Reply.val 0] (by decide)
      (Or.inl rfl) (by decide)⟩

/-! ### What a call leaves in the last-error field -/



/-- An outcome with actions put in front is a return exactly when the outcome
is. -/
theorem Exec.after_eq_ret {α : Type} (pre : List Action) (x : Exec α) (v : α)
    (s : QSocketPrivate) (tr : List Action) (rest : List Reply) :
    Exec.after pre x = Exec.ret v s tr rest ↔
      ∃ tr0, x = Exec.ret v s tr0 rest ∧ tr = pre ++ tr0 := by
  cases x with
  | ret v0 s0 tr0 rest0 =>
    simp only [Exec.after, Exec.ret.injEq]
    constructor
    · rintro ⟨rfl, rfl, rfl, rfl⟩; exact ⟨tr0, ⟨rfl, rfl, rfl, rfl⟩, rfl⟩
    · rintro ⟨tr1, ⟨rfl, rfl, rfl, rfl⟩, rfl⟩; exact ⟨rfl, rfl, rfl, rfl⟩
  | blocked s0 tr0 => simp [Exec.after]
  | fatal tr0 => simp [Exec.after]

/-- A sequence returns exactly when both of its parts return. -/
theorem Exec.andThen_eq_ret {α β : Type} (x : Exec α)
    (f : α → QSocketPrivate → List Reply → Exec β) (v : β)
    (s : QSocketPrivate) (tr : List Action) (rest : List Reply) :
    x.andThen f = Exec.ret v s tr rest ↔
      ∃ v1 s1 tr1 rest1 tr2, x = Exec.ret v1 s1 tr1 rest1
        ∧ f v1 s1 rest1 = Exec.ret v s tr2 rest ∧ tr = tr1 ++ tr2 := by
  cases x with
  | ret v0 s0 tr0 rest0 =>
    simp only [Exec.andThen, Exec.after_eq_ret, Exec.ret.injEq]
    constructor
    · rintro ⟨tr2, h, rfl⟩; exact ⟨v0, s0, tr0, rest0, tr2, ⟨rfl, rfl, rfl, rfl⟩, h, rfl⟩
    · rintro ⟨v1, s1, tr1, rest1, tr2, ⟨rfl, rfl, rfl, rfl⟩, h, rfl⟩; exact ⟨tr2, h, rfl⟩
  | blocked s0 tr0 => simp [Exec.andThen]
  | fatal tr0 => simp [Exec.andThen]

/-- A failure that ends the call on the rest of a script ends it on the
script. -/
theorem FailedWith.cons (r : Reply) (rs rest : List Reply) (e : Errno)
    (h : FailedWith rs rest e) : FailedWith (r :: rs) rest e := by
  obtain ⟨used, rfl⟩ := h
  exact ⟨r :: used, rfl⟩

/-- The function `setOption` leaves the socket as it is and hands on a part of
its script. -/
theorem setOption_ret (s : QSocketPrivate) (opt : SocketOption) (value : QVariant)
    (script : List Reply) (v : Bool) (s' : QSocketPrivate) (tr : List Action)
    (rest : List Reply) (h : s.setOption opt value script = Exec.ret v s' tr rest) :
    s' = s ∧ ∃ used, script = used ++ rest := by
  unfold QSocketPrivate.setOption at h
  split_ifs at h with h1 h2
  · simp only [Exec.ret.injEq] at h; obtain ⟨-, rfl, -, rfl⟩ := h; exact ⟨rfl, [], rfl⟩
  · simp only [Exec.ret.injEq] at h; obtain ⟨-, rfl, -, rfl⟩ := h; exact ⟨rfl, [], rfl⟩
  · cases hv : value.toInt with
    | none =>
      simp only [hv, Exec.ret.injEq] at h; obtain ⟨-, rfl, -, rfl⟩ := h
      exact ⟨rfl, [], rfl⟩
    | some i =>
      simp only [hv] at h
      cases hc : convertToLevelAndOption opt s.protocol with
      | none => simp [hc] at h
      | some ln =>
        simp only [hc] at h
        cases script with
        | nil => simp at h
        | cons r rs =>
          cases r with
          | ok n sa val =>
            simp only [Exec.ret.injEq] at h; obtain ⟨-, rfl, -, rfl⟩ := h
            exact ⟨rfl, [_], rfl⟩
          | err e =>
            simp only [Exec.ret.injEq] at h; obtain ⟨-, rfl, -, rfl⟩ := h
            exact ⟨rfl, [_], rfl⟩

/-- The end of `bind`: success sets Bound and keeps the last error, failure
records the error of the switch and keeps the state. -/
theorem bindFinish_lastError (s : QSocketPrivate) (r : Reply) :
    ((s.bindFinish r).1 = true → (s.bindFinish r).2.lastError = s.lastError
        ∧ (s.bindFinish r).2.state = SocketState.BoundState ∧ ∃ n sa val, r = Reply.ok n sa val)
    ∧ ((s.bindFinish r).1 = false →
        ∃ e, r = Reply.err e ∧ (s.bindFinish r).2.Records (bindError e)
          ∧ (s.bindFinish r).2.state = s.state) := by
  cases r with
  | ok n sa val =>
    simp [QSocketPrivate.bindFinish, QSocketPrivate.lastError]
  | err e =>
    simp [QSocketPrivate.bindFinish, QSocketPrivate.Records, QSocketPrivate.setError]

/-- A return of the `::bind` part of `bind` is the end of `bind` on the last
reply read. -/
theorem bindCall_inversion (s : QSocketPrivate) (address : QHostAddress) (port : Nat)
    (aa : qt_sockaddr) (sz : Nat) (script : List Reply) (v : Bool)
    (s' : QSocketPrivate) (tr : List Action) (rest : List Reply)
    (h : s.bindCall address port aa sz script = Exec.ret v s' tr rest) :
    ∃ used r, script = used ++ r :: rest
      ∧ v = (s.bindFinish r).1 ∧ s' = (s.bindFinish r).2 := by
  unfold QSocketPrivate.bindCall at h
  simp only [Exec.after_eq_ret] at h
  obtain ⟨tr0, h, -⟩ := h
  cases script with
  | nil => simp at h
  | cons r rs =>
    simp only at h
    by_cases hc : r = Reply.err Errno.EAFNOSUPPORT
        ∧ address.protocol = NetworkLayerProtocol.AnyIPProtocol
    · rw [if_pos hc] at h
      cases rs with
      | nil => simp at h
      | cons r2 rs2 =>
        simp only [Exec.ret.injEq] at h
        obtain ⟨hv, hs', -, rfl⟩ := h
        exact ⟨[r], r2, rfl, hv.symm, hs'.symm⟩
    · rw [if_neg hc] at h
      simp only [Exec.ret.injEq] at h
      obtain ⟨hv, hs', -, rfl⟩ := h
      exact ⟨[], r, rfl, hv.symm, hs'.symm⟩

/-- Every return of `bind`, classified. -/
theorem bind_inversion (p : Platform) (s : QSocketPrivate) (address : QHostAddress)
    (port : Nat) (mode : BindMode) (script : List Reply) (v : Bool)
    (s' : QSocketPrivate) (tr : List Action) (rest : List Reply)
    (h : s.bind p address port mode script = Exec.ret v s' tr rest) :
    (v = true → s.isValid = true ∧ s.state = SocketState.UnconnectedState
        ∧ s'.state = SocketState.BoundState ∧ s'.lastError = s.lastError)
    ∧ (v = false → s'.state = s.state ∧
        ((s' = s ∧ tr = [] ∧ (s.isValid = false ∨ s.state ≠ SocketState.UnconnectedState))
          ∨ (s.isValid = true ∧ s.state = SocketState.UnconnectedState
              ∧ ∃ e, FailedWith script rest e ∧ s'.Records (bindError e)))) := by
  unfold QSocketPrivate.bind at h
  by_cases h1 : s.isValid = true
  swap
  · simp only [Bool.not_eq_true] at h1
    simp only [h1, Bool.not_false, if_true, Exec.ret.injEq] at h
    obtain ⟨rfl, rfl, rfl, -⟩ := h
    simp [h1]
  by_cases h2 : s.state = SocketState.UnconnectedState
  swap
  · simp only [h1, Bool.not_true, Bool.false_eq_true, if_false, ne_eq, h2, not_false_eq_true,
      if_true, Exec.ret.injEq] at h
    obtain ⟨rfl, rfl, rfl, -⟩ := h
    simp [h2]
  simp only [h1, Bool.not_true, Bool.false_eq_true, if_false, ne_eq, h2, not_true_eq_false]
    at h
  rw [Exec.andThen_eq_ret] at h
  obtain ⟨v1, s1, tr1, script1, tr2, hre, hbody, -⟩ := h
  have hs1 : s1 = s ∧ ∃ used0, script = used0 ++ script1 := by
    by_cases hm : mode = BindMode.ReuseAddressHint
    · rw [if_pos hm] at hre
      exact setOption_ret _ _ _ _ _ _ _ _ hre
    · rw [if_neg hm] at hre
      simp only [Exec.ret.injEq] at hre; obtain ⟨-, rfl, -, rfl⟩ := hre
      exact ⟨rfl, [], rfl⟩
  obtain ⟨rfl, used0, hsub⟩ := hs1
  obtain ⟨used, r, hr, rfl, rfl⟩ := bindCall_inversion _ _ _ _ _ _ _ _ _ _ hbody
  obtain ⟨ht, hf⟩ := bindFinish_lastError s1 r
  refine ⟨fun hv => ?_, fun hv => ?_⟩
  · obtain ⟨a, b, -⟩ := ht hv
    exact ⟨h1, h2, b, a⟩
  · obtain ⟨e, rfl, he, hst⟩ := hf hv
    exact ⟨hst, Or.inr ⟨h1, h2, e, ⟨used0 ++ used, by rw [hsub, hr, List.append_assoc]⟩, he⟩⟩




/-- After `setError` the socket records what was set. -/
theorem setError_records (s : QSocketPrivate) (k : SocketError) (d : ErrorString) :
    (s.setError k d).Records (k, d) := ⟨rfl, rfl⟩

/-- The function `close` keeps the recorded error. -/
theorem close_records (s : QSocketPrivate) (x : SocketError × ErrorString) (h : s.Records x) :
    s.close.1.Records x := by
  unfold QSocketPrivate.close
  by_cases hf : 0 < s.fd
  · simpa [QSocketPrivate.Records, hf] using h
  · simpa [QSocketPrivate.Records, hf] using h

/-- When the head of the loop of `recv` lets control through, bytes remain to
be read. -/
theorem recvHead_none (s : QSocketPrivate) (size total : Int)
    (h : s.recvHead size total = none) : total < size := by
  unfold QSocketPrivate.recvHead at h
  by_contra hc
  rw [if_pos hc] at h
  simp at h

/-- An empty script transfers nothing. -/
theorem bytesOf_nil : bytesOf [] = 0 := rfl

/-- The bytes of a script, reply by reply. -/
theorem bytesOf_cons (r : Reply) (rs : List Reply) :
    bytesOf (r :: rs) = r.bytes + bytesOf rs := by
  simp [bytesOf]

/-- The bytes of two scripts in a row. -/
theorem bytesOf_append (xs ys : List Reply) :
    bytesOf (xs ++ ys) = bytesOf xs + bytesOf ys := by
  simp [bytesOf]

/-- In a permitted state the head of the loop of `recv` only tests the loop
condition. -/
theorem recvHead_permitted (s : QSocketPrivate) (size total : Int)
    (hp : recvPermitted s = true) :
    s.recvHead size total = if ¬ total < size then some (total, s) else none := by
  unfold recvPermitted at hp
  simp only [Bool.and_eq_true, Bool.or_eq_true, decide_eq_true_eq] at hp
  obtain ⟨hv, hst⟩ := hp
  unfold QSocketPrivate.recvHead
  by_cases h0 : total < size
  · rw [if_neg (not_not.mpr h0), if_neg (not_not.mpr h0)]
    simp only [hv, Bool.not_true, Bool.false_eq_true, if_false]
    rcases hst with ⟨ht, hs⟩ | ⟨ht, hs⟩
    · simp [ht, hs]
    · rcases hs with hs | hs <;> simp [ht, hs]
  · rw [if_pos h0, if_pos h0]

/-- On a positive descriptor `close` closes it, wakes its waiters and stores
-1. -/
theorem close_actions_of_valid (s : QSocketPrivate) (hfd : 0 < s.fd) :
    s.close.2 = [Action.close s.fd, Action.triggerIoWatchers s.fd] ∧ s.close.1.fd = -1 := by
  simp [QSocketPrivate.close, hfd]

/-- A script transfers no negative number of bytes. -/
theorem bytesOf_nonneg (rs : List Reply) : 0 ≤ bytesOf rs := by
  induction rs with
  | nil => simp [bytesOf]
  | cons r rs ih =>
    rw [bytesOf_cons]
    cases r with
    | ok n sa val => simp only [Reply.bytes]; omega
    | err e => simp only [Reply.bytes]; omega

/-- The exit of `recv` for a closed peer, on a positive descriptor. -/
theorem recvRemoteClosed_eq (s : QSocketPrivate) (total : Int) (rest : List Reply)
    (hfd : 0 < s.fd) :
    ∃ s', s.recvRemoteClosed total rest
        = Exec.ret total s' [Action.close s.fd, Action.triggerIoWatchers s.fd] rest
      ∧ s'.error = SocketError.RemoteHostClosedError
      ∧ s'.errorString = some ErrorString.RemoteHostClosedErrorString
      ∧ s'.state = SocketState.UnconnectedState ∧ s'.fd = -1 ∧ s'.isValid = false := by
  have hfd' : 0 < (s.setError SocketError.RemoteHostClosedError
      ErrorString.RemoteHostClosedErrorString).fd := hfd
  obtain ⟨h1, h2⟩ := close_actions_of_valid _ hfd'
  refine ⟨(s.setError SocketError.RemoteHostClosedError
      ErrorString.RemoteHostClosedErrorString).close.1, ?_, ?_, ?_, ?_, h2, ?_⟩
  · simp only [QSocketPrivate.recvRemoteClosed, h1]
    rfl
  · exact (close_records _ _ (setError_records _ _ _)).1
  · exact (close_records _ _ (setError_records _ _ _)).2
  · simp [QSocketPrivate.close]
  · exact close_not_valid _ (ne_of_gt hfd')

/-- The loop of `recv` on k data reads followed by the end of the stream. -/
theorem recvLoop_peer_closed (s : QSocketPrivate) (size : Int) (all : Bool)
    (fin : Reply) (rest : List Reply)
    (hp : recvPermitted s = true) (hfd : 0 < s.fd) (ht : s.type = SocketType.TcpSocket)
    (hfin : (∃ sa val, fin = Reply.ok 0 sa val) ∨ fin = Reply.err Errno.ECONNRESET)
    (reads : List Reply) :
    ∀ (total : Int), (∀ r ∈ reads, r.isData = true) → (reads ≠ [] → all = true) →
    total + bytesOf reads < size →
    ∃ s' pre, s.recvLoop size all total false (reads ++ fin :: rest)
        = Exec.ret (total + bytesOf reads) s'
            (pre ++ [Action.close s.fd, Action.triggerIoWatchers s.fd]) rest
      ∧ pre.length = reads.length + 1 ∧ (∀ a ∈ pre, ∃ len, a = Action.recv s.fd len)
      ∧ s'.error = SocketError.RemoteHostClosedError
      ∧ s'.errorString = some ErrorString.RemoteHostClosedErrorString
      ∧ s'.state = SocketState.UnconnectedState ∧ s'.fd = -1 ∧ s'.isValid = false := by
  have hv : s.isValid = true := by
    unfold recvPermitted at hp
    simp only [Bool.and_eq_true] at hp
    exact hp.1
  induction reads with
  | nil =>
    intro total _ _ hsum
    have hlt : total < size := by simpa [bytesOf] using hsum
    obtain ⟨s', h1, h2⟩ := recvRemoteClosed_eq s total rest hfd
    refine ⟨s', [Action.recv s.fd (size - total)], ?_, by simp, by simp, h2⟩
    simp only [List.nil_append, QSocketPrivate.recvLoop, Bool.false_eq_true, if_false,
      recvHead_permitted s size total hp, not_not.mpr hlt]
    rcases hfin with ⟨sa, val, rfl⟩ | rfl
    · simp [ht, h1, Exec.after, bytesOf]
    · simp [ht, h1, Exec.after, bytesOf]
  | cons r rs ih =>
    intro total hdata hall hsum
    have hall' : all = true := hall (by simp)
    subst hall'
    have hr := hdata r (List.mem_cons_self _ _)
    cases r with
    | err e => simp [Reply.isData] at hr
    | ok n sa val =>
      simp only [Reply.isData, decide_eq_true_eq] at hr
      rw [bytesOf_cons] at hsum
      simp only [Reply.bytes] at hsum
      have hb : 0 ≤ bytesOf rs := bytesOf_nonneg rs
      have hlt : total < size := by omega
      obtain ⟨s', pre, h1, h2, h3, h4⟩ := ih (total + n)
        (fun x hx => hdata x (List.mem_cons_of_mem _ hx)) (fun _ => rfl) (by omega)
      refine ⟨s', Action.recv s.fd (size - total) :: pre, ?_, by simp [h2], ?_, h4⟩
      · rw [List.cons_append]
        simp only [QSocketPrivate.recvLoop, Bool.false_eq_true, if_false,
          recvHead_permitted s size total hp, not_not.mpr hlt]
        have hn : ¬ (n = 0 ∧ s.type = SocketType.TcpSocket) := by omega
        simp only [hn, if_false, if_true]
        rw [h1]
        simp [Exec.after, bytesOf_cons, Reply.bytes, add_assoc]
      · intro a ha
        simp only [List.mem_cons] at ha
        rcases ha with rfl | ha
        · exact ⟨_, rfl⟩
        · exact h3 a ha


/-- C5 (amended): on a Connected stream socket with a positive descriptor,
when the `::recv` calls answer k reads of at least one byte each (k > 0 only
when all the bytes are asked for, and the reads leave room in the buffer) and
then a read of length zero or ECONNRESET, `recv` returns exactly the bytes of
the k reads, records RemoteHostClosedError, and closes the socket: after one
`::recv` per reply the trace ends with the `::close` of the descriptor and the
wake-up of its waiters, the state is Unconnected and the descriptor is -1.
Every later `recv` on that socket returns -1 without any action and leaves the
socket as it is, so the last error kind is still RemoteHostClosedError. -/
theorem recv_peer_closed (s : QSocketPrivate) (size : Int) (all : Bool)
    (reads : List Reply) (fin : Reply) (rest : List Reply)
    (hfd : 0 < s.fd) (ht : s.type = SocketType.TcpSocket)
    (hs : s.state = SocketState.ConnectedState)
    (hreads : ∀ r ∈ reads, r.isData = true)
    (hall : reads ≠ [] → all = true)
    (hroom : bytesOf reads < size)
    (hfin : (∃ sa val, fin = Reply.ok 0 sa val) ∨ fin = Reply.err Errno.ECONNRESET) :
    ∃ s' pre, s.recv size all (reads ++ fin :: rest)
        = Exec.ret (bytesOf reads) s'
            (pre ++ [Action.close s.fd, Action.triggerIoWatchers s.fd]) rest
      ∧ pre.length = reads.length + 1 ∧ (∀ a ∈ pre, ∃ len, a = Action.recv s.fd len)
      ∧ s'.error = SocketError.RemoteHostClosedError
      ∧ s'.errorString = some ErrorString.RemoteHostClosedErrorString
      ∧ s'.state = SocketState.UnconnectedState ∧ s'.fd = -1 ∧ s'.isValid = false
      ∧ ∀ (size2 : Int) (all2 : Bool) (script2 : List Reply),
          s'.recv size2 all2 script2 = Exec.ret (-1) s' [] script2 := by
  have hv : s.isValid = true := by
    simp only [QSocketPrivate.isValid, decide_eq_true_eq]
    omega
  have hp : recvPermitted s = true := by simp [recvPermitted, hv, ht, hs]
  obtain ⟨s', pre, h1, h2, h3, h4, h5, h6, h7, h8⟩ :=
    recvLoop_peer_closed s size all fin rest hp hfd ht hfin reads 0 hreads hall
      (by simpa using hroom)
  refine ⟨s', pre, ?_, h2, h3, h4, h5, h6, h7, h8, ?_⟩
  · simp only [QSocketPrivate.recv, hv, Bool.not_true, Bool.false_eq_true, if_false]
    simpa using h1
  · intro size2 all2 script2
    simp [QSocketPrivate.recv, h8]

/-- C5 at a concrete input: reads of 3 and 4 bytes into a buffer of 10, then
end of stream. -/
theorem recv_peer_closed_witness :
    (0 < QSocketPrivate.sampleConnected.fd
      ∧ (∀ r ∈ [Reply.val 3, Reply.val 4], r.isData = true)
      ∧ bytesOf [Reply.val 3, Reply.val 4] < 10)
    ∧ ∃ s' pre, QSocketPrivate.sampleConnected.recv 10 true
          ([Reply.val 3, Reply.val 4] ++ Reply.val 0 :: [])
        = Exec.ret (bytesOf [Reply.val 3, Reply.val 4]) s'
            (pre ++ [Action.close QSocketPrivate.sampleConnected.fd,
              Action.triggerIoWatchers QSocketPrivate.sampleConnected.fd]) []
      ∧ pre.length = [Reply.val 3, Reply.val 4].length + 1
      ∧ (∀ a ∈ pre, ∃ len, a = Action.recv QSocketPrivate.sampleConnected.fd len)
      ∧ s'.error = SocketError.RemoteHostClosedError
      ∧ s'.errorString = some ErrorString.RemoteHostClosedErrorString
      ∧ s'.state = SocketState.UnconnectedState ∧ s'.fd = -1 ∧ s'.isValid = false
      ∧ ∀ (size2 : Int) (all2 : Bool) (script2 : List Reply),
          s'.recv size2 all2 script2 = Exec.ret (-1) s' [] script2 :=
  ⟨⟨by decide, by decide, by decide⟩,
    recv_peer_closed QSocketPrivate.sampleConnected 10 true [Reply.val 3, Reply.val 4]
      (Reply.val 0) [] (by decide) rfl rfl (by decide) (fun _ => rfl) (by decide)
      (Or.inl ⟨_, _, rfl⟩)⟩

/-- C5 as stated fails.  On descriptor 7, with no byte buffered, the first
`recv` that meets the end of the stream returns 0 and the second returns -1:
not the same indication.  On descriptor 0 the first `recv` leaves the
descriptor 0 and valid, and the second records
UnsupportedSocketOperationError over RemoteHostClosedError. -/
theorem recv_peer_closed_second_call_differs :
    (QSocketPrivate.sampleConnected.recv 10 false [Reply.val 0]).value? = some 0
    ∧ (((QSocketPrivate.sampleConnected.recv 10 false [Reply.val 0]).socket?.map
        fun s => (s.recv 10 false []).value?) = some (some (-1)))
    ∧ ((QSocketPrivate.sampleZeroConnected.recv 10 false [Reply.val 0]).socket?.map
        fun s => (s.isValid, s.fd)) = some (true, 0)
    ∧ ((QSocketPrivate.sampleZeroConnected.recv 10 false [Reply.val 0]).socket?.map
        fun s => (s.recv 10 false []).socket?.map fun s2 => s2.error)
      = some (some SocketError.UnsupportedSocketOperationError) := by
  decide

/-- The two replies that make a transfer loop issue its call again. -/
theorem retryReply_cases (r : Reply) (h : retryReply r = true) :
    r = Reply.err Errno.EINTR ∨ r = Reply.err Errno.EAGAIN := by
  cases r with
  | ok n sa v => simp [retryReply] at h
  | err e => cases e <;> simp_all [retryReply]

/-- A failure at which `send` does not stop is interrupted or would-block. -/
theorem sendStops_err (e : Errno) (h : sendStops (Reply.err e) = false) :
    e = Errno.EINTR ∨ e = Errno.EAGAIN := by
  cases e <;> simp_all [sendStops, retryReply]

/-- A bounded script starts with a bounded reply and goes on bounded. -/
theorem transfersBounded_cons (n sent : Int) (r : Reply) (rs : List Reply)
    (hle : sent ≤ n) (h : transfersBounded (n - sent) (r :: rs) = true) :
    sent + r.bytes ≤ n ∧ transfersBounded (n - (sent + r.bytes)) rs = true := by
  cases r with
  | ok m sa val =>
    simp only [transfersBounded, Bool.and_eq_true, decide_eq_true_eq] at h
    simp only [Reply.bytes]
    refine ⟨by omega, ?_⟩
    rw [show n - (sent + (m : Int)) = n - sent - m by ring]
    exact h.2
  | err e =>
    simp only [transfersBounded] at h
    simp only [Reply.bytes, add_zero]
    exact ⟨hle, h⟩

/-- Every return of the loop of `send`: the result is what was sent before
plus the bytes of the replies read. -/
theorem sendLoop_result (s : QSocketPrivate) (n : Int) (all : Bool) (script : List Reply) :
    ∀ (sent : Int) (inner : Bool), (inner = true → sent < n) →
    (all = false → sent = 0) →
    ∀ (v : Int) (s' : QSocketPrivate) (tr : List Action) (rest : List Reply),
    s.sendLoop n all sent inner script = Exec.ret v s' tr rest →
    ∃ used, script = used ++ rest ∧ v = sent + bytesOf used
      ∧ ((∀ r ∈ used, sendStops r = false) → s' = s)
      ∧ (sent ≤ n → transfersBounded (n - sent) used = true →
          v ≤ n ∧ ((∀ r ∈ used, sendStops r = false) → all = true → v = n)) := by
  induction script with
  | nil =>
    intro sent inner hin hall v s' tr rest h
    simp only [QSocketPrivate.sendLoop] at h
    by_cases hc : inner = false ∧ ¬ sent < n
    · rw [if_pos hc] at h
      simp only [Exec.ret.injEq] at h
      obtain ⟨rfl, rfl, -, rfl⟩ := h
      exact ⟨[], rfl, by simp [bytesOf], fun _ => rfl,
        fun hle _ => ⟨hle, fun _ _ => by omega⟩⟩
    · rw [if_neg hc] at h; simp at h
  | cons r rs ih =>
    intro sent inner hin hall v s' tr rest h
    simp only [QSocketPrivate.sendLoop] at h
    by_cases hc : inner = false ∧ ¬ sent < n
    · rw [if_pos hc] at h
      simp only [Exec.ret.injEq] at h
      obtain ⟨rfl, rfl, -, rfl⟩ := h
      exact ⟨[], rfl, by simp [bytesOf], fun _ => rfl,
        fun hle _ => ⟨hle, fun _ _ => by omega⟩⟩
    · rw [if_neg hc, Exec.after_eq_ret] at h
      obtain ⟨tr0, h, -⟩ := h
      have hlt : sent < n := by
        cases inner with
        | true => exact hin rfl
        | false =>
          by_contra hh
          exact hc ⟨rfl, hh⟩
      -- a recursive call that has read `r`, with `sent'` bytes sent
      have hrec : ∀ sent' inner' tr0, sent' = sent + r.bytes → sendStops r = false →
          (inner' = true → sent' < n) → (all = false → sent' = 0) →
          s.sendLoop n all sent' inner' rs = Exec.ret v s' tr0 rest →
          ∃ used, r :: rs = used ++ rest ∧ v = sent + bytesOf used
            ∧ ((∀ x ∈ used, sendStops x = false) → s' = s)
            ∧ (sent ≤ n → transfersBounded (n - sent) used = true →
                v ≤ n ∧ ((∀ x ∈ used, sendStops x = false) → all = true → v = n)) := by
        intro sent' inner' tr0 hs' hst hin' hall' h
        obtain ⟨used, hu, hv, hk, hn⟩ := ih sent' inner' hin' hall' v s' tr0 rest h
        refine ⟨r :: used, by simp [hu], ?_, fun hx => ?_, fun hle hb => ?_⟩
        · rw [bytesOf_cons, hv, hs']; ring
        · exact hk (fun x hx' => hx x (List.mem_cons_of_mem _ hx'))
        · obtain ⟨b1, b2⟩ := transfersBounded_cons n sent r used hle hb
          rw [← hs'] at b1 b2
          obtain ⟨c1, c2⟩ := hn b1 b2
          exact ⟨c1, fun hx => c2 (fun x hx' => hx x (List.mem_cons_of_mem _ hx'))⟩
      -- an exit that has read `r` and returns `v'`
      have hexit : ∀ (v' : Int) (s1 : QSocketPrivate) tr1 tr0, v' = sent + r.bytes →
          (sendStops r = false → s1 = s ∧ all = false) →
          Exec.ret v' s1 tr1 rs = Exec.ret v s' tr0 rest →
          ∃ used, r :: rs = used ++ rest ∧ v = sent + bytesOf used
            ∧ ((∀ x ∈ used, sendStops x = false) → s' = s)
            ∧ (sent ≤ n → transfersBounded (n - sent) used = true →
                v ≤ n ∧ ((∀ x ∈ used, sendStops x = false) → all = true → v = n)) := by
        intro v' s1 tr1 tr0 hv' hst h
        simp only [Exec.ret.injEq] at h
        obtain ⟨rfl, rfl, -, rfl⟩ := h
        refine ⟨[r], by simp, by simp [bytesOf, hv'],
          fun hx => (hst (hx r (by simp))).1, fun hle hb => ?_⟩
        obtain ⟨b1, -⟩ := transfersBounded_cons n sent r [] hle hb
        refine ⟨by omega, fun hx hh => ?_⟩
        have e2 := (hst (hx r (by simp))).2
        simp [e2] at hh
      cases r with
      | ok w sa val =>
        simp only at h
        by_cases hw : 0 < w
        · rw [if_pos hw] at h
          cases all with
          | true =>
            simp only [Bool.not_true, Bool.false_eq_true, if_false, Exec.after_eq_ret] at h
            obtain ⟨tr1, h, -⟩ := h
            exact hrec (sent + w) false _ rfl rfl (by simp) (by simp) h
          | false =>
            simp only [Bool.not_false, if_true] at h
            have hs0 : sent = 0 := hall rfl
            exact hexit w s [] _ (by simp [Reply.bytes, hs0]) (fun _ => ⟨rfl, rfl⟩) h
        · rw [if_neg hw, Exec.after_eq_ret] at h
          obtain ⟨tr1, h, -⟩ := h
          have hw0 : w = 0 := by omega
          subst hw0
          exact hrec sent false _ (by simp [Reply.bytes]) rfl (by simp) hall h
      | err e =>
        cases e <;>
          first
          | exact hexit sent _ _ _ (by simp [Reply.bytes])
              (fun hh => by simp [sendStops, retryReply] at hh) h
          | exact hrec sent true _ (by simp [Reply.bytes]) rfl (fun _ => hlt) hall h
          | (simp only [Exec.after_eq_ret] at h
             obtain ⟨tr1, h, -⟩ := h
             exact hrec sent false _ (by simp [Reply.bytes]) rfl (by simp) hall h)

/-- Without exactly_all the loop of `send` returns the first successful write.
-/
theorem sendLoop_first (s : QSocketPrivate) (n : Int) (w : Nat) (sa : qt_sockaddr)
    (val : Int) (rest : List Reply) (hn : 0 < n) (hw : 0 < w) (pre : List Reply) :
    ∀ (inner : Bool), (∀ r ∈ pre, retryReply r = true) →
    ∃ tr, s.sendLoop n false 0 inner (pre ++ Reply.ok w sa val :: rest)
      = Exec.ret (w : Int) s tr rest := by
  induction pre with
  | nil =>
    intro inner _
    have hc : ¬ (inner = false ∧ ¬ (0 : Int) < n) := fun h => h.2 hn
    refine ⟨[Action.send s.fd (n - 0)], ?_⟩
    rw [List.nil_append]
    simp only [QSocketPrivate.sendLoop]
    rw [if_neg hc]
    simp [hw, Exec.after]
  | cons r pre ih =>
    intro inner hpre
    have hc : ¬ (inner = false ∧ ¬ (0 : Int) < n) := fun h => h.2 hn
    have hpre' : ∀ x ∈ pre, retryReply x = true :=
      fun x hx => hpre x (List.mem_cons_of_mem _ hx)
    rw [List.cons_append]
    rcases retryReply_cases r (hpre r (List.mem_cons_self _ _)) with rfl | rfl
    · obtain ⟨tr, h⟩ := ih true hpre'
      refine ⟨Action.send s.fd (n - 0) :: tr, ?_⟩
      simp only [QSocketPrivate.sendLoop]
      rw [if_neg hc, h]
      rfl
    · obtain ⟨tr, h⟩ := ih false hpre'
      refine ⟨Action.send s.fd (n - 0) :: Action.watcherStart Direction.Write :: tr, ?_⟩
      simp only [QSocketPrivate.sendLoop]
      rw [if_neg hc, h]
      rfl

/-- With exactly_all the loop of `send` returns the whole size once it has
read replies without terminal failure whose writes add up to the size. -/
theorem sendLoop_complete (s : QSocketPrivate) (n : Int) (rest : List Reply)
    (used : List Reply) :
    ∀ (sent : Int) (inner : Bool), sent ≤ n → (inner = true → sent < n) →
    transfersBounded (n - sent) used = true → (∀ r ∈ used, sendStops r = false) →
    n ≤ sent + bytesOf used →
    ∃ tr rest', s.sendLoop n true sent inner (used ++ rest) = Exec.ret n s tr rest' := by
  induction used with
  | nil =>
    intro sent inner hle hin _ _ hsum
    simp only [bytesOf_nil, add_zero] at hsum
    have hs : sent = n := le_antisymm hle hsum
    have hi : inner = false := by
      cases inner with
      | false => rfl
      | true => have := hin rfl; omega
    subst hs hi
    rw [List.nil_append]
    cases rest with
    | nil => exact ⟨[], [], by simp [QSocketPrivate.sendLoop]⟩
    | cons r rs => exact ⟨[], r :: rs, by simp [QSocketPrivate.sendLoop]⟩
  | cons r rs ih =>
    intro sent inner hle hin hb hns hsum
    rw [List.cons_append]
    simp only [QSocketPrivate.sendLoop]
    by_cases hc : inner = false ∧ ¬ sent < n
    · rw [if_pos hc]
      have hs : sent = n := by omega
      subst hs
      exact ⟨[], _, rfl⟩
    · rw [if_neg hc]
      have hlt : sent < n := by
        cases inner with
        | true => exact hin rfl
        | false =>
          by_contra hh
          exact hc ⟨rfl, hh⟩
      have hns' : ∀ x ∈ rs, sendStops x = false :=
        fun x hx => hns x (List.mem_cons_of_mem _ hx)
      obtain ⟨b1, b2⟩ := transfersBounded_cons n sent r rs hle hb
      rw [bytesOf_cons] at hsum
      cases r with
      | ok w sa val =>
        simp only [Reply.bytes] at hsum b1 b2
        by_cases hw : 0 < w
        · obtain ⟨tr, rest', h⟩ := ih (sent + w) false b1 (by simp) b2 hns' (by omega)
          refine ⟨Action.send s.fd (n - sent) :: Action.watcherStart Direction.Write :: tr,
            rest', ?_⟩
          simp only [hw, if_true, Bool.not_true, Bool.false_eq_true, if_false]
          rw [h]
          rfl
        · have hw0 : w = 0 := by omega
          subst hw0
          obtain ⟨tr, rest', h⟩ := ih sent false hle (by simp) (by simpa using b2) hns'
            (by simpa using hsum)
          refine ⟨Action.send s.fd (n - sent) :: Action.watcherStart Direction.Write :: tr,
            rest', ?_⟩
          simp only [lt_self_iff_false, if_false]
          rw [h]
          rfl
      | err e =>
        simp only [Reply.bytes, add_zero] at b2
        simp only [Reply.bytes, zero_add] at hsum
        rcases sendStops_err e (hns _ (List.mem_cons_self _ _)) with rfl | rfl
        · obtain ⟨tr, rest', h⟩ := ih sent true hle (fun _ => hlt) b2 hns' hsum
          refine ⟨Action.send s.fd (n - sent) :: tr, rest', ?_⟩
          simp only
          rw [h]
          rfl
        · obtain ⟨tr, rest', h⟩ := ih sent false hle (by simp) b2 hns' hsum
          refine ⟨Action.send s.fd (n - sent) :: Action.watcherStart Direction.Write :: tr,
            rest', ?_⟩
          simp only
          rw [h]
          rfl

/-- The loop of `send` on replies without terminal failure followed by a
terminal failure, met before the whole size is sent: it returns the bytes sent
so far, on the socket that the failing case of the error switch leaves. -/
theorem sendLoop_terminal (s : QSocketPrivate) (n : Int) (all : Bool) (e : Errno)
    (rest : List Reply) (he : sendStops (Reply.err e) = true) (used : List Reply) :
    ∀ (sent : Int) (inner : Bool), (∀ r ∈ used, sendStops r = false) →
    (all = false → ∀ r ∈ used, r.isData = false) → sent + bytesOf used < n →
    ∃ tr, s.sendLoop n all sent inner (used ++ Reply.err e :: rest)
      = Exec.ret (sent + bytesOf used) (s.sendFail e).1 tr rest := by
  induction used with
  | nil =>
    intro sent inner _ _ hsum
    simp only [bytesOf_nil, add_zero] at hsum
    have hc : ¬ (inner = false ∧ ¬ sent < n) := fun h => h.2 hsum
    refine ⟨Action.send s.fd (n - sent) :: (s.sendFail e).2, ?_⟩
    rw [List.nil_append]
    simp only [QSocketPrivate.sendLoop]
    rw [if_neg hc]
    cases e <;> first
      | (simp [sendStops, retryReply] at he; done)
      | simp [Exec.after, bytesOf]
  | cons r rs ih =>
    intro sent inner hns hdata hsum
    have hb : 0 ≤ bytesOf rs := bytesOf_nonneg rs
    have hr0 : 0 ≤ r.bytes := by
      cases r with
      | ok m sa val => simp only [Reply.bytes]; omega
      | err e => simp [Reply.bytes]
    rw [bytesOf_cons] at hsum
    have hlt : sent < n := by omega
    have hc : ¬ (inner = false ∧ ¬ sent < n) := fun h => h.2 hlt
    have hns' : ∀ x ∈ rs, sendStops x = false :=
      fun x hx => hns x (List.mem_cons_of_mem _ hx)
    have hdata' : all = false → ∀ x ∈ rs, x.isData = false :=
      fun ha x hx => hdata ha x (List.mem_cons_of_mem _ hx)
    rw [List.cons_append]
    simp only [QSocketPrivate.sendLoop]
    rw [if_neg hc]
    cases r with
    | ok w sa val =>
      simp only [Reply.bytes] at hsum
      by_cases hw : 0 < w
      · have hall : all = true := by
          cases all with
          | true => rfl
          | false =>
            have := hdata rfl _ (List.mem_cons_self _ _)
            simp [Reply.isData, hw] at this
        subst hall
        obtain ⟨tr, h⟩ := ih (sent + w) false hns' hdata' (by omega)
        refine ⟨Action.send s.fd (n - sent) :: Action.watcherStart Direction.Write :: tr, ?_⟩
        simp only [hw, if_true, Bool.not_true, Bool.false_eq_true, if_false]
        rw [h, bytesOf_cons]
        simp [Exec.after, Reply.bytes, add_assoc]
      · have hw0 : w = 0 := by omega
        subst hw0
        obtain ⟨tr, h⟩ := ih sent false hns' hdata' (by simpa using hsum)
        refine ⟨Action.send s.fd (n - sent) :: Action.watcherStart Direction.Write :: tr, ?_⟩
        simp only [lt_self_iff_false, if_false]
        rw [h, bytesOf_cons]
        simp [Exec.after, Reply.bytes]
    | err e2 =>
      simp only [Reply.bytes, add_zero] at hsum
      rcases sendStops_err e2 (hns _ (List.mem_cons_self _ _)) with rfl | rfl
      · obtain ⟨tr, h⟩ := ih sent true hns' hdata' (by simpa using hsum)
        refine ⟨Action.send s.fd (n - sent) :: tr, ?_⟩
        simp only
        rw [h, bytesOf_cons]
        simp [Exec.after, Reply.bytes]
      · obtain ⟨tr, h⟩ := ih sent false hns' hdata' (by simpa using hsum)
        refine ⟨Action.send s.fd (n - sent) :: Action.watcherStart Direction.Write :: tr, ?_⟩
        simp only
        rw [h, bytesOf_cons]
        simp [Exec.after, Reply.bytes]

/-- C6: on a valid socket, for a buffer of n >= 0 bytes: whenever `send`
returns, the result is the sum of the successful writes among the replies it
read and is not negative; when none of those replies is a terminal failure the
socket is unchanged; when each of those writes is at most what remained, the
result is at most n and, with exactly_all and no terminal failure read, it is
n.  Without exactly_all, a first successful write of at least one byte,
preceded only by interrupted or would-block replies, is returned as the
result.  With exactly_all, replies without terminal failure whose writes are
each at most what remained and add up to n make `send` return n.  A terminal
failure (a failure other than interrupted and would-block) met before n bytes
are sent makes `send` return the bytes sent so far, the sum of the writes
before it (0 without exactly_all), on the socket that the error switch leaves
for that failure, with the replies after it unread.  For n = 0 `send` returns
0 without any call. -/
theorem send_result (s : QSocketPrivate) (n : Int) (all : Bool) (script : List Reply)
    (hv : s.isValid = true) (hn : 0 ≤ n) :
    (∀ v s' tr rest, s.send n all script = Exec.ret v s' tr rest →
      ∃ used, script = used ++ rest ∧ v = bytesOf used ∧ 0 ≤ v
        ∧ ((∀ r ∈ used, sendStops r = false) → s' = s)
        ∧ (transfersBounded n used = true →
            v ≤ n ∧ ((∀ r ∈ used, sendStops r = false) → all = true → v = n)))
    ∧ (all = false → 0 < n → ∀ pre w sa val rest,
        script = pre ++ Reply.ok w sa val :: rest → (∀ r ∈ pre, retryReply r = true) →
        0 < w → ∃ tr, s.send n false script = Exec.ret (w : Int) s tr rest)
    ∧ (all = true → ∀ used rest, script = used ++ rest →
        (∀ r ∈ used, sendStops r = false) → transfersBounded n used = true →
        n ≤ bytesOf used → ∃ tr rest', s.send n true script = Exec.ret n s tr rest')
    ∧ (∀ used e rest, script = used ++ Reply.err e :: rest →
        (∀ r ∈ used, sendStops r = false) → sendStops (Reply.err e) = true →
        (all = false → ∀ r ∈ used, r.isData = false) → bytesOf used < n →
        ∃ tr, s.send n all script = Exec.ret (bytesOf used) (s.sendFail e).1 tr rest)
    ∧ (n = 0 → s.send n all script = Exec.ret 0 s [] script) := by
  refine ⟨?_, ?_, ?_, ?_, ?_⟩
  · intro v s' tr rest h
    simp only [QSocketPrivate.send, hv, Bool.not_true, Bool.false_eq_true, if_false] at h
    obtain ⟨used, hu, hv', hk, hx⟩ := sendLoop_result s n all script 0 false
      (by simp) (fun _ => rfl) v s' tr rest h
    simp only [zero_add] at hv'
    refine ⟨used, hu, hv', by rw [hv']; exact bytesOf_nonneg used, hk, fun hb => ?_⟩
    exact hx hn (by simpa using hb)
  · intro _ hn0 pre w sa val rest hs hpre hw
    obtain ⟨tr, h⟩ := sendLoop_first s n w sa val rest hn0 hw pre false hpre
    refine ⟨tr, ?_⟩
    simp only [QSocketPrivate.send, hv, Bool.not_true, Bool.false_eq_true, if_false]
    rw [hs]
    exact h
  · intro _ used rest hs hns hb hsum
    obtain ⟨tr, rest', h⟩ := sendLoop_complete s n rest used 0 false hn (by simp)
      (by simpa using hb) hns (by simpa using hsum)
    refine ⟨tr, rest', ?_⟩
    simp only [QSocketPrivate.send, hv, Bool.not_true, Bool.false_eq_true, if_false]
    rw [hs]
    exact h
  · intro used e rest hs hns he hdata hsum
    obtain ⟨tr, h⟩ := sendLoop_terminal s n all e rest he used 0 false hns hdata
      (by simpa using hsum)
    refine ⟨tr, ?_⟩
    simp only [QSocketPrivate.send, hv, Bool.not_true, Bool.false_eq_true, if_false]
    rw [hs, h]
    simp
  · intro h0
    subst h0
    simp only [QSocketPrivate.send, hv, Bool.not_true, Bool.false_eq_true, if_false]
    cases script <;> simp [QSocketPrivate.sendLoop]

/-- C6 at a concrete input: 10 bytes sent as 4, would-block, 6. -/
theorem send_result_witness :
    (QSocketPrivate.sampleConnected.isValid = true ∧ (0 : Int) ≤ 10)
    ∧ ∃ tr rest, QSocketPrivate.sampleConnected.send 10 true
        [Reply.val 4, Reply.err Errno.EAGAIN, Reply.val 6, Reply.val 9]
        = Exec.ret 10 QSocketPrivate.sampleConnected tr rest :=
  ⟨⟨by decide, by decide⟩,
    (send_result QSocketPrivate.sampleConnected 10 true
      [Reply.val 4, Reply.err Errno.EAGAIN, Reply.val 6, Reply.val 9] (by decide)
      (by decide)).2.2.1 rfl [Reply.val 4, Reply.err Errno.EAGAIN, Reply.val 6] [Reply.val 9]
      rfl (by decide) (by decide) (by decide)⟩

/-- A failure at which `recv` does not stop is interrupted or would-block. -/
theorem recvStops_err (s : QSocketPrivate) (e : Errno)
    (h : recvStops s (Reply.err e) = false) :
    e = Errno.EINTR ∨ e = Errno.EAGAIN := by
  cases e <;> simp_all [recvStops, retryReply]

/-- Every return of the loop of `recv`: the result is what was read before
plus the bytes of the replies read, or -1 when that is nothing. -/
theorem recvLoop_result (s : QSocketPrivate) (n : Int) (all : Bool)
    (hp : recvPermitted s = true) (script : List Reply) :
    ∀ (total : Int) (inner : Bool), (inner = true → total < n) →
    (all = false → total = 0) →
    ∀ (v : Int) (s' : QSocketPrivate) (tr : List Action) (rest : List Reply),
    s.recvLoop n all total inner script = Exec.ret v s' tr rest →
    ∃ used, script = used ++ rest
      ∧ (v = total + bytesOf used ∨ (v = -1 ∧ total + bytesOf used = 0))
      ∧ ((∀ r ∈ used, recvStops s r = false) → s' = s ∧ v = total + bytesOf used)
      ∧ (total ≤ n → transfersBounded (n - total) used = true →
          v ≤ n ∧ ((∀ r ∈ used, recvStops s r = false) → all = true → v = n)) := by
  have hv : s.isValid = true := by
    unfold recvPermitted at hp
    simp only [Bool.and_eq_true] at hp
    exact hp.1
  have hhead : ∀ (total : Int) (inner : Bool) (script : List Reply),
      ∀ out, (if inner = true then none else s.recvHead n total) = some out →
      ∃ used, script = used ++ script
        ∧ (out.1 = total + bytesOf used ∨ (out.1 = -1 ∧ total + bytesOf used = 0))
        ∧ ((∀ r ∈ used, recvStops s r = false) → out.2 = s ∧ out.1 = total + bytesOf used)
        ∧ (total ≤ n → transfersBounded (n - total) used = true →
            out.1 ≤ n ∧ ((∀ r ∈ used, recvStops s r = false) → all = true → out.1 = n)) := by
    intro total inner script out hh
    cases inner with
    | true => simp at hh
    | false =>
      simp only [Bool.false_eq_true, if_false, recvHead_permitted s n total hp] at hh
      by_cases hlt : total < n
      · rw [if_neg (not_not.mpr hlt)] at hh; simp at hh
      · rw [if_pos hlt] at hh
        simp only [Option.some.injEq] at hh
        subst hh
        exact ⟨[], rfl, Or.inl (by simp [bytesOf]), fun _ => ⟨rfl, by simp [bytesOf]⟩,
          fun hle _ => ⟨hle, fun _ _ => by simp only; omega⟩⟩
  induction script with
  | nil =>
    intro total inner hin hall v s' tr rest h
    simp only [QSocketPrivate.recvLoop] at h
    cases hh : (if inner = true then none else s.recvHead n total) with
    | none => simp [hh] at h
    | some out =>
      simp only [hh, Exec.ret.injEq] at h
      obtain ⟨rfl, rfl, -, rfl⟩ := h
      exact hhead total inner [] out hh
  | cons r rs ih =>
    intro total inner hin hall v s' tr rest h
    simp only [QSocketPrivate.recvLoop] at h
    cases hh : (if inner = true then none else s.recvHead n total) with
    | some out =>
      simp only [hh, Exec.ret.injEq] at h
      obtain ⟨rfl, rfl, -, rfl⟩ := h
      exact hhead total inner (r :: rs) out hh
    | none =>
      have hlt : total < n := by
        cases inner with
        | true => exact hin rfl
        | false =>
          simp only [Bool.false_eq_true, if_false] at hh
          exact recvHead_none _ _ _ hh
      simp only [hh, Exec.after_eq_ret] at h
      obtain ⟨tr0, h, -⟩ := h
      have hb0 : 0 ≤ r.bytes := by
        cases r with
        | ok m _ _ => simp [Reply.bytes]
        | err _ => simp [Reply.bytes]
      have hrec : ∀ total' inner' tr0, total' = total + r.bytes → recvStops s r = false →
          (inner' = true → total' < n) → (all = false → total' = 0) →
          s.recvLoop n all total' inner' rs = Exec.ret v s' tr0 rest →
          ∃ used, r :: rs = used ++ rest
            ∧ (v = total + bytesOf used ∨ (v = -1 ∧ total + bytesOf used = 0))
            ∧ ((∀ x ∈ used, recvStops s x = false) → s' = s ∧ v = total + bytesOf used)
            ∧ (total ≤ n → transfersBounded (n - total) used = true →
                v ≤ n ∧ ((∀ x ∈ used, recvStops s x = false) → all = true → v = n)) := by
        intro total' inner' tr0 hs' hst hin' hall' h
        obtain ⟨used, hu, hv, hk, hn⟩ := ih total' inner' hin' hall' v s' tr0 rest h
        have e1 : total + bytesOf (r :: used) = total' + bytesOf used := by
          rw [bytesOf_cons, hs']; ring
        refine ⟨r :: used, by simp [hu], ?_, fun hx => ?_, fun hle hb => ?_⟩
        · rw [e1]; exact hv
        · rw [e1]
          exact hk (fun x hx' => hx x (List.mem_cons_of_mem _ hx'))
        · obtain ⟨b1, b2⟩ := transfersBounded_cons n total r used hle hb
          rw [← hs'] at b1 b2
          obtain ⟨c1, c2⟩ := hn b1 b2
          exact ⟨c1, fun hx => c2 (fun x hx' => hx x (List.mem_cons_of_mem _ hx'))⟩
      have hexit : ∀ (v' : Int) (s1 : QSocketPrivate) tr1 tr0,
          (v' = total + r.bytes ∨ (v' = -1 ∧ total + r.bytes = 0)) →
          (recvStops s r = false → s1 = s ∧ v' = total + r.bytes ∧ all = false) →
          Exec.ret v' s1 tr1 rs = Exec.ret v s' tr0 rest →
          ∃ used, r :: rs = used ++ rest
            ∧ (v = total + bytesOf used ∨ (v = -1 ∧ total + bytesOf used = 0))
            ∧ ((∀ x ∈ used, recvStops s x = false) → s' = s ∧ v = total + bytesOf used)
            ∧ (total ≤ n → transfersBounded (n - total) used = true →
                v ≤ n ∧ ((∀ x ∈ used, recvStops s x = false) → all = true → v = n)) := by
        intro v' s1 tr1 tr0 hv' hst h
        simp only [Exec.ret.injEq] at h
        obtain ⟨rfl, rfl, -, rfl⟩ := h
        have e1 : bytesOf [r] = r.bytes := by simp [bytesOf]
        refine ⟨[r], by simp, by rw [e1]; exact hv', fun hx => ?_, fun hle hb => ?_⟩
        · rw [e1]
          exact ⟨(hst (hx r (by simp))).1, (hst (hx r (by simp))).2.1⟩
        · obtain ⟨b1, -⟩ := transfersBounded_cons n total r [] hle hb
          refine ⟨by omega, fun hx hh => ?_⟩
          have e2 := (hst (hx r (by simp))).2.2
          simp [e2] at hh
      have hfailv : QSocketPrivate.recvFailValue total = total + 0
          ∨ (QSocketPrivate.recvFailValue total = -1 ∧ total + 0 = 0) := by
        unfold QSocketPrivate.recvFailValue
        by_cases ht0 : total = 0
        · right; simp [ht0]
        · left; simp [ht0]
      cases r with
      | ok m sa val =>
        simp only at h
        by_cases hz : m = 0 ∧ s.type = SocketType.TcpSocket
        · rw [if_pos hz] at h
          simp only [QSocketPrivate.recvRemoteClosed] at h
          exact hexit total _ _ _ (Or.inl (by simp [Reply.bytes, hz.1]))
            (fun hh => by simp [recvStops, hz] at hh) h
        · rw [if_neg hz] at h
          cases all with
          | true =>
            simp only [if_true] at h
            exact hrec (total + m) false _ rfl (by simpa [recvStops] using hz)
              (by simp) (by simp) h
          | false =>
            simp only [Bool.false_eq_true, if_false] at h
            exact hexit (total + m) s [] _ (Or.inl rfl) (fun _ => ⟨rfl, rfl, rfl⟩) h
      | err e =>
        cases e <;>
          first
          | exact hexit _ _ _ _ hfailv
              (fun hh => by simp [recvStops, retryReply] at hh) h
          | exact hrec total true _ (by simp [Reply.bytes]) rfl (fun _ => hlt) hall h
          | (simp only [Exec.after_eq_ret] at h
             obtain ⟨tr1, h, -⟩ := h
             exact hrec total false _ (by simp [Reply.bytes]) rfl (by simp) hall h)
          | (simp only at h
             by_cases ht : s.type = SocketType.TcpSocket
             · rw [if_pos ht] at h
               simp only [QSocketPrivate.recvRemoteClosed] at h
               exact hexit total _ _ _ (Or.inl (by simp [Reply.bytes]))
                 (fun hh => by simp [recvStops, retryReply] at hh) h
             · rw [if_neg ht] at h
               exact hexit total _ _ _ (Or.inl (by simp [Reply.bytes]))
                 (fun hh => by simp [recvStops, retryReply] at hh) h)

/-- Without exactly_n the loop of `recv` returns the first read that delivers.
-/
theorem recvLoop_first (s : QSocketPrivate) (n : Int) (m : Nat) (sa : qt_sockaddr)
    (val : Int) (rest : List Reply) (hp : recvPermitted s = true) (hn : 0 < n)
    (hm : recvStops s (Reply.ok m sa val) = false) (pre : List Reply) :
    ∀ (inner : Bool), (∀ r ∈ pre, retryReply r = true) →
    ∃ tr, s.recvLoop n false 0 inner (pre ++ Reply.ok m sa val :: rest)
      = Exec.ret (m : Int) s tr rest := by
  have hhead : ∀ inner : Bool, (if inner = true then none else s.recvHead n 0) = none := by
    intro inner
    cases inner with
    | true => rfl
    | false =>
      simp only [Bool.false_eq_true, if_false, recvHead_permitted s n 0 hp]
      rw [if_neg (not_not.mpr hn)]
  have hz : ¬ (m = 0 ∧ s.type = SocketType.TcpSocket) := by simpa [recvStops] using hm
  induction pre with
  | nil =>
    intro inner _
    refine ⟨[Action.recv s.fd (n - 0)], ?_⟩
    rw [List.nil_append]
    simp only [QSocketPrivate.recvLoop, hhead inner]
    rw [if_neg hz]
    simp [Exec.after]
  | cons r pre ih =>
    intro inner hpre
    have hpre' : ∀ x ∈ pre, retryReply x = true :=
      fun x hx => hpre x (List.mem_cons_of_mem _ hx)
    rw [List.cons_append]
    rcases retryReply_cases r (hpre r (List.mem_cons_self _ _)) with rfl | rfl
    · obtain ⟨tr, h⟩ := ih true hpre'
      refine ⟨Action.recv s.fd (n - 0) :: tr, ?_⟩
      simp only [QSocketPrivate.recvLoop, hhead inner]
      rw [h]
      rfl
    · obtain ⟨tr, h⟩ := ih false hpre'
      refine ⟨Action.recv s.fd (n - 0) :: Action.watcherStart Direction.Read :: tr, ?_⟩
      simp only [QSocketPrivate.recvLoop, hhead inner]
      rw [h]
      rfl

/-- With exactly_n the loop of `recv` returns the whole size once it has read
replies without terminal condition whose reads add up to the size. -/
theorem recvLoop_complete (s : QSocketPrivate) (n : Int) (hp : recvPermitted s = true)
    (rest : List Reply) (used : List Reply) :
    ∀ (total : Int) (inner : Bool), total ≤ n → (inner = true → total < n) →
    transfersBounded (n - total) used = true → (∀ r ∈ used, recvStops s r = false) →
    n ≤ total + bytesOf used →
    ∃ tr rest', s.recvLoop n true total inner (used ++ rest) = Exec.ret n s tr rest' := by
  have hhead : ∀ (total : Int) (inner : Bool), (inner = true → total < n) →
      (if inner = true then (none : Option (Int × QSocketPrivate)) else s.recvHead n total)
        = if total < n then none else some (total, s) := by
    intro total inner hin
    cases inner with
    | true => simp [hin rfl]
    | false =>
      simp only [Bool.false_eq_true, if_false, recvHead_permitted s n total hp]
      by_cases hlt : total < n
      · rw [if_neg (not_not.mpr hlt), if_pos hlt]
      · rw [if_pos hlt, if_neg hlt]
  induction used with
  | nil =>
    intro total inner hle hin _ _ hsum
    simp only [bytesOf_nil, add_zero] at hsum
    have hs : total = n := le_antisymm hle hsum
    subst hs
    rw [List.nil_append]
    cases rest with
    | nil =>
      refine ⟨[], [], ?_⟩
      simp only [QSocketPrivate.recvLoop, hhead total inner hin, lt_self_iff_false, if_false]
    | cons r rs =>
      refine ⟨[], r :: rs, ?_⟩
      simp only [QSocketPrivate.recvLoop, hhead total inner hin, lt_self_iff_false, if_false]
  | cons r rs ih =>
    intro total inner hle hin hb hns hsum
    rw [List.cons_append]
    simp only [QSocketPrivate.recvLoop, hhead total inner hin]
    by_cases hlt : total < n
    swap
    · rw [if_neg hlt]
      have hs : total = n := by omega
      subst hs
      exact ⟨[], _, rfl⟩
    · rw [if_pos hlt]
      have hns' : ∀ x ∈ rs, recvStops s x = false :=
        fun x hx => hns x (List.mem_cons_of_mem _ hx)
      obtain ⟨b1, b2⟩ := transfersBounded_cons n total r rs hle hb
      rw [bytesOf_cons] at hsum
      cases r with
      | ok m sa val =>
        simp only [Reply.bytes] at hsum b1 b2
        have hz : ¬ (m = 0 ∧ s.type = SocketType.TcpSocket) := by
          simpa [recvStops] using hns _ (List.mem_cons_self _ _)
        obtain ⟨tr, rest', h⟩ := ih (total + m) false b1 (by simp) b2 hns' (by omega)
        refine ⟨Action.recv s.fd (n - total) :: tr, rest', ?_⟩
        simp only
        rw [if_neg hz]
        simp only [if_true]
        rw [h]
        rfl
      | err e =>
        simp only [Reply.bytes, add_zero] at b2
        simp only [Reply.bytes, zero_add] at hsum
        rcases recvStops_err s e (hns _ (List.mem_cons_self _ _)) with rfl | rfl
        · obtain ⟨tr, rest', h⟩ := ih total true hle (fun _ => hlt) b2 hns' hsum
          refine ⟨Action.recv s.fd (n - total) :: tr, rest', ?_⟩
          simp only
          rw [h]
          rfl
        · obtain ⟨tr, rest', h⟩ := ih total false hle (by simp) b2 hns' hsum
          refine ⟨Action.recv s.fd (n - total) :: Action.watcherStart Direction.Read :: tr,
            rest', ?_⟩
          simp only
          rw [h]
          rfl

/-- C7: on a socket in a state permitted for `recv`, for a buffer of n > 0
bytes: whenever `recv` returns, the result is the sum of the reads among the
replies it read, or -1 when that is nothing; when none of those replies is a
terminal condition the socket is unchanged and the result is that sum; when
each of those reads is at most the space that remained, the result is at most
n and, with exactly_n and no terminal condition read, it is n.  Without
exactly_n, the first read that delivers, preceded only by interrupted or
would-block replies, is returned as the result.  With exactly_n, replies
without terminal condition whose reads are each at most the space that
remained and add up to n make `recv` return n. -/
theorem recv_result (s : QSocketPrivate) (n : Int) (all : Bool) (script : List Reply)
    (hp : recvPermitted s = true) (hn : 0 < n) :
    (∀ v s' tr rest, s.recv n all script = Exec.ret v s' tr rest →
      ∃ used, script = used ++ rest
        ∧ (v = bytesOf used ∨ (v = -1 ∧ bytesOf used = 0))
        ∧ ((∀ r ∈ used, recvStops s r = false) → s' = s ∧ v = bytesOf used)
        ∧ (transfersBounded n used = true →
            v ≤ n ∧ ((∀ r ∈ used, recvStops s r = false) → all = true → v = n)))
    ∧ (all = false → ∀ pre m sa val rest,
        script = pre ++ Reply.ok m sa val :: rest → (∀ r ∈ pre, retryReply r = true) →
        recvStops s (Reply.ok m sa val) = false →
        ∃ tr, s.recv n false script = Exec.ret (m : Int) s tr rest)
    ∧ (all = true → ∀ used rest, script = used ++ rest →
        (∀ r ∈ used, recvStops s r = false) → transfersBounded n used = true →
        n ≤ bytesOf used → ∃ tr rest', s.recv n true script = Exec.ret n s tr rest') := by
  have hv : s.isValid = true := by
    unfold recvPermitted at hp
    simp only [Bool.and_eq_true] at hp
    exact hp.1
  refine ⟨?_, ?_, ?_⟩
  · intro v s' tr rest h
    simp only [QSocketPrivate.recv, hv, Bool.not_true, Bool.false_eq_true, if_false] at h
    obtain ⟨used, hu, hv', hk, hx⟩ := recvLoop_result s n all hp script 0 false
      (by simp) (fun _ => rfl) v s' tr rest h
    simp only [zero_add] at hv' hk
    exact ⟨used, hu, hv', hk, fun hb => hx (le_of_lt hn) (by simpa using hb)⟩
  · intro _ pre m sa val rest hs hpre hm
    obtain ⟨tr, h⟩ := recvLoop_first s n m sa val rest hp hn hm pre false hpre
    refine ⟨tr, ?_⟩
    simp only [QSocketPrivate.recv, hv, Bool.not_true, Bool.false_eq_true, if_false]
    rw [hs]
    exact h
  · intro _ used rest hs hns hb hsum
    obtain ⟨tr, rest', h⟩ := recvLoop_complete s n hp rest used 0 false (le_of_lt hn)
      (by simp) (by simpa using hb) hns (by simpa using hsum)
    refine ⟨tr, rest', ?_⟩
    simp only [QSocketPrivate.recv, hv, Bool.not_true, Bool.false_eq_true, if_false]
    rw [hs]
    exact h

/-- C7 at a concrete input: 10 bytes read as interrupted, 4, would-block, 6. -/
theorem recv_result_witness :
    (recvPermitted QSocketPrivate.sampleConnected = true ∧ (0 : Int) < 10)
    ∧ ∃ tr rest, QSocketPrivate.sampleConnected.recv 10 true
        [Reply.err Errno.EINTR, Reply.val 4, Reply.err Errno.EAGAIN, Reply.val 6, Reply.val 9]
        = Exec.ret 10 QSocketPrivate.sampleConnected tr rest :=
  ⟨⟨by decide, by decide⟩,
    (recv_result QSocketPrivate.sampleConnected 10 true
      [Reply.err Errno.EINTR, Reply.val 4, Reply.err Errno.EAGAIN, Reply.val 6, Reply.val 9]
      (by decide) (by decide)).2.2 rfl
      [Reply.err Errno.EINTR, Reply.val 4, Reply.err Errno.EAGAIN, Reply.val 6]
      [Reply.val 9] rfl (by decide) (by decide) (by decide)⟩

/-! ### bind -/

/-- On a valid Unconnected socket `bind` is its `::bind` part, entered after
the reply to the address-reuse option is read. -/
theorem bind_reuse (p : Platform) (s : QSocketPrivate) (address : QHostAddress)
    (port : Nat) (mode : BindMode) (r0 : Reply) (script : List Reply)
    (hv : s.isValid = true) (hs : s.state = SocketState.UnconnectedState) :
    ∃ pre, (∀ a ∈ pre, ∃ l n v, a = Action.setsockopt s.fd l n v)
      ∧ s.bind p address port mode (reuseReplies mode r0 ++ script)
        = Exec.after pre (s.bindCall address port (s.setPortAndAddress p port address).1
            (s.setPortAndAddress p port address).2 script) := by
  unfold QSocketPrivate.bind reuseReplies
  simp only [hv, Bool.not_true, Bool.false_eq_true, if_false, ne_eq, hs, not_true_eq_false]
  cases mode with
  | DefaultForPlatform =>
    refine ⟨[], by simp, ?_⟩
    simp only [reduceCtorEq, if_false, List.nil_append, Exec.andThen]
  | ReuseAddressHint =>
    simp only [if_true, List.singleton_append]
    unfold QSocketPrivate.setOption
    simp only [hv, Bool.not_true, Bool.false_eq_true, if_false, reduceCtorEq,
      QVariant.toInt, convertToLevelAndOption]
    cases r0 with
    | ok n sa val =>
      exact ⟨[Action.setsockopt s.fd SockOptLevel.SOL_SOCKET (some SockOptName.SO_REUSEADDR) 1],
        by simp, rfl⟩
    | err e =>
      exact ⟨[Action.setsockopt s.fd SockOptLevel.SOL_SOCKET (some SockOptName.SO_REUSEADDR) 1],
        by simp, rfl⟩

/-- The actions of `bind` before its `::bind` call are `::setsockopt` calls. -/
theorem bindCall_pre (s : QSocketPrivate) (address : QHostAddress) (aa : qt_sockaddr) :
    ∀ a ∈ (if aa.family = SaFamily.AF_INET6 then
        [Action.setsockopt s.fd SockOptLevel.IPPROTO_IPV6 (some SockOptName.IPV6_V6ONLY)
          (if address.protocol = NetworkLayerProtocol.IPv6Protocol then 1 else 0)]
      else []), ∃ l n v, a = Action.setsockopt s.fd l n v := by
  intro a ha
  split_ifs at ha <;> simp at ha <;> exact ⟨_, _, _, ha⟩

/-- The `::bind` part of `bind` on a successful `::bind`: true, state Bound. -/
theorem bindCall_ok (s : QSocketPrivate) (address : QHostAddress) (port : Nat)
    (aa : qt_sockaddr) (sz : Nat) (n : Nat) (sa : qt_sockaddr) (val : Int)
    (rest : List Reply) :
    ∃ pre, (∀ a ∈ pre, ∃ l n v, a = Action.setsockopt s.fd l n v)
      ∧ s.bindCall address port aa sz (Reply.ok n sa val :: rest)
        = Exec.ret true { s with state := SocketState.BoundState }
            (pre ++ [Action.bind s.fd aa sz]) rest := by
  refine ⟨_, bindCall_pre s address aa, ?_⟩
  unfold QSocketPrivate.bindCall
  simp only [reduceCtorEq, false_and, if_false, QSocketPrivate.bindFinish, Exec.after]

/-- The `::bind` part of `bind` on a failed `::bind` that is not retried:
false, the error of the switch recorded, the replies after it unread. -/
theorem bindCall_err (s : QSocketPrivate) (address : QHostAddress) (port : Nat)
    (aa : qt_sockaddr) (sz : Nat) (e : Errno) (rest : List Reply)
    (hne : ¬ (e = Errno.EAFNOSUPPORT
      ∧ address.protocol = NetworkLayerProtocol.AnyIPProtocol)) :
    ∃ pre, (∀ a ∈ pre, ∃ l n v, a = Action.setsockopt s.fd l n v)
      ∧ s.bindCall address port aa sz (Reply.err e :: rest)
        = Exec.ret false (s.setError (bindError e).1 (bindError e).2)
            (pre ++ [Action.bind s.fd aa sz]) rest := by
  refine ⟨_, bindCall_pre s address aa, ?_⟩
  unfold QSocketPrivate.bindCall
  have hc : ¬ (Reply.err e = Reply.err Errno.EAFNOSUPPORT
      ∧ address.protocol = NetworkLayerProtocol.AnyIPProtocol) := by
    rintro ⟨h1, h2⟩
    exact hne ⟨by simpa using h1, h2⟩
  simp only
  rw [if_neg hc]
  simp only [QSocketPrivate.bindFinish, Exec.after]

/-- The `::bind` part of `bind` on EAFNOSUPPORT for a dual-stack address:
`::bind` is issued again with the IPv4 form and the second reply decides. -/
theorem bindCall_retry (s : QSocketPrivate) (address : QHostAddress) (port : Nat)
    (aa : qt_sockaddr) (sz : Nat) (r2 : Reply) (rest : List Reply)
    (ha : address.protocol = NetworkLayerProtocol.AnyIPProtocol) :
    ∃ pre, (∀ a ∈ pre, ∃ l n v, a = Action.setsockopt s.fd l n v)
      ∧ s.bindCall address port aa sz (Reply.err Errno.EAFNOSUPPORT :: r2 :: rest)
        = Exec.ret (s.bindFinish r2).1 (s.bindFinish r2).2
            (pre ++ [Action.bind s.fd aa sz,
              Action.bind s.fd (retryAddress aa port address) sizeof_sockaddr_in]) rest := by
  refine ⟨_, bindCall_pre s address aa, ?_⟩
  unfold QSocketPrivate.bindCall
  simp only [ha, and_self, if_true, Exec.after, retryAddress]

/-- C8 (amended): for every socket, address, port and bind mode.  A `bind` on
a socket whose descriptor is not valid or whose state is not Unconnected
returns false without any action, the socket unchanged; `bind` returns true
only from a valid Unconnected socket, and then the state is Bound; whenever it
returns false the state is as before.  On a valid Unconnected socket, once the
reply to the address-reuse option (mode ReuseAddressHint) is read, the only
actions before `::bind` being `::setsockopt` calls:
a `::bind` that succeeds makes `bind` return true with the state Bound and
nothing else changed;
a `::bind` that fails, with a code other than EAFNOSUPPORT for a dual-stack
(AnyIP) address, makes `bind` return false at once, the later replies unread:
the error of the switch is recorded (AddressInUseError for EADDRINUSE) and
nothing else is changed, the state is still Unconnected;
a `::bind` that fails with EAFNOSUPPORT for a dual-stack address is followed
by a second `::bind` with the IPv4 form of the address, and the second answer
decides: success gives true and state Bound, a failure gives false with the
error of the switch for the second code, state Unconnected. -/
theorem bind_contract (p : Platform) (s : QSocketPrivate) (address : QHostAddress)
    (port : Nat) (mode : BindMode) :
    (∀ script, (s.isValid = false ∨ s.state ≠ SocketState.UnconnectedState) →
      s.bind p address port mode script = Exec.ret false s [] script)
    ∧ (∀ script v s' tr rest, s.bind p address port mode script = Exec.ret v s' tr rest →
      (v = true → s.isValid = true ∧ s.state = SocketState.UnconnectedState
          ∧ s'.state = SocketState.BoundState)
      ∧ (v = false → s'.state = s.state))
    ∧ (s.isValid = true → s.state = SocketState.UnconnectedState →
      ∀ (r0 : Reply) (rest : List Reply),
      (∀ n sa val, ∃ pre, (∀ a ∈ pre, ∃ l n v, a = Action.setsockopt s.fd l n v)
        ∧ s.bind p address port mode (reuseReplies mode r0 ++ Reply.ok n sa val :: rest)
          = Exec.ret true { s with state := SocketState.BoundState }
              (pre ++ [Action.bind s.fd (s.setPortAndAddress p port address).1
                (s.setPortAndAddress p port address).2]) rest)
      ∧ (∀ e, ¬ (e = Errno.EAFNOSUPPORT
            ∧ address.protocol = NetworkLayerProtocol.AnyIPProtocol) →
          (∃ pre, (∀ a ∈ pre, ∃ l n v, a = Action.setsockopt s.fd l n v)
            ∧ s.bind p address port mode (reuseReplies mode r0 ++ Reply.err e :: rest)
              = Exec.ret false (s.setError (bindError e).1 (bindError e).2)
                  (pre ++ [Action.bind s.fd (s.setPortAndAddress p port address).1
                    (s.setPortAndAddress p port address).2]) rest)
          ∧ (s.setError (bindError e).1 (bindError e).2).state
              = SocketState.UnconnectedState
          ∧ (e = Errno.EADDRINUSE →
              (s.setError (bindError e).1 (bindError e).2).error
                = SocketError.AddressInUseError))
      ∧ (address.protocol = NetworkLayerProtocol.AnyIPProtocol →
          (∀ n sa val, ∃ pre, (∀ a ∈ pre, ∃ l n v, a = Action.setsockopt s.fd l n v)
            ∧ s.bind p address port mode
                (reuseReplies mode r0 ++ Reply.err Errno.EAFNOSUPPORT
                  :: Reply.ok n sa val :: rest)
              = Exec.ret true { s with state := SocketState.BoundState }
                  (pre ++ [Action.bind s.fd (s.setPortAndAddress p port address).1
                      (s.setPortAndAddress p port address).2,
                    Action.bind s.fd
                      (retryAddress (s.setPortAndAddress p port address).1 port address)
                      sizeof_sockaddr_in]) rest)
          ∧ (∀ e2, ∃ pre, (∀ a ∈ pre, ∃ l n v, a = Action.setsockopt s.fd l n v)
            ∧ s.bind p address port mode
                (reuseReplies mode r0 ++ Reply.err Errno.EAFNOSUPPORT
                  :: Reply.err e2 :: rest)
              = Exec.ret false (s.setError (bindError e2).1 (bindError e2).2)
                  (pre ++ [Action.bind s.fd (s.setPortAndAddress p port address).1
                      (s.setPortAndAddress p port address).2,
                    Action.bind s.fd
                      (retryAddress (s.setPortAndAddress p port address).1 port address)
                      sizeof_sockaddr_in]) rest))) := by
  have hmem : ∀ (pre1 pre2 : List Action),
      (∀ a ∈ pre1, ∃ l n v, a = Action.setsockopt s.fd l n v) →
      (∀ a ∈ pre2, ∃ l n v, a = Action.setsockopt s.fd l n v) →
      ∀ a ∈ pre1 ++ pre2, ∃ l n v, a = Action.setsockopt s.fd l n v := by
    intro pre1 pre2 h1 h2 a ha
    rcases List.mem_append.mp ha with ha | ha
    · exact h1 a ha
    · exact h2 a ha
  refine ⟨?_, ?_, ?_⟩
  · intro script hg
    unfold QSocketPrivate.bind
    rcases hg with hg | hg
    · simp [hg]
    · by_cases h1 : s.isValid = true
      · simp [h1, hg]
      · simp only [Bool.not_eq_true] at h1
        simp [h1]
  · intro script v s' tr rest h
    obtain ⟨a, b⟩ := bind_inversion p s address port mode script v s' tr rest h
    exact ⟨fun hv => ⟨(a hv).1, (a hv).2.1, (a hv).2.2.1⟩, fun hv => (b hv).1⟩
  · intro hv hs r0 rest
    refine ⟨?_, ?_, ?_⟩
    · intro n sa val
      obtain ⟨pre1, hp1, h1⟩ := bind_reuse p s address port mode r0
        (Reply.ok n sa val :: rest) hv hs
      obtain ⟨pre2, hp2, h2⟩ := bindCall_ok s address port
        (s.setPortAndAddress p port address).1 (s.setPortAndAddress p port address).2
        n sa val rest
      refine ⟨pre1 ++ pre2, hmem _ _ hp1 hp2, ?_⟩
      rw [h1, h2]
      simp [Exec.after]
    · intro e hne
      refine ⟨?_, ?_, ?_⟩
      · obtain ⟨pre1, hp1, h1⟩ := bind_reuse p s address port mode r0
          (Reply.err e :: rest) hv hs
        obtain ⟨pre2, hp2, h2⟩ := bindCall_err s address port
          (s.setPortAndAddress p port address).1 (s.setPortAndAddress p port address).2
          e rest hne
        refine ⟨pre1 ++ pre2, hmem _ _ hp1 hp2, ?_⟩
        rw [h1, h2]
        simp [Exec.after]
      · simpa [QSocketPrivate.setError] using hs
      · rintro rfl
        rfl
    · intro ha
      refine ⟨?_, ?_⟩
      · intro n sa val
        obtain ⟨pre1, hp1, h1⟩ := bind_reuse p s address port mode r0
          (Reply.err Errno.EAFNOSUPPORT :: Reply.ok n sa val :: rest) hv hs
        obtain ⟨pre2, hp2, h2⟩ := bindCall_retry s address port
          (s.setPortAndAddress p port address).1 (s.setPortAndAddress p port address).2
          (Reply.ok n sa val) rest ha
        refine ⟨pre1 ++ pre2, hmem _ _ hp1 hp2, ?_⟩
        rw [h1, h2]
        simp [Exec.after, QSocketPrivate.bindFinish]
      · intro e2
        obtain ⟨pre1, hp1, h1⟩ := bind_reuse p s address port mode r0
          (Reply.err Errno.EAFNOSUPPORT :: Reply.err e2 :: rest) hv hs
        obtain ⟨pre2, hp2, h2⟩ := bindCall_retry s address port
          (s.setPortAndAddress p port address).1 (s.setPortAndAddress p port address).2
          (Reply.err e2) rest ha
        refine ⟨pre1 ++ pre2, hmem _ _ hp1 hp2, ?_⟩
        rw [h1, h2]
        simp [Exec.after, QSocketPrivate.bindFinish]

/-- C8 as stated fails: on a dual-stack socket bound to the dual-stack
wildcard address, the `::bind` call fails with EAFNOSUPPORT and `bind` does
not return failure: it issues `::bind` again with the IPv4 form, and when that
succeeds it returns true with the state Bound. -/
theorem bind_retries_failed_syscall :
    (QSocketPrivate.sampleAnyIP.bind Platform.loopback QHostAddress.any 80
        BindMode.DefaultForPlatform [Reply.err Errno.EAFNOSUPPORT, Reply.val 0]).value?
      = some true
    ∧ ((QSocketPrivate.sampleAnyIP.bind Platform.loopback QHostAddress.any 80
        BindMode.DefaultForPlatform [Reply.err Errno.EAFNOSUPPORT, Reply.val 0]).socket?.map
          QSocketPrivate.state) = some SocketState.BoundState
    ∧ ((QSocketPrivate.sampleAnyIP.bind Platform.loopback QHostAddress.any 80
        BindMode.DefaultForPlatform [Reply.err Errno.EAFNOSUPPORT, Reply.val 0]).actions.filter
          fun a => decide (a.isSyscall = true)).length = 3 := by
  decide

/-- C8 at a concrete input: `::bind` answering EADDRINUSE on the sample
socket, in mode ReuseAddressHint after the reply to the reuse option, makes
`bind` return false with AddressInUseError recorded and state Unconnected, the
next reply unread. -/
theorem bind_contract_witness :
    (∃ pre, (∀ a ∈ pre, ∃ l n v, a = Action.setsockopt QSocketPrivate.sample.fd l n v)
      ∧ QSocketPrivate.sample.bind Platform.loopback (QHostAddress.ipv4 0) 80
          BindMode.ReuseAddressHint
          (reuseReplies BindMode.ReuseAddressHint (Reply.val 0)
            ++ Reply.err Errno.EADDRINUSE :: [Reply.val 0])
        = Exec.ret false
            (QSocketPrivate.sample.setError (bindError Errno.EADDRINUSE).1
              (bindError Errno.EADDRINUSE).2)
            (pre ++ [Action.bind QSocketPrivate.sample.fd
              (QSocketPrivate.sample.setPortAndAddress Platform.loopback 80
                (QHostAddress.ipv4 0)).1
              (QSocketPrivate.sample.setPortAndAddress Platform.loopback 80
                (QHostAddress.ipv4 0)).2]) [Reply.val 0])
    ∧ (QSocketPrivate.sample.setError (bindError Errno.EADDRINUSE).1
        (bindError Errno.EADDRINUSE).2).error = SocketError.AddressInUseError :=
  have h := ((bind_contract Platform.loopback QSocketPrivate.sample (QHostAddress.ipv4 0) 80
    BindMode.ReuseAddressHint).2.2 (by decide) rfl (Reply.val 0) [Reply.val 0]).2.1
    Errno.EADDRINUSE (by decide)
  ⟨h.1, h.2.2 rfl⟩
/-! ### Address codec -/

/-- A 16-bit port survives the two byte swaps. -/
theorem ntohs_htons (port : Nat) (h : port < 65536) : ntohs (htons port) = port := by
  unfold ntohs htons
  have h1 : port / 256 % 256 = port / 256 := by omega
  rw [h1]
  have h2 : (port % 256 * 256 + port / 256) % 256 = port / 256 := by omega
  have h3 : (port % 256 * 256 + port / 256) / 256 = port % 256 := by omega
  rw [h2, h3]
  omega

/-- The four bytes of a number written most significant first. -/
theorem bytes_of_word (c3 c2 c1 c0 : Nat) (h2 : c2 < 256) (h1 : c1 < 256) (h0 : c0 < 256) :
    (c3 * 16777216 + c2 * 65536 + c1 * 256 + c0) % 256 = c0
    ∧ (c3 * 16777216 + c2 * 65536 + c1 * 256 + c0) / 256 % 256 = c1
    ∧ (c3 * 16777216 + c2 * 65536 + c1 * 256 + c0) / 65536 % 256 = c2
    ∧ (c3 * 16777216 + c2 * 65536 + c1 * 256 + c0) / 16777216 = c3 := by
  have d1 : (c3 * 16777216 + c2 * 65536 + c1 * 256 + c0) / 256
      = c3 * 65536 + c2 * 256 + c1 := Nat.div_eq_of_lt_le (by omega) (by omega)
  have d2 : (c3 * 16777216 + c2 * 65536 + c1 * 256 + c0) / 65536
      = c3 * 256 + c2 := Nat.div_eq_of_lt_le (by omega) (by omega)
  have d3 : (c3 * 16777216 + c2 * 65536 + c1 * 256 + c0) / 16777216
      = c3 := Nat.div_eq_of_lt_le (by omega) (by omega)
  rw [d1, d2, d3]
  refine ⟨by omega, by omega, by omega, rfl⟩

/-- The function `ntohl` undoes `htonl` on 32 bits. -/
theorem ntohl_htonl (a : Nat) (h : a < 2 ^ 32) : ntohl (htonl a) = a := by
  norm_num at h
  obtain ⟨b0, b1, b2, b3, h0, h1, h2, h3, rfl⟩ :
      ∃ b0 b1 b2 b3 : Nat, b0 < 256 ∧ b1 < 256 ∧ b2 < 256 ∧ b3 < 256
        ∧ a = b3 * 16777216 + b2 * 65536 + b1 * 256 + b0 :=
    ⟨a % 256, a / 256 % 256, a / 65536 % 256, a / 16777216, by omega, by omega, by omega,
      by omega, by omega⟩
  obtain ⟨e0, e1, e2, e3⟩ := bytes_of_word b3 b2 b1 b0 h2 h1 h0
  obtain ⟨f0, f1, f2, f3⟩ := bytes_of_word b0 b1 b2 b3 h1 h2 h3
  have m3 : b3 % 256 = b3 := Nat.mod_eq_of_lt h3
  have m0 : b0 % 256 = b0 := Nat.mod_eq_of_lt h0
  have hh : htonl (b3 * 16777216 + b2 * 65536 + b1 * 256 + b0)
      = b0 * 16777216 + b1 * 65536 + b2 * 256 + b3 := by
    unfold htonl
    norm_num
    rw [e0, e1, e2, e3, m3]
  unfold ntohl
  rw [hh]
  unfold htonl
  norm_num
  rw [f0, f1, f2, f3, m0]

/-- The IPv4 address of an IPv4-mapped IPv6 address. -/
theorem toIPv4Address_v4mapped (a : Nat) (h : a < 2 ^ 32) :
    (QHostAddress.ipv6 (QHostAddress.v4mapped a) "").toIPv4Address = a := by
  unfold QHostAddress.toIPv4Address QHostAddress.v4mapped
  norm_num at h ⊢
  have h1 : (281470681743360 + a) / 4294967296 = 65535 := by omega
  rw [if_pos h1]
  omega

/-- C9 (amended): for every port below 65536, every socket (so every family
preference) and every address that is IPv4 (32 bits) or IPv6, decoding with
`qt_socket_getPortAndAddress` what `setPortAndAddress` encoded gives the same
port, and an address that is:
for an IPv4 address on a socket whose family is neither IPv6 nor AnyIP, the
input address;
for an IPv4 address on an IPv6 or AnyIP socket, the IPv4-mapped IPv6 address
of the input, whose `toIPv4Address` is the input address;
for an IPv6 address, the same sixteen bytes with the scope text that the
platform gives for the interface index to which the input scope resolves (no
scope for index 0, the interface name when the index has one, its number
otherwise).  So an IPv6 address comes back equal when its scope is empty or is
the name of an interface (a text that is not a number, resolves to an index
other than 0, and is the name the platform gives for that index); a numeric
scope comes back as the interface name when the index has one, and as the
number of the index otherwise; a scope that resolves to no interface (index 0)
is lost. -/
theorem codec_roundtrip (p : Platform) (s : QSocketPrivate) (address : QHostAddress)
    (port : Nat) (hport : port < 65536)
    (haddr : (∃ a, address = QHostAddress.ipv4 a ∧ a < 2 ^ 32)
      ∨ ∃ a6 sc, address = QHostAddress.ipv6 a6 sc) :
    ∃ addr', qt_socket_getPortAndAddress p (s.setPortAndAddress p port address).1
        = some (port, addr')
      ∧ (address.protocol = NetworkLayerProtocol.IPv4Protocol →
          ¬ (s.protocol = NetworkLayerProtocol.IPv6Protocol
            ∨ s.protocol = NetworkLayerProtocol.AnyIPProtocol) → addr' = address)
      ∧ (address.protocol = NetworkLayerProtocol.IPv4Protocol →
          (s.protocol = NetworkLayerProtocol.IPv6Protocol
            ∨ s.protocol = NetworkLayerProtocol.AnyIPProtocol) →
          addr' = QHostAddress.ipv6 (QHostAddress.v4mapped address.toIPv4Address) ""
            ∧ addr'.toIPv4Address = address.toIPv4Address)
      ∧ (∀ a6 sc, address = QHostAddress.ipv6 a6 sc →
          addr' = QHostAddress.ipv6 a6 (p.scopeText (scopeIdFromString p sc))
          ∧ (sc.isEmpty = true → addr' = address)
          ∧ (sc.isEmpty = false → p.toUInt sc = none → p.if_nametoindex sc ≠ 0 →
              p.if_indextoname (p.if_nametoindex sc) = some sc → addr' = address)
          ∧ (∀ id name, sc.isEmpty = false → p.toUInt sc = some id → id ≠ 0 →
              p.if_indextoname id = some name → addr' = QHostAddress.ipv6 a6 name)
          ∧ (∀ id, sc.isEmpty = false → p.toUInt sc = some id → id ≠ 0 →
              p.if_indextoname id = none → addr' = QHostAddress.ipv6 a6 (p.number id))
          ∧ (scopeIdFromString p sc = 0 → addr' = QHostAddress.ipv6 a6 "")) := by
  rcases haddr with ⟨a, rfl, ha⟩ | ⟨a6, sc, rfl⟩
  · by_cases hs : s.protocol = NetworkLayerProtocol.IPv6Protocol
        ∨ s.protocol = NetworkLayerProtocol.AnyIPProtocol
    · refine ⟨QHostAddress.ipv6 (QHostAddress.v4mapped a) "", ?_, ?_, ?_, ?_⟩
      · have hc : QHostAddress.protocol (QHostAddress.ipv4 a) = NetworkLayerProtocol.IPv6Protocol
            ∨ QHostAddress.protocol (QHostAddress.ipv4 a) = NetworkLayerProtocol.AnyIPProtocol
            ∨ s.protocol = NetworkLayerProtocol.IPv6Protocol
            ∨ s.protocol = NetworkLayerProtocol.AnyIPProtocol := Or.inr (Or.inr hs)
        have he : "".isEmpty = true := by decide
        simp only [QSocketPrivate.setPortAndAddress, if_pos hc, qt_socket_getPortAndAddress,
          QHostAddress.scopeId, scopeIdFromString, he, if_true, ne_eq, not_true_eq_false,
          if_false, ntohs_htons port hport, QHostAddress.toIPv6Address]
      · exact fun _ hn => absurd hs hn
      · exact fun _ _ => ⟨rfl, toIPv4Address_v4mapped a ha⟩
      · intro a6 sc h
        cases h
    · refine ⟨QHostAddress.ipv4 a, ?_, ?_, ?_, ?_⟩
      · have hc : ¬ (QHostAddress.protocol (QHostAddress.ipv4 a)
              = NetworkLayerProtocol.IPv6Protocol
            ∨ QHostAddress.protocol (QHostAddress.ipv4 a) = NetworkLayerProtocol.AnyIPProtocol
            ∨ s.protocol = NetworkLayerProtocol.IPv6Protocol
            ∨ s.protocol = NetworkLayerProtocol.AnyIPProtocol) := by
          simp only [QHostAddress.protocol]
          rintro (h | h | h)
          · cases h
          · cases h
          · exact hs h
        simp only [QSocketPrivate.setPortAndAddress, if_neg hc, qt_socket_getPortAndAddress,
          ntohs_htons port hport, QHostAddress.toIPv4Address, ntohl_htonl a ha]
      · exact fun _ _ => rfl
      · exact fun _ h => absurd h hs
      · intro a6 sc h
        cases h
  · have hc : QHostAddress.protocol (QHostAddress.ipv6 a6 sc) = NetworkLayerProtocol.IPv6Protocol
        ∨ QHostAddress.protocol (QHostAddress.ipv6 a6 sc) = NetworkLayerProtocol.AnyIPProtocol
        ∨ s.protocol = NetworkLayerProtocol.IPv6Protocol
        ∨ s.protocol = NetworkLayerProtocol.AnyIPProtocol := Or.inl rfl
    have hdec : qt_socket_getPortAndAddress p
        (s.setPortAndAddress p port (QHostAddress.ipv6 a6 sc)).1
        = some (port, QHostAddress.ipv6 a6 (p.scopeText (scopeIdFromString p sc))) := by
      simp only [QSocketPrivate.setPortAndAddress, if_pos hc, qt_socket_getPortAndAddress,
        ntohs_htons port hport, QHostAddress.toIPv6Address, QHostAddress.scopeId,
        Platform.scopeText]
      by_cases h0 : scopeIdFromString p sc = 0
      · simp [h0]
      · cases hn : p.if_indextoname (scopeIdFromString p sc) <;>
          simp [h0, hn, QHostAddress.setScopeId]
    refine ⟨_, hdec, ?_, ?_, ?_⟩
    · intro h
      cases h
    · intro h
      cases h
    · intro b6 sc' h
      simp only [QHostAddress.ipv6.injEq] at h
      obtain ⟨rfl, rfl⟩ := h
      refine ⟨rfl, ?_, ?_, ?_, ?_, ?_⟩
      · intro he
        have hsc : sc = "" := by
          cases sc with
          | mk l =>
            cases l with
            | nil => rfl
            | cons c cs =>
              exfalso
              simp only [String.isEmpty, String.endPos, String.utf8ByteSize,
                String.utf8ByteSize.go, beq_iff_eq] at he
              have h1 := congrArg String.Pos.byteIdx he
              have h2 := Char.utf8Size_pos c
              simp at h1
              omega
        subst hsc
        simp [scopeIdFromString, he, Platform.scopeText]
      · intro he hu hi hn
        simp [scopeIdFromString, he, hu, Platform.scopeText, hi, hn]
      · intro id name he hu hi hn
        simp [scopeIdFromString, he, hu, Platform.scopeText, hi, hn]
      · intro id he hu hi hn
        simp [scopeIdFromString, he, hu, Platform.scopeText, hi, hn]
      · intro h0
        simp [h0, Platform.scopeText]

/-- C9 at a concrete input: the address `::1%lo`, port 8080, comes back
equal. -/
theorem codec_roundtrip_witness :
    (8080 : Nat) < 65536
    ∧ qt_socket_getPortAndAddress Platform.loopback
        (QSocketPrivate.sample.setPortAndAddress Platform.loopback 8080
          (QHostAddress.ipv6 1 "lo")).1 = some (8080, QHostAddress.ipv6 1 "lo") := by
  obtain ⟨addr', h1, -, -, h2⟩ :=
    codec_roundtrip Platform.loopback QSocketPrivate.sample (QHostAddress.ipv6 1 "lo") 8080
      (by decide) (Or.inr ⟨1, "lo", rfl⟩)
  have h3 := (h2 1 "lo" rfl).2.2.1 (by decide) (by decide) (by decide) (by decide)
  rw [h3] at h1
  exact ⟨by decide, h1⟩

/-- C9 fails as stated: on a dual-stack (AnyIP) socket the IPv4 address
127.0.0.1 with port 80 is encoded in the IPv6 form and decoded as the IPv6
address `::ffff:127.0.0.1`, whose protocol is IPv6Protocol, not the IPv4
address that was given; and on a host whose only interface is `lo` the
address `::1%eth9` is decoded as `::1`, without scope. -/
theorem codec_v4_on_dual_stack :
    qt_socket_getPortAndAddress Platform.loopback
        (QSocketPrivate.sampleAnyIP.setPortAndAddress Platform.loopback 80
          (QHostAddress.ipv4 2130706433)).1
      = some (80, QHostAddress.ipv6 (QHostAddress.v4mapped 2130706433) "")
    ∧ (QHostAddress.ipv6 (QHostAddress.v4mapped 2130706433) "").protocol
      = NetworkLayerProtocol.IPv6Protocol
    ∧ (QHostAddress.ipv4 2130706433).protocol = NetworkLayerProtocol.IPv4Protocol
    ∧ QHostAddress.ipv6 (QHostAddress.v4mapped 2130706433) "" ≠ QHostAddress.ipv4 2130706433
    ∧ qt_socket_getPortAndAddress Platform.loopback
        (QSocketPrivate.sample.setPortAndAddress Platform.loopback 80
          (QHostAddress.ipv6 1 "eth9")).1
      = some (80, QHostAddress.ipv6 1 "") := by
  decide

/-! ### Interrupted calls -/
/-- C10: where the code leaves the claim.  On a valid socket, with a first
`::sendmsg` interrupted by a signal and a second one that would send n bytes:
when the recorded error kind is not numerically `EINTR`, `sendto` does not
issue the call again but records NetworkError and returns -1, the second
reply unread; when it is, `sendto` issues the call again after any failure,
would-block included, without suspending.  On the same script `send` issues
its call again and returns n.  `accept` on a listening stream socket returns
the null pointer with UnknownSocketError on an interrupted call. -/
theorem sendto_accept_surface_interrupt (p : Platform) (s : QSocketPrivate) (size : Int)
    (addr : QHostAddress) (port : Nat) (n : Nat) (sa : qt_sockaddr) (val : Int)
    (rest : List Reply) (hv : s.isValid = true) (hsize : 0 < size) (hn : 0 < n) :
    (p.errorIsEINTR s.error = false →
      s.sendto p size addr port (Reply.err Errno.EINTR :: Reply.ok n sa val :: rest)
        = Exec.ret (-1)
            (s.setError SocketError.NetworkError ErrorString.InvalidSocketErrorString)
            [Action.sendmsg s.fd (s.setPortAndAddress p port addr).1 size]
            (Reply.ok n sa val :: rest))
    ∧ (p.errorIsEINTR s.error = true →
      s.sendto p size addr port (Reply.err Errno.EAGAIN :: Reply.ok n sa val :: rest)
        = Exec.ret (n : Int) s
            [Action.sendmsg s.fd (s.setPortAndAddress p port addr).1 size,
              Action.sendmsg s.fd (s.setPortAndAddress p port addr).1 size] rest)
    ∧ s.send size false (Reply.err Errno.EINTR :: Reply.ok n sa val :: rest)
        = Exec.ret (n : Int) s [Action.send s.fd (size - 0), Action.send s.fd (size - 0)] rest
    ∧ (s.state = SocketState.ListeningState → s.type = SocketType.TcpSocket →
        s.accept (Reply.err Errno.EINTR :: Reply.ok n sa val :: rest)
          = Exec.ret none
              (s.setError SocketError.UnknownSocketError ErrorString.UnknownSocketErrorString)
              [Action.accept4 s.fd] (Reply.ok n sa val :: rest)) := by
  refine ⟨?_, ?_, ?_, ?_⟩
  · intro hne
    simp [QSocketPrivate.sendto, QSocketPrivate.sendtoLoop, hv, hne, Exec.after,
      QSocketPrivate.sendtoFail, sendtoError]
  · intro he
    simp [QSocketPrivate.sendto, QSocketPrivate.sendtoLoop, hv, he, Exec.after]
  · simp [QSocketPrivate.send, QSocketPrivate.sendLoop, hv, hsize, hn, Exec.after]
  · intro hs ht
    rw [QSocketPrivate.accept]
    simp only [hv, Bool.not_true, Bool.false_eq_true, if_false, hs, ht, ne_eq,
      not_true_eq_false, or_self]
    rw [QSocketPrivate.acceptLoop.eq_def]
    simp [Exec.after, acceptError]

/-- C10 at a concrete input: a datagram socket with no error recorded, 4
bytes to send, the first `::sendmsg` interrupted. -/
theorem sendto_accept_surface_interrupt_witness :
    (QSocketPrivate.sampleUdp.isValid = true ∧ (0 : Int) < 4 ∧ 0 < 4
      ∧ Platform.loopback.errorIsEINTR QSocketPrivate.sampleUdp.error = false)
    ∧ QSocketPrivate.sampleUdp.sendto Platform.loopback 4 (QHostAddress.ipv4 2130706433) 80
        (Reply.err Errno.EINTR :: Reply.ok 4 qt_sockaddr.zero 0 :: [])
      = Exec.ret (-1)
          (QSocketPrivate.sampleUdp.setError SocketError.NetworkError
            ErrorString.InvalidSocketErrorString)
          [Action.sendmsg QSocketPrivate.sampleUdp.fd
            (QSocketPrivate.sampleUdp.setPortAndAddress Platform.loopback 80
              (QHostAddress.ipv4 2130706433)).1 4]
          (Reply.ok 4 qt_sockaddr.zero 0 :: []) :=
  ⟨⟨by decide, by decide, by decide, by decide⟩,
    (sendto_accept_surface_interrupt Platform.loopback QSocketPrivate.sampleUdp 4
      (QHostAddress.ipv4 2130706433) 80 4 qt_sockaddr.zero 0 [] (by decide) (by decide)
      (by decide)).1 (by decide)⟩

/-! ### Socket options -/

/-- C16: `convertToLevelAndOption` resolves multicast TTL, multicast loopback,
packet-info reception and hop-limit reception to the IPPROTO_IPV6 level with
the IPv6 option name when the socket family is IPv6 or AnyIP, and to the
IPPROTO_IP level with the IPv4 option name when the family is IPv4; and it
resolves receive and send buffer size, address-reusable, out-of-band inline,
keep-alive and low-delay to a pair that is the same for every family and whose
name is never the unresolved marker. -/
theorem convertToLevelAndOption_families (proto : NetworkLayerProtocol) :
    (proto = NetworkLayerProtocol.IPv6Protocol ∨ proto = NetworkLayerProtocol.AnyIPProtocol →
      convertToLevelAndOption SocketOption.MulticastTtlOption proto
          = some (SockOptLevel.IPPROTO_IPV6, some SockOptName.IPV6_MULTICAST_HOPS)
      ∧ convertToLevelAndOption SocketOption.MulticastLoopbackOption proto
          = some (SockOptLevel.IPPROTO_IPV6, some SockOptName.IPV6_MULTICAST_LOOP)
      ∧ convertToLevelAndOption SocketOption.ReceivePacketInformation proto
          = some (SockOptLevel.IPPROTO_IPV6, some SockOptName.IPV6_RECVPKTINFO)
      ∧ convertToLevelAndOption SocketOption.ReceiveHopLimit proto
          = some (SockOptLevel.IPPROTO_IPV6, some SockOptName.IPV6_RECVHOPLIMIT))
    ∧ (proto = NetworkLayerProtocol.IPv4Protocol →
      convertToLevelAndOption SocketOption.MulticastTtlOption proto
          = some (SockOptLevel.IPPROTO_IP, some SockOptName.IP_MULTICAST_TTL)
      ∧ convertToLevelAndOption SocketOption.MulticastLoopbackOption proto
          = some (SockOptLevel.IPPROTO_IP, some SockOptName.IP_MULTICAST_LOOP)
      ∧ convertToLevelAndOption SocketOption.ReceivePacketInformation proto
          = some (SockOptLevel.IPPROTO_IP, some SockOptName.IP_PKTINFO)
      ∧ convertToLevelAndOption SocketOption.ReceiveHopLimit proto
          = some (SockOptLevel.IPPROTO_IP, some SockOptName.IP_RECVTTL))
    ∧ (∀ opt ∈ familyIndependentOptions,
        (∀ other : NetworkLayerProtocol,
          convertToLevelAndOption opt proto = convertToLevelAndOption opt other)
        ∧ ∃ level n, convertToLevelAndOption opt proto = some (level, some n)) := by
  refine ⟨?_, ?_, ?_⟩
  · rintro (rfl | rfl) <;> exact ⟨rfl, rfl, rfl, rfl⟩
  · rintro rfl
    exact ⟨rfl, rfl, rfl, rfl⟩
  · intro opt hopt
    simp only [familyIndependentOptions, List.mem_cons, List.mem_singleton,
      List.not_mem_nil, or_false] at hopt
    rcases hopt with rfl | rfl | rfl | rfl | rfl | rfl <;>
      exact ⟨fun _ => rfl, _, _, rfl⟩

/-- The loop of `send` absorbs interrupted and would-block replies and stops at
the first other failure: it returns what was sent before, with the socket and
the actions of the error switch. -/
theorem sendLoop_stops (s : QSocketPrivate) (n : Int) (all : Bool) (sent : Int) (e : Errno)
    (rest : List Reply) (hlt : sent < n) (hstop : sendStops (Reply.err e) = true)
    (pre : List Reply) :
    ∀ (inner : Bool), (∀ r ∈ pre, retryReply r = true) →
    ∃ tr, s.sendLoop n all sent inner (pre ++ Reply.err e :: rest)
        = Exec.ret sent (s.sendFail e).1 (tr ++ (s.sendFail e).2) rest
      ∧ ∀ a ∈ tr, a = Action.send s.fd (n - sent) ∨ a = Action.watcherStart Direction.Write := by
  have hc : ∀ inner : Bool, ¬ (inner = false ∧ ¬ sent < n) := fun _ h => h.2 hlt
  induction pre with
  | nil =>
    intro inner _
    refine ⟨[Action.send s.fd (n - sent)], ?_, by simp⟩
    rw [List.nil_append]
    simp only [QSocketPrivate.sendLoop]
    rw [if_neg (hc inner)]
    cases e <;> first
      | (simp [sendStops, retryReply] at hstop; done)
      | simp [Exec.after]
  | cons r pre ih =>
    intro inner hpre
    have hpre' : ∀ x ∈ pre, retryReply x = true :=
      fun x hx => hpre x (List.mem_cons_of_mem _ hx)
    rw [List.cons_append]
    rcases retryReply_cases r (hpre r (List.mem_cons_self _ _)) with rfl | rfl
    · obtain ⟨tr, h, htr⟩ := ih true hpre'
      refine ⟨Action.send s.fd (n - sent) :: tr, ?_, ?_⟩
      · simp only [QSocketPrivate.sendLoop]
        rw [if_neg (hc inner), h]
        rfl
      · intro a ha
        rcases List.mem_cons.mp ha with rfl | ha
        · exact Or.inl rfl
        · exact htr a ha
    · obtain ⟨tr, h, htr⟩ := ih false hpre'
      refine ⟨Action.send s.fd (n - sent) :: Action.watcherStart Direction.Write :: tr, ?_, ?_⟩
      · simp only [QSocketPrivate.sendLoop]
        rw [if_neg (hc inner), h]
        rfl
      · intro a ha
        rcases List.mem_cons.mp ha with rfl | ha
        · exact Or.inl rfl
        · rcases List.mem_cons.mp ha with rfl | ha
          · exact Or.inr rfl
          · exact htr a ha

/-- The loop of `recvfrom` absorbs interrupted and would-block replies and
stops at the first other failure. -/
theorem recvfromLoop_stops (p : Platform) (s : QSocketPrivate) (maxSize : Int) (e : Errno)
    (rest : List Reply) (hstop : retryReply (Reply.err e) = false) (pre : List Reply)
    (hpre : ∀ r ∈ pre, retryReply r = true) :
    ∃ tr, QSocketPrivate.recvfromLoop p s maxSize (pre ++ Reply.err e :: rest)
        = Exec.ret (-1, none) (s.recvfromFail e).1 (tr ++ (s.recvfromFail e).2) rest
      ∧ ∀ a ∈ tr, a = Action.recvmsg s.fd maxSize ∨ a = Action.watcherStart Direction.Read := by
  induction pre with
  | nil =>
    refine ⟨[Action.recvmsg s.fd maxSize], ?_, by simp⟩
    rw [List.nil_append]
    simp only [QSocketPrivate.recvfromLoop]
    cases e <;> first
      | (simp [retryReply] at hstop; done)
      | simp [Exec.after]
  | cons r pre ih =>
    have hpre' : ∀ x ∈ pre, retryReply x = true :=
      fun x hx => hpre x (List.mem_cons_of_mem _ hx)
    obtain ⟨tr, h, htr⟩ := ih hpre'
    rw [List.cons_append]
    rcases retryReply_cases r (hpre r (List.mem_cons_self _ _)) with rfl | rfl
    · refine ⟨Action.recvmsg s.fd maxSize :: tr, ?_, ?_⟩
      · simp only [QSocketPrivate.recvfromLoop]
        rw [h]
        rfl
      · intro a ha
        rcases List.mem_cons.mp ha with rfl | ha
        · exact Or.inl rfl
        · exact htr a ha
    · refine ⟨Action.recvmsg s.fd maxSize :: Action.watcherStart Direction.Read :: tr, ?_, ?_⟩
      · simp only [QSocketPrivate.recvfromLoop]
        rw [h]
        rfl
      · intro a ha
        rcases List.mem_cons.mp ha with rfl | ha
        · exact Or.inl rfl
        · rcases List.mem_cons.mp ha with rfl | ha
          · exact Or.inr rfl
          · exact htr a ha

/-- The loop of `sendto`, when the recorded error kind does not compare equal
to `EINTR`, absorbs would-block replies and stops at the first other failure.
-/
theorem sendtoLoop_stops (p : Platform) (aa : qt_sockaddr) (s : QSocketPrivate) (size : Int)
    (e : Errno) (rest : List Reply) (hi : p.errorIsEINTR s.error = false)
    (hstop : e ≠ Errno.EAGAIN) (pre : List Reply)
    (hpre : ∀ r ∈ pre, r = Reply.err Errno.EAGAIN) :
    ∃ tr, QSocketPrivate.sendtoLoop p aa s size (pre ++ Reply.err e :: rest)
        = Exec.ret (-1) (s.sendtoFail e).1 (tr ++ (s.sendtoFail e).2) rest
      ∧ ∀ a ∈ tr, a = Action.sendmsg s.fd aa size ∨ a = Action.watcherStart Direction.Write := by
  induction pre with
  | nil =>
    refine ⟨[Action.sendmsg s.fd aa size], ?_, by simp⟩
    rw [List.nil_append]
    simp [QSocketPrivate.sendtoLoop, hi, hstop, Exec.after]
  | cons r pre ih =>
    have hpre' : ∀ x ∈ pre, x = Reply.err Errno.EAGAIN :=
      fun x hx => hpre x (List.mem_cons_of_mem _ hx)
    obtain ⟨tr, h, htr⟩ := ih hpre'
    rw [List.cons_append, hpre r (List.mem_cons_self _ _)]
    refine ⟨Action.sendmsg s.fd aa size :: Action.watcherStart Direction.Write :: tr, ?_, ?_⟩
    · simp only [QSocketPrivate.sendtoLoop, hi, Bool.false_eq_true, if_false, if_true]
      rw [h]
      rfl
    · intro a ha
      rcases List.mem_cons.mp ha with rfl | ha
      · exact Or.inl rfl
      · rcases List.mem_cons.mp ha with rfl | ha
        · exact Or.inr rfl
        · exact htr a ha

/-- The loop of `connect`, entered in state Connecting on a valid descriptor,
absorbs transient replies and stops at the first failure that is neither
transient nor `EISCONN`. -/
theorem connectLoop_stops (p : Platform) (aa : qt_sockaddr) (sz : Nat) (s : QSocketPrivate)
    (hv : s.isValid = true) (hs : s.state = SocketState.ConnectingState) (e : Errno)
    (rest : List Reply) (hstop : connectTransient (Reply.err e) = false)
    (hne : e ≠ Errno.EISCONN) (pre : List Reply) :
    ∀ (inner : Bool), (∀ r ∈ pre, connectTransient r = true) →
    ∃ tr, QSocketPrivate.connectLoop p aa sz s inner (pre ++ Reply.err e :: rest)
        = Exec.ret false (s.connectFail e) tr rest
      ∧ ∀ a ∈ tr, a = Action.connect s.fd aa sz ∨ a = Action.watcherStart Direction.Write := by
  have hh : s.connectHead = false := by simp [QSocketPrivate.connectHead, hv, hs]
  have hc : ∀ inner : Bool, ¬ (inner = false ∧ s.connectHead = true) := by
    intro inner h
    rw [hh] at h
    exact absurd h.2 (by simp)
  induction pre with
  | nil =>
    intro inner _
    refine ⟨[Action.connect s.fd aa sz], ?_, by simp⟩
    rw [List.nil_append]
    simp only [QSocketPrivate.connectLoop]
    rw [if_neg (hc inner)]
    cases e <;> first
      | (simp [connectTransient] at hstop; done)
      | (simp at hne; done)
      | simp [Exec.after]
  | cons r pre ih =>
    intro inner hpre
    have hpre' : ∀ x ∈ pre, connectTransient x = true :=
      fun x hx => hpre x (List.mem_cons_of_mem _ hx)
    have hr := hpre r (List.mem_cons_self _ _)
    rw [List.cons_append]
    simp only [QSocketPrivate.connectLoop]
    rw [if_neg (hc inner)]
    cases r with
    | ok n sa val => simp [connectTransient] at hr
    | err e0 =>
      cases e0 <;> first
        | (simp [connectTransient] at hr; done)
        | (obtain ⟨tr, h, htr⟩ := ih true hpre'
           refine ⟨Action.connect s.fd aa sz :: tr, ?_, ?_⟩
           · simp only []
             rw [h]
             rfl
           · intro a ha
             rcases List.mem_cons.mp ha with rfl | ha
             · exact Or.inl rfl
             · exact htr a ha)
        | (obtain ⟨tr, h, htr⟩ := ih false hpre'
           refine ⟨Action.connect s.fd aa sz :: Action.watcherStart Direction.Write :: tr,
             ?_, ?_⟩
           · simp only []
             rw [h]
             rfl
           · intro a ha
             rcases List.mem_cons.mp ha with rfl | ha
             · exact Or.inl rfl
             · rcases List.mem_cons.mp ha with rfl | ha
               · exact Or.inr rfl
               · exact htr a ha)

/-- The loop of `accept` absorbs would-block replies and stops at the first
other failure of `accept4` (the two codes that make `qt_safe_accept` fall back
to `::accept` apart). -/
theorem acceptLoop_stops (s : QSocketPrivate) (e : Errno) (rest : List Reply)
    (h1 : e ≠ Errno.EAGAIN) (h2 : e ≠ Errno.ENOSYS) (h3 : e ≠ Errno.EINVAL)
    (pre : List Reply) (hpre : ∀ r ∈ pre, r = Reply.err Errno.EAGAIN) :
    ∃ tr, s.acceptLoop (pre ++ Reply.err e :: rest)
        = Exec.ret none (s.setError (acceptError e).1 (acceptError e).2) tr rest
      ∧ ∀ a ∈ tr, a = Action.accept4 s.fd ∨ a = Action.watcherStart Direction.Read := by
  induction pre with
  | nil =>
    refine ⟨[Action.accept4 s.fd], ?_, by simp⟩
    rw [List.nil_append, QSocketPrivate.acceptLoop.eq_def]
    simp [h1, h2, h3, Exec.after]
  | cons r pre ih =>
    have hpre' : ∀ x ∈ pre, x = Reply.err Errno.EAGAIN :=
      fun x hx => hpre x (List.mem_cons_of_mem _ hx)
    obtain ⟨tr, h, htr⟩ := ih hpre'
    rw [List.cons_append, hpre r (List.mem_cons_self _ _)]
    refine ⟨Action.accept4 s.fd :: Action.watcherStart Direction.Read :: tr, ?_, ?_⟩
    · rw [QSocketPrivate.acceptLoop.eq_def]
      simp only [reduceCtorEq, or_self, if_false, if_true]
      rw [h]
      rfl
    · intro a ha
      rcases List.mem_cons.mp ha with rfl | ha
      · exact Or.inl rfl
      · rcases List.mem_cons.mp ha with rfl | ha
        · exact Or.inr rfl
        · exact htr a ha

/-- The loop of `recv` on a socket in a permitted state absorbs interrupted and
would-block replies and stops at the first other failure: a reset closes a
stream socket with RemoteHostClosedError and returns the bytes read so far on
any socket; every other code records NetworkError and closes. -/
theorem recvLoop_stops (s : QSocketPrivate) (n : Int) (all : Bool) (total : Int) (e : Errno)
    (rest : List Reply) (hp : recvPermitted s = true) (hlt : total < n)
    (hstop : retryReply (Reply.err e) = false) (pre : List Reply) :
    ∀ (inner : Bool), (∀ r ∈ pre, retryReply r = true) →
    ∃ tr, s.recvLoop n all total inner (pre ++ Reply.err e :: rest)
        = Exec.after tr
            (if e = Errno.ECONNRESET then
              (if s.type = SocketType.TcpSocket then s.recvRemoteClosed total rest
                else Exec.ret total s [] rest)
            else
              Exec.ret (QSocketPrivate.recvFailValue total)
                (s.setError SocketError.NetworkError
                  ErrorString.InvalidSocketErrorString).close.1
                (s.setError SocketError.NetworkError
                  ErrorString.InvalidSocketErrorString).close.2 rest)
      ∧ ∀ a ∈ tr, a = Action.recv s.fd (n - total) ∨ a = Action.watcherStart Direction.Read := by
  have hhead : ∀ inner : Bool,
      (if inner = true then none else s.recvHead n total) = none := by
    intro inner
    cases inner with
    | true => rfl
    | false =>
      simp only [Bool.false_eq_true, if_false, recvHead_permitted s n total hp]
      rw [if_neg (not_not.mpr hlt)]
  induction pre with
  | nil =>
    intro inner _
    refine ⟨[Action.recv s.fd (n - total)], ?_, by simp⟩
    rw [List.nil_append]
    simp only [QSocketPrivate.recvLoop, hhead inner]
    cases e <;> first
      | (simp [retryReply] at hstop; done)
      | simp
  | cons r pre ih =>
    intro inner hpre
    have hpre' : ∀ x ∈ pre, retryReply x = true :=
      fun x hx => hpre x (List.mem_cons_of_mem _ hx)
    rw [List.cons_append]
    rcases retryReply_cases r (hpre r (List.mem_cons_self _ _)) with rfl | rfl
    · obtain ⟨tr, h, htr⟩ := ih true hpre'
      refine ⟨Action.recv s.fd (n - total) :: tr, ?_, ?_⟩
      · simp only [QSocketPrivate.recvLoop, hhead inner]
        rw [h]
        split_ifs <;> simp [Exec.after, QSocketPrivate.recvRemoteClosed]
      · intro a ha
        rcases List.mem_cons.mp ha with rfl | ha
        · exact Or.inl rfl
        · exact htr a ha
    · obtain ⟨tr, h, htr⟩ := ih false hpre'
      refine ⟨Action.recv s.fd (n - total) :: Action.watcherStart Direction.Read :: tr, ?_, ?_⟩
      · simp only [QSocketPrivate.recvLoop, hhead inner]
        rw [h]
        split_ifs <;> simp [Exec.after, QSocketPrivate.recvRemoteClosed]
      · intro a ha
        rcases List.mem_cons.mp ha with rfl | ha
        · exact Or.inl rfl
        · rcases List.mem_cons.mp ha with rfl | ha
          · exact Or.inr rfl
          · exact htr a ha

/-! ### Unnamed failure codes -/

/-- The default case of the switch of `send`: UnknownSocketError, and close. -/
theorem sendFail_unnamed (s : QSocketPrivate) (e : Errno) (hn : e ∉ sendNamed) :
    s.sendFail e = (s.setError SocketError.UnknownSocketError
      ErrorString.UnknownSocketErrorString).close := by
  cases e <;> first
    | (simp [sendNamed] at hn; done)
    | simp [QSocketPrivate.sendFail, sendError]

/-- The default case of the switch of `recvfrom`, and the codes listed with
it: NetworkError, and close. -/
theorem recvfromFail_invalid (s : QSocketPrivate) (e : Errno)
    (hn : recvfromClass e = RecvfromClass.invalid) :
    s.recvfromFail e = (s.setError SocketError.NetworkError
      ErrorString.InvalidSocketErrorString).close := by
  simp [QSocketPrivate.recvfromFail, hn]

/-- A code that the switch of `recvfrom` does not name is of its default case.
-/
theorem recvfromClass_unnamed (e : Errno) (hn : e ∉ recvfromNamed) :
    recvfromClass e = RecvfromClass.invalid := by
  cases e <;> first
    | (simp [recvfromNamed] at hn; done)
    | rfl

/-- The default case of the switch of `sendto`: NetworkError, the socket left
open. -/
theorem sendtoFail_unnamed (s : QSocketPrivate) (e : Errno) (hn : e ∉ sendtoNamed) :
    s.sendtoFail e = (s.setError SocketError.NetworkError
      ErrorString.InvalidSocketErrorString, []) := by
  cases e <;> first
    | (simp [sendtoNamed] at hn; done)
    | simp [QSocketPrivate.sendtoFail, sendtoError]

/-- The default case of the switch of `connect`: UnknownSocketError, state
Unconnected, the descriptor kept. -/
theorem connectFail_unnamed (s : QSocketPrivate) (e : Errno) (hn : e ∉ connectNamed) :
    s.connectFail e = { s.setError SocketError.UnknownSocketError
      ErrorString.UnknownSocketErrorString with state := SocketState.UnconnectedState } := by
  cases e <;> first
    | (simp [connectNamed] at hn; done)
    | simp [QSocketPrivate.connectFail, connectError, connectDropsFd]

/-- A list of actions each of which is one of two that are not `::close`
holds no `::close`. -/
theorem no_close_of_two (tr : List Action) (x y : Action) (h : ∀ a ∈ tr, a = x ∨ a = y)
    (hx : x.isClose = false) (hy : y.isClose = false) :
    ∀ a ∈ tr, a.isClose = false := by
  intro a ha
  rcases h a ha with rfl | rfl
  · exact hx
  · exact hy

/-- A failed `::bind` that is not retried with the IPv4 form, in either bind
mode: `bind` records the error of its switch and returns false, with no
`::close`, the replies after the failure unread. -/
theorem bind_fails (p : Platform) (s : QSocketPrivate) (address : QHostAddress) (port : Nat)
    (mode : BindMode) (r0 : Reply) (e : Errno) (rest : List Reply) (hv : s.isValid = true)
    (hs : s.state = SocketState.UnconnectedState)
    (hr : e = Errno.EAFNOSUPPORT → address.protocol ≠ NetworkLayerProtocol.AnyIPProtocol) :
    ∃ tr, s.bind p address port mode (reuseReplies mode r0 ++ Reply.err e :: rest)
        = Exec.ret false (s.setError (bindError e).1 (bindError e).2) tr rest
      ∧ ∀ a ∈ tr, a.isClose = false := by
  obtain ⟨pre1, hp1, h1⟩ := bind_reuse p s address port mode r0 (Reply.err e :: rest) hv hs
  obtain ⟨pre2, hp2, h2⟩ := bindCall_err s address port
    (s.setPortAndAddress p port address).1 (s.setPortAndAddress p port address).2 e rest
    (fun h => hr h.1 h.2)
  refine ⟨pre1 ++ (pre2 ++ [Action.bind s.fd (s.setPortAndAddress p port address).1
    (s.setPortAndAddress p port address).2]), ?_, ?_⟩
  · rw [h1, h2]
    rfl
  · intro a ha
    rcases List.mem_append.mp ha with ha | ha
    · obtain ⟨l, n, v, rfl⟩ := hp1 a ha
      rfl
    · rcases List.mem_append.mp ha with ha | ha
      · obtain ⟨l, n, v, rfl⟩ := hp2 a ha
        rfl
      · simp only [List.mem_singleton] at ha
        subst ha
        rfl

/-- C11 (amended): what each operation does on a failure code that its error
switch does not name, on a socket with a positive descriptor, after any number
of the transient replies that the operation absorbs, in a state that the
operation permits and for a transfer of at least one byte.  `bind` (in either
bind mode, after the reply to the address-reuse option; EAFNOSUPPORT for a
dual-stack address apart, on which `::bind` is issued again) and `listen`
record UnknownSocketError and change nothing else.  `accept` does the same for
a code other than interrupted and ENOSYS (on which `accept4` gives way to
`::accept`).  `connect`, for a code other than interrupted, records
UnknownSocketError and sets the state Unconnected, the descriptor kept.
`send`, for a code other than interrupted, records UnknownSocketError and
closes the socket.  `recv` and `recvfrom`, for a code other than interrupted,
record NetworkError and close the socket.  `sendto`, for a code other than
interrupted and on a socket whose recorded error kind does not compare equal
to `EINTR` in the test of line 713, records NetworkError and changes nothing
else.  In every case the call returns its failure value (0 bytes for `send`)
and reads nothing after the failure; where the socket is closed the actions
end with the `::close` of the descriptor and the wake-up of its waiters, the
descriptor is -1 and not valid and the state is Unconnected. -/
theorem unnamed_code_effect (p : Platform) (s : QSocketPrivate) (e : Errno)
    (pre rest : List Reply) (r0 : Reply) (address : QHostAddress) (port : Nat)
    (mode : BindMode) (backlog size : Int)
    (all : Bool) (hfd : 0 < s.fd) (hsize : 0 < size) :
    (e ∉ bindNamed → (e = Errno.EAFNOSUPPORT →
        address.protocol ≠ NetworkLayerProtocol.AnyIPProtocol) →
      s.state = SocketState.UnconnectedState →
      ∃ tr, s.bind p address port mode (reuseReplies mode r0 ++ Reply.err e :: rest)
          = Exec.ret false
              (s.setError SocketError.UnknownSocketError ErrorString.UnknownSocketErrorString)
              tr rest
        ∧ ∀ a ∈ tr, a.isClose = false)
    ∧ (e ∉ listenNamed →
      s.state = SocketState.BoundState ∨ s.state = SocketState.UnconnectedState →
      s.listen p backlog (Reply.err e :: rest)
        = Exec.ret false
            (s.setError SocketError.UnknownSocketError ErrorString.UnknownSocketErrorString)
            [Action.listen s.fd backlog] rest)
    ∧ (e ∉ acceptNamed → e ≠ Errno.EINTR → e ≠ Errno.ENOSYS →
      s.state = SocketState.ListeningState → s.type = SocketType.TcpSocket →
      (∀ r ∈ pre, r = Reply.err Errno.EAGAIN) →
      ∃ tr, s.accept (pre ++ Reply.err e :: rest)
          = Exec.ret none
              (s.setError SocketError.UnknownSocketError ErrorString.UnknownSocketErrorString)
              tr rest
        ∧ ∀ a ∈ tr, a.isClose = false)
    ∧ (e ∉ connectNamed → e ≠ Errno.EINTR →
      s.state = SocketState.UnconnectedState ∨ s.state = SocketState.BoundState
        ∨ s.state = SocketState.ConnectingState →
      (∀ r ∈ pre, connectTransient r = true) →
      ∃ tr, s.connect p address port (pre ++ Reply.err e :: rest)
          = Exec.ret false
              { s.setError SocketError.UnknownSocketError ErrorString.UnknownSocketErrorString
                with state := SocketState.UnconnectedState }
              tr rest
        ∧ ∀ a ∈ tr, a.isClose = false)
    ∧ (e ∉ sendNamed → e ≠ Errno.EINTR → (∀ r ∈ pre, retryReply r = true) →
      ∃ tr, s.send size all (pre ++ Reply.err e :: rest)
        = Exec.ret 0
            (s.setError SocketError.UnknownSocketError
              ErrorString.UnknownSocketErrorString).close.1
            (tr ++ [Action.close s.fd, Action.triggerIoWatchers s.fd]) rest)
    ∧ (e ∉ recvNamed → e ≠ Errno.EINTR → recvPermitted s = true →
      (∀ r ∈ pre, retryReply r = true) →
      ∃ tr, s.recv size all (pre ++ Reply.err e :: rest)
        = Exec.ret (-1)
            (s.setError SocketError.NetworkError ErrorString.InvalidSocketErrorString).close.1
            (tr ++ [Action.close s.fd, Action.triggerIoWatchers s.fd]) rest)
    ∧ (e ∉ recvfromNamed → e ≠ Errno.EINTR → (∀ r ∈ pre, retryReply r = true) →
      ∃ tr, s.recvfrom p size (pre ++ Reply.err e :: rest)
        = Exec.ret (-1, none)
            (s.setError SocketError.NetworkError ErrorString.InvalidSocketErrorString).close.1
            (tr ++ [Action.close s.fd, Action.triggerIoWatchers s.fd]) rest)
    ∧ (e ∉ sendtoNamed → e ≠ Errno.EINTR → p.errorIsEINTR s.error = false →
      (∀ r ∈ pre, r = Reply.err Errno.EAGAIN) →
      ∃ tr, s.sendto p size address port (pre ++ Reply.err e :: rest)
        = Exec.ret (-1)
            (s.setError SocketError.NetworkError ErrorString.InvalidSocketErrorString)
            tr rest
          ∧ ∀ a ∈ tr, a = Action.sendmsg s.fd (s.setPortAndAddress p port address).1 size
              ∨ a = Action.watcherStart Direction.Write)
    ∧ (∀ (k : SocketError) (d : ErrorString),
        (s.setError k d).close.1.fd = -1 ∧ (s.setError k d).close.1.isValid = false
        ∧ (s.setError k d).close.1.state = SocketState.UnconnectedState
        ∧ (s.setError k d).close.1.error = k) := by
  have hv : s.isValid = true := by
    simp only [QSocketPrivate.isValid, decide_eq_true_eq]
    omega
  have hclose : ∀ (k : SocketError) (d : ErrorString),
      (s.setError k d).close.2 = [Action.close s.fd, Action.triggerIoWatchers s.fd] :=
    fun k d => (close_actions_of_valid (s.setError k d) hfd).1
  refine ⟨?_, ?_, ?_, ?_, ?_, ?_, ?_, ?_, ?_⟩
  · intro hn hr hs
    have hb : bindError e
        = (SocketError.UnknownSocketError, ErrorString.UnknownSocketErrorString) := by
      cases e <;> first
        | (simp [bindNamed] at hn; done)
        | rfl
    obtain ⟨tr, h, htr⟩ := bind_fails p s address port mode r0 e rest hv hs hr
    rw [hb] at h
    exact ⟨tr, h, htr⟩
  · intro hn hs
    have hl : listenError e
        = (SocketError.UnknownSocketError, ErrorString.UnknownSocketErrorString) := by
      cases e <;> first
        | (simp [listenNamed] at hn; done)
        | rfl
    have hg : ¬ (s.state ≠ SocketState.BoundState ∧ s.state ≠ SocketState.UnconnectedState) := by
      rintro ⟨h1, h2⟩
      rcases hs with h | h
      · exact h1 h
      · exact h2 h
    simp only [QSocketPrivate.listen, hv, Bool.not_true, Bool.false_eq_true, if_false]
    rw [if_neg hg]
    simp only [hl]
  · intro hn _ h2 hs ht hpre
    have ha : acceptError e
        = (SocketError.UnknownSocketError, ErrorString.UnknownSocketErrorString) := by
      cases e <;> first
        | (simp [acceptNamed] at hn; done)
        | rfl
    obtain ⟨tr, h, htr⟩ := acceptLoop_stops s e rest (by
      rintro rfl; simp [acceptNamed] at hn) h2 (by rintro rfl; simp [acceptNamed] at hn)
      pre hpre
    refine ⟨tr, ?_, no_close_of_two tr _ _ htr rfl rfl⟩
    simp only [QSocketPrivate.accept, hv, hs, ht, Bool.not_true, Bool.false_eq_true, if_false,
      ne_eq, not_true_eq_false, or_self]
    rw [h, ha]
  · intro hn h2 hs hpre
    have hstop : connectTransient (Reply.err e) = false := by
      cases e <;> first
        | (simp [connectNamed] at hn; done)
        | (simp at h2; done)
        | rfl
    have hg : ¬ (s.state ≠ SocketState.UnconnectedState ∧ s.state ≠ SocketState.BoundState
        ∧ s.state ≠ SocketState.ConnectingState) := by
      rintro ⟨h1, h2, h3⟩
      rcases hs with h | h | h
      · exact h1 h
      · exact h2 h
      · exact h3 h
    obtain ⟨tr, h, htr⟩ := connectLoop_stops p (s.setPortAndAddress p port address).1
      (s.setPortAndAddress p port address).2 { s with state := SocketState.ConnectingState }
      hv rfl e rest hstop (by rintro rfl; simp [connectNamed] at hn) pre false hpre
    refine ⟨tr, ?_, no_close_of_two tr _ _ htr rfl rfl⟩
    simp only [QSocketPrivate.connect, hv, Bool.not_true, Bool.false_eq_true, if_false]
    rw [if_neg hg, h, connectFail_unnamed _ e hn]
    rfl
  · intro hn h2 hpre
    have hstop : sendStops (Reply.err e) = true := by
      cases e <;> first
        | (simp [sendNamed] at hn; done)
        | (simp at h2; done)
        | rfl
    obtain ⟨tr, h, -⟩ := sendLoop_stops s size all 0 e rest hsize hstop pre false hpre
    refine ⟨tr, ?_⟩
    simp only [QSocketPrivate.send, hv, Bool.not_true, Bool.false_eq_true, if_false]
    rw [h, sendFail_unnamed s e hn, hclose]
  · intro hn h2 hp hpre
    have hstop : retryReply (Reply.err e) = false := by
      cases e <;> first
        | (simp [recvNamed] at hn; done)
        | (simp at h2; done)
        | rfl
    have hne : e ≠ Errno.ECONNRESET := by rintro rfl; simp [recvNamed] at hn
    obtain ⟨tr, h, -⟩ := recvLoop_stops s size all 0 e rest hp hsize hstop pre false hpre
    refine ⟨tr, ?_⟩
    simp only [QSocketPrivate.recv, hv, Bool.not_true, Bool.false_eq_true, if_false]
    rw [h, if_neg hne, hclose]
    simp [Exec.after, QSocketPrivate.recvFailValue]
  · intro hn h2 hpre
    have hstop : retryReply (Reply.err e) = false := by
      cases e <;> first
        | (simp [recvfromNamed] at hn; done)
        | (simp at h2; done)
        | rfl
    obtain ⟨tr, h, -⟩ := recvfromLoop_stops p s size e rest hstop pre hpre
    refine ⟨tr, ?_⟩
    simp only [QSocketPrivate.recvfrom, hv, Bool.not_true, Bool.false_eq_true, if_false]
    rw [if_neg (not_le.mpr hsize), h,
      recvfromFail_invalid s e (recvfromClass_unnamed e hn), hclose]
  · intro hn _ hi hpre
    obtain ⟨tr, h, htr⟩ := sendtoLoop_stops p (s.setPortAndAddress p port address).1 s size e
      rest hi (by rintro rfl; simp [sendtoNamed] at hn) pre hpre
    refine ⟨tr, ?_, htr⟩
    simp only [QSocketPrivate.sendto, hv, Bool.not_true, Bool.false_eq_true, if_false]
    rw [h, sendtoFail_unnamed s e hn]
    simp
  · intro k d
    have hfd2 : 0 < (s.setError k d).fd := hfd
    refine ⟨(close_actions_of_valid _ hfd2).2, close_not_valid _ (ne_of_gt hfd2), rfl, ?_⟩
    exact (close_records _ _ (setError_records s k d)).1

/-- C11 at a concrete input: `listen` on a fresh stream socket answered by a
code its switch does not name. -/
theorem unnamed_code_effect_witness :
    (0 < QSocketPrivate.sample.fd ∧ (0 : Int) < 10
      ∧ Errno.EOPNOTSUPP ∉ listenNamed)
    ∧ QSocketPrivate.sample.listen Platform.loopback 5 (Reply.err Errno.EOPNOTSUPP :: [])
      = Exec.ret false
          (QSocketPrivate.sample.setError SocketError.UnknownSocketError
            ErrorString.UnknownSocketErrorString)
          [Action.listen QSocketPrivate.sample.fd 5] [] :=
  ⟨⟨by decide, by decide, by decide⟩,
    (unnamed_code_effect Platform.loopback QSocketPrivate.sample Errno.EOPNOTSUPP [] []
      (Reply.val 0) QHostAddress.any 80 BindMode.DefaultForPlatform 5 10 true (by decide)
      (by decide)).2.1 (by decide) (Or.inr rfl)⟩

/-- C11 as stated fails: `ENOTCONN` is not named by the switch of `recv`, and
`recv` answers it by recording NetworkError, not UnknownSocketError, and by
closing the socket, so that descriptor and state change. -/
theorem unnamed_code_recv_closes :
    Errno.ENOTCONN ∉ recvNamed
    ∧ ((QSocketPrivate.sampleConnected.recv 10 false [Reply.err Errno.ENOTCONN]).socket?.map
        fun s => (s.error, s.fd, s.state))
      = some (SocketError.NetworkError, -1, SocketState.UnconnectedState)
    ∧ (QSocketPrivate.sampleConnected.fd, QSocketPrivate.sampleConnected.state)
      = (7, SocketState.ConnectedState) := by
  decide

/-! ### Fatal failures -/

/-- Recording an error and closing a socket with a positive descriptor is an
outcome that closes. -/
theorem closesWith_close (s : QSocketPrivate) (hfd : 0 < s.fd)
    (x : SocketError × ErrorString) (tr0 : List Action) :
    ClosesWith s x (s.setError x.1 x.2).close.1 (tr0 ++ (s.setError x.1 x.2).close.2) := by
  have hfd2 : 0 < (s.setError x.1 x.2).fd := hfd
  have h := close_actions_of_valid (s.setError x.1 x.2) hfd2
  refine ⟨rfl, ?_, h.2, close_not_valid _ (ne_of_gt hfd2), rfl⟩
  rw [h.1]
  exact ⟨tr0, rfl⟩

/-- A failed `::listen`: `listen` records the error of its switch and returns
false. -/
theorem listen_fails (p : Platform) (s : QSocketPrivate) (backlog : Int) (e : Errno)
    (rest : List Reply) (hv : s.isValid = true)
    (hs : s.state = SocketState.BoundState ∨ s.state = SocketState.UnconnectedState) :
    s.listen p backlog (Reply.err e :: rest)
      = Exec.ret false (s.setError (listenError e).1 (listenError e).2)
          [Action.listen s.fd backlog] rest := by
  have hg : ¬ (s.state ≠ SocketState.BoundState ∧ s.state ≠ SocketState.UnconnectedState) := by
    rintro ⟨h1, h2⟩
    rcases hs with h | h
    · exact h1 h
    · exact h2 h
  simp only [QSocketPrivate.listen, hv, Bool.not_true, Bool.false_eq_true, if_false]
  rw [if_neg hg]

/-- On a valid socket in a state that `recv` does not permit, `recv` of at
least one byte records UnsupportedSocketOperationError at the head of its loop
and returns -1 with no action: the socket is not closed. -/
theorem recv_unsupported (s : QSocketPrivate) (size : Int) (all : Bool) (script : List Reply)
    (hv : s.isValid = true) (hp : recvPermitted s = false) (hsize : 0 < size) :
    s.recv size all script
      = Exec.ret (-1)
          (s.setError SocketError.UnsupportedSocketOperationError
            ErrorString.OperationUnsupportedErrorString) [] script := by
  have hh : s.recvHead size 0 = some (-1,
      s.setError SocketError.UnsupportedSocketOperationError
        ErrorString.OperationUnsupportedErrorString) := by
    simp only [recvPermitted, hv, Bool.true_and, Bool.or_eq_false_iff, decide_eq_false_iff_not,
      not_and, not_or] at hp
    obtain ⟨h1, h2⟩ := hp
    unfold QSocketPrivate.recvHead
    rw [if_neg (not_not.mpr hsize)]
    simp only [hv, Bool.not_true, Bool.false_eq_true, if_false, QSocketPrivate.recvFailValue,
      if_true]
    by_cases ht : s.type = SocketType.TcpSocket
    · rw [if_pos ht, if_pos (h1 ht)]
    · rw [if_neg ht]
      by_cases hu : s.type = SocketType.UdpSocket
      · rw [if_pos hu, if_pos (h2 hu)]
      · rw [if_neg hu]
  simp only [QSocketPrivate.recv, hv, Bool.not_true, Bool.false_eq_true, if_false]
  cases script with
  | nil => simp [QSocketPrivate.recvLoop, hh]
  | cons r rs => simp [QSocketPrivate.recvLoop, hh]

/-- C13 (amended): what each operation does, on a socket with a positive
descriptor, in a state that the operation permits and for a transfer of at
least one byte, when a system call answers connection reset, broken pipe, bad
descriptor or not-a-socket after any number of the transient replies that the
operation absorbs; and what `recv` does when the state does not permit it.
`send` returns the 0 bytes sent and closes the socket on each of the four
codes, with the error of its switch recorded.  `recv` returns 0 and closes the
socket with RemoteHostClosedError on a reset on a stream socket, returns -1
and closes it with NetworkError on the three other codes, and on a reset on a
socket that is not a stream returns 0 with the socket as it is.  `recvfrom`
returns -1 and closes the socket, with RemoteHostClosedError on a reset on a
stream socket and with NetworkError on the three other codes; on a reset on a
socket that is not a stream it returns -1 with the socket as it is.  `sendto`,
on a socket whose recorded error kind does not compare equal to `EINTR` in the
test of line 713, returns -1, and closes the socket, with
RemoteHostClosedError, only for a reset or not-a-socket on a stream socket;
otherwise it keeps descriptor and state and issues no `::close`.  `connect`
returns false with the state Unconnected and no `::close`: it stores -1 in the
descriptor for bad descriptor and not-a-socket and keeps the descriptor for
reset and broken pipe.  `accept`, `bind` (in either bind mode) and `listen`
return failure, record the error of their switch and change nothing else.  A
`recv` that the state does not permit records UnsupportedSocketOperationError
and returns -1 with no action: the socket is not closed.  Where the socket is
closed, the actions end with the `::close` of the descriptor and the wake-up
of its waiters, the descriptor is -1 and not valid, and the state is
Unconnected. -/
theorem fatal_failure_effect (p : Platform) (s : QSocketPrivate) (e : Errno)
    (pre rest : List Reply) (r0 : Reply) (address : QHostAddress) (port : Nat)
    (mode : BindMode) (backlog size : Int)
    (all : Bool) (hfd : 0 < s.fd) (hsize : 0 < size) (hf : e ∈ fatalCodes) :
    ((∀ r ∈ pre, retryReply r = true) →
      ∃ s' tr, s.send size all (pre ++ Reply.err e :: rest) = Exec.ret 0 s' tr rest
        ∧ ClosesWith s ((sendError e).1, (sendError e).2.1) s' tr)
    ∧ (recvPermitted s = true → (∀ r ∈ pre, retryReply r = true) →
      (e = Errno.ECONNRESET → s.type = SocketType.TcpSocket →
        ∃ s' tr, s.recv size all (pre ++ Reply.err e :: rest) = Exec.ret 0 s' tr rest
          ∧ ClosesWith s (SocketError.RemoteHostClosedError,
              ErrorString.RemoteHostClosedErrorString) s' tr)
      ∧ (e ≠ Errno.ECONNRESET →
        ∃ s' tr, s.recv size all (pre ++ Reply.err e :: rest) = Exec.ret (-1) s' tr rest
          ∧ ClosesWith s (SocketError.NetworkError,
              ErrorString.InvalidSocketErrorString) s' tr)
      ∧ (e = Errno.ECONNRESET → s.type ≠ SocketType.TcpSocket →
        ∃ tr, s.recv size all (pre ++ Reply.err e :: rest) = Exec.ret 0 s tr rest
          ∧ ∀ a ∈ tr, a.isClose = false))
    ∧ ((∀ r ∈ pre, retryReply r = true) →
      (e = Errno.ECONNRESET → s.type = SocketType.TcpSocket →
        ∃ s' tr, s.recvfrom p size (pre ++ Reply.err e :: rest)
            = Exec.ret (-1, none) s' tr rest
          ∧ ClosesWith s (SocketError.RemoteHostClosedError,
              ErrorString.RemoteHostClosedErrorString) s' tr)
      ∧ (e ≠ Errno.ECONNRESET →
        ∃ s' tr, s.recvfrom p size (pre ++ Reply.err e :: rest)
            = Exec.ret (-1, none) s' tr rest
          ∧ ClosesWith s (SocketError.NetworkError,
              ErrorString.InvalidSocketErrorString) s' tr)
      ∧ (e = Errno.ECONNRESET → s.type ≠ SocketType.TcpSocket →
        ∃ tr, s.recvfrom p size (pre ++ Reply.err e :: rest) = Exec.ret (-1, none) s tr rest
          ∧ ∀ a ∈ tr, a.isClose = false))
    ∧ (p.errorIsEINTR s.error = false → (∀ r ∈ pre, r = Reply.err Errno.EAGAIN) →
      ((e = Errno.ECONNRESET ∨ e = Errno.ENOTSOCK) → s.type = SocketType.TcpSocket →
        ∃ s' tr, s.sendto p size address port (pre ++ Reply.err e :: rest)
            = Exec.ret (-1) s' tr rest
          ∧ ClosesWith s (SocketError.RemoteHostClosedError,
              ErrorString.RemoteHostClosedErrorString) s' tr)
      ∧ (¬ ((e = Errno.ECONNRESET ∨ e = Errno.ENOTSOCK) ∧ s.type = SocketType.TcpSocket) →
        ∃ s' tr, s.sendto p size address port (pre ++ Reply.err e :: rest)
            = Exec.ret (-1) s' tr rest
          ∧ s'.fd = s.fd ∧ s'.state = s.state ∧ ∀ a ∈ tr, a.isClose = false))
    ∧ (s.state = SocketState.UnconnectedState ∨ s.state = SocketState.BoundState
        ∨ s.state = SocketState.ConnectingState →
      (∀ r ∈ pre, connectTransient r = true) →
      ∃ s' tr, s.connect p address port (pre ++ Reply.err e :: rest)
          = Exec.ret false s' tr rest
        ∧ s'.state = SocketState.UnconnectedState
        ∧ (e = Errno.EBADF ∨ e = Errno.ENOTSOCK → s'.fd = -1)
        ∧ (e = Errno.ECONNRESET ∨ e = Errno.EPIPE → s'.fd = s.fd)
        ∧ ∀ a ∈ tr, a.isClose = false)
    ∧ (s.state = SocketState.ListeningState → s.type = SocketType.TcpSocket →
      (∀ r ∈ pre, r = Reply.err Errno.EAGAIN) →
      ∃ tr, s.accept (pre ++ Reply.err e :: rest)
          = Exec.ret none (s.setError (acceptError e).1 (acceptError e).2) tr rest
        ∧ ∀ a ∈ tr, a.isClose = false)
    ∧ (s.state = SocketState.UnconnectedState →
      ∃ tr, s.bind p address port mode (reuseReplies mode r0 ++ Reply.err e :: rest)
          = Exec.ret false
              (s.setError SocketError.UnknownSocketError ErrorString.UnknownSocketErrorString)
              tr rest
        ∧ ∀ a ∈ tr, a.isClose = false)
    ∧ (s.state = SocketState.BoundState ∨ s.state = SocketState.UnconnectedState →
      s.listen p backlog (Reply.err e :: rest)
        = Exec.ret false
            (s.setError SocketError.UnknownSocketError ErrorString.UnknownSocketErrorString)
            [Action.listen s.fd backlog] rest)
    ∧ (recvPermitted s = false → ∀ script,
      s.recv size all script
        = Exec.ret (-1)
            (s.setError SocketError.UnsupportedSocketOperationError
              ErrorString.OperationUnsupportedErrorString) [] script) := by
  have hv : s.isValid = true := by
    simp only [QSocketPrivate.isValid, decide_eq_true_eq]
    omega
  simp only [fatalCodes, List.mem_cons, List.mem_singleton, List.not_mem_nil, or_false] at hf
  have hretry : retryReply (Reply.err e) = false := by
    rcases hf with rfl | rfl | rfl | rfl <;> rfl
  refine ⟨?_, ?_, ?_, ?_, ?_, ?_, ?_, ?_, ?_⟩
  · intro hpre
    obtain ⟨tr, h, -⟩ := sendLoop_stops s size all 0 e rest hsize (by simp [sendStops, hretry])
      pre false hpre
    have hfail : s.sendFail e = (s.setError (sendError e).1 (sendError e).2.1).close := by
      rcases hf with rfl | rfl | rfl | rfl <;> simp [QSocketPrivate.sendFail, sendError]
    refine ⟨_, _, ?_, closesWith_close s hfd ((sendError e).1, (sendError e).2.1) tr⟩
    simp only [QSocketPrivate.send, hv, Bool.not_true, Bool.false_eq_true, if_false]
    rw [h, hfail]
  · intro hp hpre
    obtain ⟨tr, h, htr⟩ := recvLoop_stops s size all 0 e rest hp hsize hretry pre false hpre
    have hrecv : s.recv size all (pre ++ Reply.err e :: rest)
        = s.recvLoop size all 0 false (pre ++ Reply.err e :: rest) := by
      simp only [QSocketPrivate.recv, hv, Bool.not_true, Bool.false_eq_true, if_false]
    rw [hrecv, h]
    refine ⟨?_, ?_, ?_⟩
    · intro he ht
      rw [if_pos he, if_pos ht]
      exact ⟨_, _, rfl, closesWith_close s hfd (SocketError.RemoteHostClosedError,
          ErrorString.RemoteHostClosedErrorString) tr⟩
    · intro he
      rw [if_neg he]
      exact ⟨_, _, rfl, closesWith_close s hfd (SocketError.NetworkError,
          ErrorString.InvalidSocketErrorString) tr⟩
    · intro he ht
      rw [if_pos he, if_neg ht]
      refine ⟨tr ++ [], rfl, ?_⟩
      rw [List.append_nil]
      exact no_close_of_two tr _ _ htr rfl rfl
  · intro hpre
    obtain ⟨tr, h, htr⟩ := recvfromLoop_stops p s size e rest hretry pre hpre
    have hrecv : s.recvfrom p size (pre ++ Reply.err e :: rest)
        = QSocketPrivate.recvfromLoop p s size (pre ++ Reply.err e :: rest) := by
      simp only [QSocketPrivate.recvfrom, hv, Bool.not_true, Bool.false_eq_true, if_false]
      rw [if_neg (not_le.mpr hsize)]
    rw [hrecv, h]
    refine ⟨?_, ?_, ?_⟩
    · intro he ht
      subst he
      have hx : s.recvfromFail Errno.ECONNRESET
          = (s.setError SocketError.RemoteHostClosedError
              ErrorString.RemoteHostClosedErrorString).close := by
        simp [QSocketPrivate.recvfromFail, recvfromClass, QSocketPrivate.peerGone, ht]
      rw [hx]
      exact ⟨_, _, rfl, closesWith_close s hfd (SocketError.RemoteHostClosedError,
          ErrorString.RemoteHostClosedErrorString) tr⟩
    · intro he
      have hx : s.recvfromFail e
          = (s.setError SocketError.NetworkError
              ErrorString.InvalidSocketErrorString).close := by
        rcases hf with rfl | rfl | rfl | rfl
        · exact absurd rfl he
        all_goals simp [QSocketPrivate.recvfromFail, recvfromClass]
      rw [hx]
      exact ⟨_, _, rfl, closesWith_close s hfd (SocketError.NetworkError,
          ErrorString.InvalidSocketErrorString) tr⟩
    · intro he ht
      subst he
      have hx : s.recvfromFail Errno.ECONNRESET = (s, []) := by
        simp [QSocketPrivate.recvfromFail, recvfromClass, QSocketPrivate.peerGone, ht]
      rw [hx]
      refine ⟨tr ++ [], rfl, ?_⟩
      rw [List.append_nil]
      exact no_close_of_two tr _ _ htr rfl rfl
  · intro hi hpre
    obtain ⟨tr, h, htr⟩ := sendtoLoop_stops p (s.setPortAndAddress p port address).1 s size e
      rest hi (by rcases hf with rfl | rfl | rfl | rfl <;> simp) pre hpre
    have hsend : s.sendto p size address port (pre ++ Reply.err e :: rest)
        = QSocketPrivate.sendtoLoop p (s.setPortAndAddress p port address).1 s size
            (pre ++ Reply.err e :: rest) := by
      simp only [QSocketPrivate.sendto, hv, Bool.not_true, Bool.false_eq_true, if_false]
    rw [hsend, h]
    refine ⟨?_, ?_⟩
    · intro he ht
      have hx : s.sendtoFail e
          = (s.setError SocketError.RemoteHostClosedError
              ErrorString.RemoteHostClosedErrorString).close := by
        rcases he with rfl | rfl <;>
          simp [QSocketPrivate.sendtoFail, sendtoError, QSocketPrivate.peerGone, ht]
      rw [hx]
      exact ⟨_, _, rfl, closesWith_close s hfd _ tr⟩
    · intro hne
      have hx : (s.sendtoFail e).2 = [] ∧ (s.sendtoFail e).1.fd = s.fd
          ∧ (s.sendtoFail e).1.state = s.state := by
        by_cases ht : s.type = SocketType.TcpSocket
        · rcases hf with rfl | rfl | rfl | rfl
          · exact absurd ⟨Or.inl rfl, ht⟩ hne
          · simp [QSocketPrivate.sendtoFail, sendtoError, QSocketPrivate.setError]
          · simp [QSocketPrivate.sendtoFail, sendtoError, QSocketPrivate.setError]
          · exact absurd ⟨Or.inr rfl, ht⟩ hne
        · rcases hf with rfl | rfl | rfl | rfl <;>
            simp [QSocketPrivate.sendtoFail, sendtoError, QSocketPrivate.peerGone, ht,
              QSocketPrivate.setError]
      refine ⟨_, _, rfl, hx.2.1, hx.2.2, ?_⟩
      rw [hx.1, List.append_nil]
      exact no_close_of_two tr _ _ htr rfl rfl
  · intro hs hpre
    have hg : ¬ (s.state ≠ SocketState.UnconnectedState ∧ s.state ≠ SocketState.BoundState
        ∧ s.state ≠ SocketState.ConnectingState) := by
      rintro ⟨h1, h2, h3⟩
      rcases hs with h | h | h
      · exact h1 h
      · exact h2 h
      · exact h3 h
    obtain ⟨tr, h, htr⟩ := connectLoop_stops p (s.setPortAndAddress p port address).1
      (s.setPortAndAddress p port address).2 { s with state := SocketState.ConnectingState }
      hv rfl e rest (by rcases hf with rfl | rfl | rfl | rfl <;> rfl)
      (by rcases hf with rfl | rfl | rfl | rfl <;> simp) pre false hpre
    refine ⟨QSocketPrivate.connectFail { s with state := SocketState.ConnectingState } e,
      tr, ?_, ?_, ?_, ?_, no_close_of_two tr _ _ htr rfl rfl⟩
    · simp only [QSocketPrivate.connect, hv, Bool.not_true, Bool.false_eq_true, if_false]
      rw [if_neg hg, h]
    · rfl
    · rintro (rfl | rfl) <;> simp [QSocketPrivate.connectFail, connectDropsFd,
        QSocketPrivate.setError]
    · rintro (rfl | rfl) <;> simp [QSocketPrivate.connectFail, connectDropsFd,
        QSocketPrivate.setError]
  · intro hs ht hpre
    obtain ⟨tr, h, htr⟩ := acceptLoop_stops s e rest
      (by rcases hf with rfl | rfl | rfl | rfl <;> simp)
      (by rcases hf with rfl | rfl | rfl | rfl <;> simp)
      (by rcases hf with rfl | rfl | rfl | rfl <;> simp) pre hpre
    refine ⟨tr, ?_, no_close_of_two tr _ _ htr rfl rfl⟩
    simp only [QSocketPrivate.accept, hv, hs, ht, Bool.not_true, Bool.false_eq_true, if_false,
      ne_eq, not_true_eq_false, or_self]
    rw [h]
  · intro hs
    obtain ⟨tr, h, htr⟩ := bind_fails p s address port mode r0 e rest hv hs
      (by rcases hf with rfl | rfl | rfl | rfl <;> simp)
    have hb : bindError e
        = (SocketError.UnknownSocketError, ErrorString.UnknownSocketErrorString) := by
      rcases hf with rfl | rfl | rfl | rfl <;> rfl
    rw [hb] at h
    exact ⟨tr, h, htr⟩
  · intro hs
    have hl : listenError e
        = (SocketError.UnknownSocketError, ErrorString.UnknownSocketErrorString) := by
      rcases hf with rfl | rfl | rfl | rfl <;> rfl
    rw [listen_fails p s backlog e rest hv hs, hl]
  · intro hp script
    exact recv_unsupported s size all script hv hp hsize

/-- C13 at a concrete input: `send` on a connected stream socket answered by
broken pipe closes the socket. -/
theorem fatal_failure_effect_witness :
    (0 < QSocketPrivate.sampleConnected.fd ∧ (0 : Int) < 10
      ∧ Errno.EPIPE ∈ fatalCodes)
    ∧ ∃ s' tr, QSocketPrivate.sampleConnected.send 10 true
          ([Reply.err Errno.EAGAIN] ++ Reply.err Errno.EPIPE :: []) = Exec.ret 0 s' tr []
        ∧ ClosesWith QSocketPrivate.sampleConnected
            ((sendError Errno.EPIPE).1, (sendError Errno.EPIPE).2.1) s' tr :=
  ⟨⟨by decide, by decide, by decide⟩,
    (fatal_failure_effect Platform.loopback QSocketPrivate.sampleConnected Errno.EPIPE
      [Reply.err Errno.EAGAIN] [] (Reply.val 0) QHostAddress.any 80
      BindMode.DefaultForPlatform 5 10 true (by decide) (by decide) (by decide)).1
      (by decide)⟩

/-- C13 as stated fails: `recv` on a stream socket that is not Connected
reports the operation as unsupported and returns -1, and the descriptor is
still open: no action is performed, the descriptor is valid and the state is
as before. -/
theorem unsupported_recv_keeps_descriptor :
    (QSocketPrivate.sample.type, QSocketPrivate.sample.state)
      = (SocketType.TcpSocket, SocketState.UnconnectedState)
    ∧ QSocketPrivate.sample.recv 10 false []
      = Exec.ret (-1)
          (QSocketPrivate.sample.setError SocketError.UnsupportedSocketOperationError
            ErrorString.OperationUnsupportedErrorString) [] []
    ∧ (QSocketPrivate.sample.setError SocketError.UnsupportedSocketOperationError
        ErrorString.OperationUnsupportedErrorString).isValid = true
    ∧ (QSocketPrivate.sample.setError SocketError.UnsupportedSocketOperationError
        ErrorString.OperationUnsupportedErrorString).fd = 7 := by
  decide

/-! ### A loop resumed after close -/

/-- The first action of an outcome with actions put in front. -/
theorem Exec.actions_after_head {α : Type} (a : Action) (l : List Action) (x : Exec α) :
    (Exec.after (a :: l) x).actions.head? = some a := by
  cases x <;> rfl

/-- C15: where the code leaves the claim.  A retry loop resumed at its head
on a socket whose descriptor is no longer valid: the loop of `connect`
returns false and the loop of `recv` returns the bytes read so far (-1 when
none, with SocketAccessError recorded), both without any action; the loops of
`send` (while bytes remain), `recvfrom`, `sendto` and `accept` do not look at
the socket and issue their system call on the invalid descriptor, whatever the
script holds. -/
theorem resumed_on_closed_socket (p : Platform) (aa : qt_sockaddr) (sz : Nat)
    (s : QSocketPrivate) (size total sent : Int) (all : Bool) (script : List Reply)
    (hc : s.isValid = false) :
    QSocketPrivate.connectLoop p aa sz s false script = Exec.ret false s [] script
    ∧ s.recvLoop size all total false script
      = (if total < size then
          Exec.ret (QSocketPrivate.recvFailValue total)
            (s.setError SocketError.SocketAccessError ErrorString.AccessErrorString) [] script
        else Exec.ret total s [] script)
    ∧ (sent < size →
      (s.sendLoop size all sent false script).actions.head?
        = some (Action.send s.fd (size - sent)))
    ∧ (QSocketPrivate.recvfromLoop p s size script).actions.head?
        = some (Action.recvmsg s.fd size)
    ∧ (QSocketPrivate.sendtoLoop p aa s size script).actions.head?
        = some (Action.sendmsg s.fd aa size)
    ∧ (s.acceptLoop script).actions.head? = some (Action.accept4 s.fd) := by
  refine ⟨?_, ?_, ?_, ?_, ?_, ?_⟩
  · cases script <;> simp [QSocketPrivate.connectLoop, QSocketPrivate.connectHead, hc]
  · have hh : s.recvHead size total
        = if total < size then
            some (QSocketPrivate.recvFailValue total,
              s.setError SocketError.SocketAccessError ErrorString.AccessErrorString)
          else some (total, s) := by
      unfold QSocketPrivate.recvHead
      by_cases hlt : total < size
      · rw [if_neg (not_not.mpr hlt), if_pos hlt]
        simp [hc]
      · rw [if_pos hlt, if_neg hlt]
    cases script <;>
      (simp only [QSocketPrivate.recvLoop, Bool.false_eq_true, if_false, hh]
       split_ifs <;> rfl)
  · intro hlt
    have hn : ¬ (True ∧ ¬ sent < size) := fun h => h.2 hlt
    cases script with
    | nil =>
      simp only [QSocketPrivate.sendLoop]
      rw [if_neg hn]
      rfl
    | cons r rs =>
      simp only [QSocketPrivate.sendLoop]
      rw [if_neg hn]
      exact Exec.actions_after_head _ _ _
  · cases script with
    | nil => rfl
    | cons r rs =>
      simp only [QSocketPrivate.recvfromLoop]
      exact Exec.actions_after_head _ _ _
  · cases script with
    | nil => rfl
    | cons r rs =>
      simp only [QSocketPrivate.sendtoLoop]
      exact Exec.actions_after_head _ _ _
  · rw [QSocketPrivate.acceptLoop.eq_def]
    cases script with
    | nil => rfl
    | cons r rs =>
      cases r with
      | ok n sa val => rfl
      | err e =>
        simp only
        by_cases h1 : e = Errno.ENOSYS ∨ e = Errno.EINVAL
        · rw [if_pos h1]
          cases rs with
          | nil => rfl
          | cons r2 rs2 =>
            cases r2 with
            | ok n sa val => rfl
            | err e2 => exact Exec.actions_after_head _ _ _
        · rw [if_neg h1]
          exact Exec.actions_after_head _ _ _

/-- C15 at a concrete input: `send` resumed on the socket that a `close`
during its suspension left issues `::send` on descriptor -1; answered by
bad-descriptor it returns the 0 bytes sent so far. -/
theorem resumed_on_closed_socket_witness :
    (QSocketPrivate.sampleConnected.close.1.isValid = false ∧ (0 : Int) < 10)
    ∧ (QSocketPrivate.sampleConnected.close.1.sendLoop 10 true 0 false
          [Reply.err Errno.EBADF]).actions.head?
        = some (Action.send QSocketPrivate.sampleConnected.close.1.fd (10 - 0))
    ∧ QSocketPrivate.sampleConnected.close.1.fd = -1
    ∧ (QSocketPrivate.sampleConnected.close.1.sendLoop 10 true 0 false
          [Reply.err Errno.EBADF]).value? = some 0 :=
  ⟨⟨by decide, by decide⟩,
    (resumed_on_closed_socket Platform.loopback qt_sockaddr.zero 0
      QSocketPrivate.sampleConnected.close.1 10 0 0 true [Reply.err Errno.EBADF]
      (by decide)).2.2.1 (by decide),
    by decide, by decide⟩

/-! ### State transitions -/

end QtNetworkNg
